import Mathlib

/-!
# endless-go-sdk: authenticators and transaction payloads

A shallow embedding of `crypto/MultiAuthKeyAuthenticator.go`,
`transactionPayload.go`, `signedTransaction.go` and
`internal/types/account.go`, and the properties of them that the
specification states.

Conventions of the embedding.

* A Go byte is a `Nat`, a `[]byte` and a Go `string` are a `List Nat`.
* A Go slice is a `List`; a nil slice and an empty slice are the same list.
  The section on nil and empty slices has the payload types once more with
  slices that are nil or not, for the round trips, where the difference
  counts.
* A Go pointer that may be nil is an `Option`; so is an interface value.
* A Go function that may panic returns an `Option`, and `none` is the panic.
* A method with a pointer receiver that assigns to its receiver takes the
  receiver's old value and returns the new one (state passing).
* The serializer and deserializer are passed and returned explicitly.
-/

namespace Endless

/-! ## The `bcs` package -/

namespace bcs

/-- The Go conversion `uint32(n)` of an `int` length or of a variant tag. -/
def uint32 (n : Nat) : Nat := n % 2 ^ 32

/-- Modelled from the spec: the serializer of the `bcs` package, which is not
among the sources. It holds the bytes written so far and the sticky error
("an error-sticky mode where any failure short-circuits subsequent
writes/reads and is retrievable at the end"). -/
structure Serializer where
  out : List Nat
  err : Option String
deriving DecidableEq, Repr

/-- Modelled from the spec: the deserializer of the `bcs` package, which is not
among the sources. It holds the bytes not yet read and the sticky error. -/
structure Deserializer where
  input : List Nat
  err : Option String
deriving DecidableEq, Repr

/-- Modelled from the spec: `Serializer.SetError`, absent from the sources. The
error is sticky: the first one set is the one retrieved at the end. -/
def Serializer.SetError (ser : Serializer) (e : String) : Serializer :=
  match ser.err with
  | some _ => ser
  | none => { ser with err := some e }

/-- Modelled from the spec: `Serializer.Error`, the error retrievable at the
end. -/
def Serializer.Error (ser : Serializer) : Option String := ser.err

/-- Raw append of bytes to the output; a serializer in error writes nothing
(the spec's short-circuit of writes after a failure). -/
def Serializer.write (ser : Serializer) (bs : List Nat) : Serializer :=
  match ser.err with
  | some _ => ser
  | none => { ser with out := ser.out ++ bs }

/-- The unsigned LEB128 bytes of `v`: seven bits per byte, low bits first, the
high bit of a byte set when more bytes follow. `more` bounds the number of
continuation bytes (four for a `uint32`). -/
def ulebBytes : Nat → Nat → List Nat
  | 0, v => [v]
  | more + 1, v => if v < 128 then [v] else (v % 128 + 128) :: ulebBytes more (v / 128)

/-- Modelled from the spec: `Serializer.Uleb128(val uint32)`, absent from the
sources ("write/read unsigned LEB128 varint (used for enum tags and sequence
lengths)"). -/
def Serializer.Uleb128 (ser : Serializer) (val : Nat) : Serializer :=
  ser.write (ulebBytes 4 (val % 2 ^ 32))

/-- Modelled from the spec: `Serializer.WriteBytes`, absent from the sources
("write/read a length-prefixed byte sequence"). -/
def Serializer.WriteBytes (ser : Serializer) (v : List Nat) : Serializer :=
  (ser.Uleb128 (uint32 v.length)).write v

/-- Modelled from the spec: `Serializer.WriteString`, absent from the sources
("write/read a length-prefixed UTF-8 string"); a Go string is its bytes. -/
def Serializer.WriteString (ser : Serializer) (v : List Nat) : Serializer :=
  ser.WriteBytes v

/-- Modelled from the spec: `Serializer.FixedBytes`, absent from the sources
("write/read a fixed-size byte array"): the bytes with no length before
them. -/
def Serializer.FixedBytes (ser : Serializer) (v : List Nat) : Serializer :=
  ser.write v

/-- Modelled from the spec: `Serializer.Bool`, absent from the sources
("write/read a boolean as a single byte"). -/
def Serializer.Bool (ser : Serializer) (v : Bool) : Serializer :=
  ser.write [if v then 1 else 0]

/-- Modelled from the spec: `Serializer.Struct`, absent from the sources
("recursively delegate to a nested structure's own encode/decode"). The
argument is an interface value or pointer; nil is a failure. -/
def Serializer.Struct {α : Type} (ser : Serializer) (v : Option α)
    (marshal : α → Serializer → Serializer) : Serializer :=
  match v with
  | none => ser.SetError "cannot marshal nil"
  | some x => marshal x ser

/-- Modelled from the spec: `Deserializer.SetError`, absent from the sources.
The error is sticky: the first one set is kept. -/
def Deserializer.SetError (des : Deserializer) (e : String) : Deserializer :=
  match des.err with
  | some _ => des
  | none => { des with err := some e }

/-- Reading of an unsigned LEB128 number of at most `n` bytes from the front
of a byte list: the value and the bytes after it, or `none` when the input
ends inside the number or the number does not end within `n` bytes. -/
def readUleb : Nat → List Nat → Option (Nat × List Nat)
  | 0, _ => none
  | _ + 1, [] => none
  | n + 1, b :: rest =>
    if b < 128 then some (b, rest)
    else
      match readUleb n rest with
      | none => none
      | some (v, rest') => some (b % 128 + 128 * v, rest')

/-- Modelled from the spec: `Deserializer.Uleb128() uint32`, absent from the
sources. A deserializer in error reads nothing and yields zero; a malformed,
truncated or out-of-range number sets the error and yields zero. -/
def Deserializer.Uleb128 (des : Deserializer) : Nat × Deserializer :=
  match des.err with
  | some _ => (0, des)
  | none =>
    match readUleb 5 des.input with
    | none => (0, des.SetError "not enough bytes remaining to deserialize uleb128")
    | some (v, rest) =>
      if v < 2 ^ 32 then (v, { des with input := rest })
      else (0, des.SetError "uleb128 overflow")

/-- Modelled from the spec: `Deserializer.ReadBytes`, absent from the sources:
a ULEB128 length, then that many bytes. -/
def Deserializer.ReadBytes (des : Deserializer) : List Nat × Deserializer :=
  let r := des.Uleb128
  match r.2.err with
  | some _ => ([], r.2)
  | none =>
    if r.1 ≤ r.2.input.length then
      (r.2.input.take r.1, { r.2 with input := r.2.input.drop r.1 })
    else ([], r.2.SetError "not enough bytes remaining to deserialize bytes")

/-- Modelled from the spec: `Deserializer.ReadString`, absent from the
sources; a Go string is its bytes. -/
def Deserializer.ReadString (des : Deserializer) : List Nat × Deserializer :=
  des.ReadBytes

/-- Modelled from the spec: `Deserializer.Bool`, absent from the sources: one
byte, 0 for false and 1 for true; anything else is a failure. -/
def Deserializer.Bool (des : Deserializer) : Bool × Deserializer :=
  match des.err with
  | some _ => (false, des)
  | none =>
    match des.input with
    | 0 :: rest => (false, { des with input := rest })
    | 1 :: rest => (true, { des with input := rest })
    | [] => (false, des.SetError "not enough bytes remaining to deserialize bool")
    | _ :: _ => (false, des.SetError "bad bool")

/-- A type of the repository that is declared in another file of the repository,
through what the code uses of it: its Go zero value and its two `bcs.Struct`
methods. `UnmarshalBCS` takes the receiver's old value and returns the new
one. -/
structure Struct (α : Type) where
  zero : α
  MarshalBCS : α → Serializer → Serializer
  UnmarshalBCS : α → Deserializer → α × Deserializer

/-- Modelled from the spec: `Deserializer.Struct`, absent from the sources: it
delegates to the `UnmarshalBCS` of the (non-nil) pointer it is given. -/
def Deserializer.Struct {α : Type} (des : Deserializer) (v : α)
    (unmarshal : α → Deserializer → α × Deserializer) : α × Deserializer :=
  unmarshal v des

/-- Modelled from the spec: `bcs.SerializeSequence`, absent from the sources:
the ULEB128 count of the elements, then each element's own encoding in
order. -/
def SerializeSequence {α : Type} (marshal : α → Serializer → Serializer)
    (array : List α) (ser : Serializer) : Serializer :=
  array.foldl (fun s x => marshal x s) (ser.Uleb128 (uint32 array.length))

/-- The element loop of `DeserializeSequence`: `n` elements, each decoded into
a zero value. -/
def readElements {α : Type} (S : Struct α) : Nat → Deserializer → List α × Deserializer
  | 0, des => ([], des)
  | n + 1, des =>
    let r := S.UnmarshalBCS S.zero des
    let rs := readElements S n r.2
    (r.1 :: rs.1, rs.2)

/-- Modelled from the spec: `bcs.DeserializeSequence[T]`, absent from the
sources: a ULEB128 count, then that many elements; nil on a failure. -/
def DeserializeSequence {α : Type} (S : Struct α) (des : Deserializer) :
    List α × Deserializer :=
  let r := des.Uleb128
  let rs := readElements S r.1 r.2
  match rs.2.err with
  | some _ => ([], rs.2)
  | none => rs

/-- Modelled from the spec: `bcs.Serialize`, absent from the sources: the
value's `MarshalBCS` on a fresh serializer; the bytes when no error was set,
otherwise no bytes and the error. -/
def Serialize (marshal : Serializer → Serializer) : List Nat × Option String :=
  let ser := marshal { out := [], err := none }
  match ser.err with
  | some e => ([], some e)
  | none => (ser.out, none)

end bcs

/-! ## `crypto/MultiAuthKeyAuthenticator.go` -/

namespace crypto

open bcs

/-- The tag `AnyPublicKeyVariant`. The source names one of its constants;
every other value is `other` with its number. -/
inductive AnyPublicKeyVariant
  | AnyPublicKeyVariantEd25519
  | other (tag : Nat)
deriving DecidableEq, Repr

/-- The tag `AnySignatureVariant`. The source names one of its constants; every
other value is `other` with its number. -/
inductive AnySignatureVariant
  | AnySignatureVariantEd25519
  | other (tag : Nat)
deriving DecidableEq, Repr

/-- The struct `AnyPublicKey{Variant, PubKey}`. `PK` is the type of the values
of the interface `crypto.PublicKey`, nil included. -/
structure AnyPublicKey (PK : Type) where
  Variant : AnyPublicKeyVariant
  PubKey : PK
deriving DecidableEq, Repr

/-- The struct `AnySignature{Variant, Signature}`. `Sig` is the type of the
values of the interface `crypto.Signature`, nil included. -/
structure AnySignature (Sig : Type) where
  Variant : AnySignatureVariant
  Signature : Sig
deriving DecidableEq, Repr

/-- The struct `MultiAuthKeyAuthenticator`: two slices of pointers. -/
structure MultiAuthKeyAuthenticator (PK Sig : Type) where
  PubKeys : List (Option (AnyPublicKey PK))
  Signatures : List (Option (AnySignature Sig))
deriving DecidableEq, Repr

/-- The method `(*AnyPublicKey).Verify(msg, sig) bool`, which is declared in
another file of the repository: a function of the receiver pointer (nil
allowed), the message and the signature, which returns a boolean or
panics. -/
abbrev KeyVerify (PK Sig : Type) : Type :=
  Option (AnyPublicKey PK) → List Nat → Sig → Option Bool

/-- The expression `ea.PubKeys[i].Verify(msg, ea.Signatures[i].Signature)` of
the loop body: both slices are indexed, the signature pointer is
dereferenced, then the key's `Verify` is called. An index out of range and a
nil signature pointer are panics. -/
def MultiAuthKeyAuthenticator.verifyAt {PK Sig : Type} (V : KeyVerify PK Sig)
    (ea : MultiAuthKeyAuthenticator PK Sig) (msg : List Nat) (i : Nat) : Option Bool :=
  match ea.PubKeys[i]?, ea.Signatures[i]? with
  | some pk, some (some sig) => V pk msg sig.Signature
  | _, _ => none

/-- The loop `for i := ...; i < len(ea.PubKeys); i++` of `Verify`, from index
`i` with `n` iterations left: a false check returns false at once, the end of
the loop returns true. -/
def MultiAuthKeyAuthenticator.verifyFrom {PK Sig : Type} (V : KeyVerify PK Sig)
    (ea : MultiAuthKeyAuthenticator PK Sig) (msg : List Nat) : Nat → Nat → Option Bool
  | 0, _ => some true
  | n + 1, i =>
    match MultiAuthKeyAuthenticator.verifyAt V ea msg i with
    | none => none
    | some false => some false
    | some true => MultiAuthKeyAuthenticator.verifyFrom V ea msg n (i + 1)

/-- The method `MultiAuthKeyAuthenticator.Verify`. -/
def MultiAuthKeyAuthenticator.Verify {PK Sig : Type} (V : KeyVerify PK Sig)
    (ea : MultiAuthKeyAuthenticator PK Sig) (msg : List Nat) : Option Bool :=
  if ea.PubKeys.length ≠ ea.Signatures.length then some false
  else MultiAuthKeyAuthenticator.verifyFrom V ea msg ea.PubKeys.length 0

/-- The two loops of `UnmarshalBCS`: `n` times, a pointer to a zero struct is
stored and `des.Struct` decodes into it. -/
def MultiAuthKeyAuthenticator.readPointers {α : Type} (S : Struct α) :
    Nat → Deserializer → List (Option α) × Deserializer
  | 0, des => ([], des)
  | n + 1, des =>
    let r := des.Struct S.zero S.UnmarshalBCS
    let rs := MultiAuthKeyAuthenticator.readPointers S n r.2
    (some r.1 :: rs.1, rs.2)

/-- The method `MultiAuthKeyAuthenticator.UnmarshalBCS`. `K` and `S` are the
codecs of `AnyPublicKey` and `AnySignature`, declared in another file of the
repository. Both fields of the receiver are overwritten, so the receiver's old
value plays no part. -/
def MultiAuthKeyAuthenticator.UnmarshalBCS {PK Sig : Type}
    (K : Struct (AnyPublicKey PK)) (S : Struct (AnySignature Sig))
    (des : Deserializer) : MultiAuthKeyAuthenticator PK Sig × Deserializer :=
  let r1 := des.Uleb128
  let p := MultiAuthKeyAuthenticator.readPointers K r1.1 r1.2
  let r2 := p.2.Uleb128
  let s := MultiAuthKeyAuthenticator.readPointers S r2.1 r2.2
  ({ PubKeys := p.1, Signatures := s.1 }, s.2)

/-- Modelled from the spec: the values of the interface `crypto.Signature`,
whose implementations are not among the sources ("variant-specific fixed or
variable byte length (Ed25519: 64 bytes; Secp256k1: 64 bytes + optional
1-byte recovery id)"). -/
inductive Signature
  | Ed25519Signature (bytes : List Nat)
  | Secp256k1Signature (bytes : List Nat)
deriving DecidableEq, Repr

/-- Modelled from the spec: `AnySignature.MarshalBCS`, absent from the
sources: the ULEB128 variant tag, then the signature as a length-prefixed byte
sequence (the test of the authenticator's encoding counts 1 + 64 bytes for an
Ed25519 signature). The numbers of the tags are not in the sources; Ed25519
is taken as 0 and Secp256k1 as 1. -/
def AnySignature.MarshalBCS (sig : AnySignature (Option crypto.Signature))
    (ser : Serializer) : Serializer :=
  match sig.Signature with
  | none => ser.SetError "nil signature"
  | some (.Ed25519Signature b) => (ser.Uleb128 0).WriteBytes b
  | some (.Secp256k1Signature b) => (ser.Uleb128 1).WriteBytes b

/-- Modelled from the spec: `AnySignature.UnmarshalBCS`, absent from the
sources: a ULEB128 variant tag, then the signature bytes with their length
before them; an unknown tag and a wrong signature length are failures
("deserialization must reject unknown tags"). -/
def AnySignature.UnmarshalBCS (sig : AnySignature (Option crypto.Signature))
    (des : Deserializer) : AnySignature (Option crypto.Signature) × Deserializer :=
  let t := des.Uleb128
  match t.2.err with
  | some _ => (sig, t.2)
  | none =>
    if t.1 = 0 then
      let b := t.2.ReadBytes
      match b.2.err with
      | some _ => (sig, b.2)
      | none =>
        if b.1.length = 64 then
          ({ Variant := .AnySignatureVariantEd25519, Signature := some (.Ed25519Signature b.1) }, b.2)
        else (sig, b.2.SetError "ed25519 signature must be 64 bytes")
    else if t.1 = 1 then
      let b := t.2.ReadBytes
      match b.2.err with
      | some _ => (sig, b.2)
      | none =>
        if b.1.length = 64 ∨ b.1.length = 65 then
          ({ Variant := .other 1, Signature := some (.Secp256k1Signature b.1) }, b.2)
        else (sig, b.2.SetError "secp256k1 signature must be 64 or 65 bytes")
    else (sig, t.2.SetError "unknown signature variant")

/-- Modelled from the spec: the codec of `AnySignature` as a `bcs.Struct`; the
zero value has tag 0 and a nil signature. -/
def AnySignature.codec : Struct (AnySignature (Option crypto.Signature)) where
  zero := { Variant := .AnySignatureVariantEd25519, Signature := none }
  MarshalBCS := AnySignature.MarshalBCS
  UnmarshalBCS := AnySignature.UnmarshalBCS

/-- Modelled from the spec: the values of the interface `crypto.PublicKey`,
whose implementations are not among the sources ("variants = signature
schemes (at minimum Ed25519 and Secp256k1")). -/
inductive PublicKey
  | Ed25519PublicKey (bytes : List Nat)
  | Secp256k1PublicKey (bytes : List Nat)
deriving DecidableEq, Repr

/-- Modelled from the spec: `AnyPublicKey.MarshalBCS`, absent from the
sources: the ULEB128 variant tag, then the key as a length-prefixed byte
sequence (the test of the authenticator's encoding counts 1 + 32 bytes for an
Ed25519 key). The numbers of the tags are not in the sources; Ed25519 is
taken as 0 and Secp256k1 as 1. -/
def AnyPublicKey.MarshalBCS (key : AnyPublicKey (Option crypto.PublicKey))
    (ser : Serializer) : Serializer :=
  match key.PubKey with
  | none => ser.SetError "nil public key"
  | some (.Ed25519PublicKey b) => (ser.Uleb128 0).WriteBytes b
  | some (.Secp256k1PublicKey b) => (ser.Uleb128 1).WriteBytes b

/-- Modelled from the spec: `AnyPublicKey.UnmarshalBCS`, absent from the
sources: a ULEB128 variant tag, then the key bytes with their length before
them (32 for Ed25519, 65 for Secp256k1); an unknown tag and a wrong key
length are failures. -/
def AnyPublicKey.UnmarshalBCS (key : AnyPublicKey (Option crypto.PublicKey))
    (des : Deserializer) : AnyPublicKey (Option crypto.PublicKey) × Deserializer :=
  let t := des.Uleb128
  match t.2.err with
  | some _ => (key, t.2)
  | none =>
    if t.1 = 0 then
      let b := t.2.ReadBytes
      match b.2.err with
      | some _ => (key, b.2)
      | none =>
        if b.1.length = 32 then
          ({ Variant := .AnyPublicKeyVariantEd25519, PubKey := some (.Ed25519PublicKey b.1) }, b.2)
        else (key, b.2.SetError "ed25519 public key must be 32 bytes")
    else if t.1 = 1 then
      let b := t.2.ReadBytes
      match b.2.err with
      | some _ => (key, b.2)
      | none =>
        if b.1.length = 65 then
          ({ Variant := .other 1, PubKey := some (.Secp256k1PublicKey b.1) }, b.2)
        else (key, b.2.SetError "secp256k1 public key must be 65 bytes")
    else (key, t.2.SetError "unknown public key variant")

/-- Modelled from the spec: the codec of `AnyPublicKey` as a `bcs.Struct`; the
zero value has tag 0 and a nil key. -/
def AnyPublicKey.codec : Struct (AnyPublicKey (Option crypto.PublicKey)) where
  zero := { Variant := .AnyPublicKeyVariantEd25519, PubKey := none }
  MarshalBCS := AnyPublicKey.MarshalBCS
  UnmarshalBCS := AnyPublicKey.UnmarshalBCS

/-- The tag `AccountAuthenticatorType`. The source names two of its constants;
every other value is `other` with its number. -/
inductive AccountAuthenticatorType
  | AccountAuthenticatorEd25519
  | AccountAuthenticatorSingleSender
  | other (tag : Nat)
deriving DecidableEq, Repr

/-- The struct `SingleKeyAuthenticator`, through the two fields the source
reads: `PubKey *AnyPublicKey` and `Sig *AnySignature`. -/
structure SingleKeyAuthenticator (PK Sig : Type) where
  PubKey : Option (AnyPublicKey PK)
  Sig : Option (AnySignature Sig)
deriving DecidableEq, Repr

/-- A non-nil value of the interface held in `AccountAuthenticator.Auth`, by
its dynamic type: a `*SingleKeyAuthenticator` (the pointer may be nil), a
`*MultiAuthKeyAuthenticator`, or a value of any other implementation, of
type `Other`. -/
inductive AccountAuthImpl (PK Sig Other : Type)
  | singleKey (a : Option (SingleKeyAuthenticator PK Sig))
  | multiAuthKey (a : Option (MultiAuthKeyAuthenticator PK Sig))
  | other (a : Other)
deriving DecidableEq, Repr

/-- The struct `AccountAuthenticator{Variant, Auth}`; `Auth` is an interface
value and may be nil. -/
structure AccountAuthenticator (PK Sig Other : Type) where
  Variant : AccountAuthenticatorType
  Auth : Option (AccountAuthImpl PK Sig Other)
deriving DecidableEq, Repr

/-- The result triple of `fromAuthenticator`: two pointers and an error. -/
abbrev Converted (PK Sig : Type) : Type :=
  Option (AnyPublicKey PK) × Option (AnySignature Sig) × Option String

/-- The function `fromAuthenticator`. `PubKey` and `Signature` are the methods
`auth.PubKey()` and `auth.Signature()` of `AccountAuthenticator`, declared in
another file of the repository: each returns an interface value or panics. The
unchecked type assertion `auth.Auth.(*SingleKeyAuthenticator)` panics when the
dynamic type of `Auth` is another one or `Auth` is nil, and the field reads
after it panic on a nil pointer. -/
def fromAuthenticator {PK Sig Other : Type}
    (PubKey : AccountAuthenticator PK Sig Other → Option PK)
    (Signature : AccountAuthenticator PK Sig Other → Option Sig)
    (auth : AccountAuthenticator PK Sig Other) : Option (Converted PK Sig) :=
  match auth.Variant with
  | .AccountAuthenticatorEd25519 =>
    match PubKey auth with
    | none => none
    | some pk =>
      match Signature auth with
      | none => none
      | some sg =>
        some (some { Variant := .AnyPublicKeyVariantEd25519, PubKey := pk },
              some { Variant := .AnySignatureVariantEd25519, Signature := sg }, none)
  | .AccountAuthenticatorSingleSender =>
    match auth.Auth with
    | some (.singleKey (some a)) => some (a.PubKey, a.Sig, none)
    | _ => none
  | .other tag =>
    some (none, none, some ("unsupported authenticator type " ++ toString tag))

end crypto

/-! ## `transactionPayload.go` -/

open bcs

/-- The types that `transactionPayload.go` uses and that are declared in
another file of the repository, each with its zero value and its `bcs.Struct`
methods: `ModuleId`, `TypeTag`, `AccountAddress` and `Script`. -/
structure Decls where
  ModuleId : Type
  TypeTag : Type
  AccountAddress : Type
  Script : Type
  moduleId : Struct ModuleId
  typeTag : Struct TypeTag
  accountAddress : Struct AccountAddress
  script : Struct Script

/-- The constant `TransactionPayloadVariantScript`. -/
def TransactionPayloadVariantScript : Nat := 0

/-- The constant `TransactionPayloadVariantModuleBundle`. -/
def TransactionPayloadVariantModuleBundle : Nat := 1

/-- The constant `TransactionPayloadVariantEntryFunction`. -/
def TransactionPayloadVariantEntryFunction : Nat := 2

/-- The constant `TransactionPayloadVariantMultisig`. -/
def TransactionPayloadVariantMultisig : Nat := 3

/-- The constant `TransactionPayloadVariantSafeScript`. -/
def TransactionPayloadVariantSafeScript : Nat := 4

/-- The constant `TransactionPayloadVariantSafeEntryFunction`. -/
def TransactionPayloadVariantSafeEntryFunction : Nat := 5

/-- The constant `MultisigTransactionPayloadVariantEntryFunction`. -/
def MultisigTransactionPayloadVariantEntryFunction : Nat := 0

/-- The struct `EntryFunction`. -/
structure EntryFunction (E : Decls) where
  Module : E.ModuleId
  Function : List Nat
  ArgTypes : List E.TypeTag
  Args : List (List Nat)

/-- The struct `SafeEntryFunction`; `Hash` is a `[32]byte`. -/
structure SafeEntryFunction (E : Decls) where
  Module : E.ModuleId
  Function : List Nat
  ArgTypes : List E.TypeTag
  Args : List (List Nat)
  Hash : { l : List Nat // l.length = 32 }

/-- A non-nil value of the interface `MultisigTransactionImpl`: a pointer to
an `EntryFunction`, the one implementation that the decoder constructs. -/
inductive MultisigTransactionImpl (E : Decls)
  | entryFunction (sf : EntryFunction E)

/-- The struct `MultisigTransactionPayload`; `Variant` is a `uint32`, `Payload`
an interface value. -/
structure MultisigTransactionPayload (E : Decls) where
  Variant : Nat
  Payload : Option (MultisigTransactionImpl E)

/-- The struct `Multisig`; `Payload` is an optional pointer. -/
structure Multisig (E : Decls) where
  MultisigAddress : E.AccountAddress
  Payload : Option (MultisigTransactionPayload E)

/-- A non-nil value of the interface `TransactionPayloadImpl`, by its dynamic
type: the four implementations of `transactionPayload.go` and `Script`. -/
inductive TransactionPayloadImpl (E : Decls)
  | script (s : E.Script)
  | moduleBundle
  | entryFunction (sf : EntryFunction E)
  | multisig (sf : Multisig E)
  | safeEntryFunction (sf : SafeEntryFunction E)

/-- The struct `TransactionPayload`; `Payload` is an interface value. -/
structure TransactionPayload (E : Decls) where
  Payload : Option (TransactionPayloadImpl E)

/-- The zero value `EntryFunction{}`. -/
def EntryFunction.zero (E : Decls) : EntryFunction E :=
  { Module := E.moduleId.zero, Function := [], ArgTypes := [], Args := [] }

/-- The zero value `MultisigTransactionPayload{}`. -/
def MultisigTransactionPayload.zero (E : Decls) : MultisigTransactionPayload E :=
  { Variant := 0, Payload := none }

/-- The zero value `Multisig{}`. -/
def Multisig.zero (E : Decls) : Multisig E :=
  { MultisigAddress := E.accountAddress.zero, Payload := none }

/-- The method `ModuleBundle.MarshalBCS`. -/
def ModuleBundle.MarshalBCS (ser : Serializer) : Serializer :=
  ser.SetError "ModuleBundle unimplemented"

/-- The method `ModuleBundle.UnmarshalBCS`. -/
def ModuleBundle.UnmarshalBCS (des : Deserializer) : Deserializer :=
  des.SetError "ModuleBundle unimplemented"

/-- The method `EntryFunction.MarshalBCS`. -/
def EntryFunction.MarshalBCS (E : Decls) (sf : EntryFunction E) (ser : Serializer) :
    Serializer :=
  let ser := E.moduleId.MarshalBCS sf.Module ser
  let ser := ser.WriteString sf.Function
  let ser := SerializeSequence E.typeTag.MarshalBCS sf.ArgTypes ser
  let ser := ser.Uleb128 (uint32 sf.Args.length)
  sf.Args.foldl (fun s a => s.WriteBytes a) ser

/-- The loop `for i := range alen { sf.Args[i] = des.ReadBytes() }`: `n`
byte sequences read in order. -/
def readArgs : Nat → Deserializer → List (List Nat) × Deserializer
  | 0, des => ([], des)
  | n + 1, des =>
    let r := des.ReadBytes
    let rs := readArgs n r.2
    (r.1 :: rs.1, rs.2)

/-- The method `EntryFunction.UnmarshalBCS`. -/
def EntryFunction.UnmarshalBCS (E : Decls) (sf : EntryFunction E) (des : Deserializer) :
    EntryFunction E × Deserializer :=
  let m := E.moduleId.UnmarshalBCS sf.Module des
  let f := m.2.ReadString
  let ts := DeserializeSequence E.typeTag f.2
  let alen := ts.2.Uleb128
  let args := readArgs alen.1 alen.2
  ({ Module := m.1, Function := f.1, ArgTypes := ts.1, Args := args.1 }, args.2)

/-- The method `SafeEntryFunction.MarshalBCS`. -/
def SafeEntryFunction.MarshalBCS (E : Decls) (sf : SafeEntryFunction E)
    (ser : Serializer) : Serializer :=
  let ser := E.moduleId.MarshalBCS sf.Module ser
  let ser := ser.WriteString sf.Function
  let ser := SerializeSequence E.typeTag.MarshalBCS sf.ArgTypes ser
  let ser := ser.Uleb128 (uint32 sf.Args.length)
  let ser := sf.Args.foldl (fun s a => s.WriteBytes a) ser
  ser.FixedBytes sf.Hash.val

/-- The method `MarshalBCS` of the value held in a `MultisigTransactionImpl`. -/
def MultisigTransactionImpl.MarshalBCS (E : Decls) (p : MultisigTransactionImpl E)
    (ser : Serializer) : Serializer :=
  match p with
  | .entryFunction sf => EntryFunction.MarshalBCS E sf ser

/-- The method `MultisigTransactionPayload.MarshalBCS`. -/
def MultisigTransactionPayload.MarshalBCS (E : Decls) (sf : MultisigTransactionPayload E)
    (ser : Serializer) : Serializer :=
  let ser := ser.Uleb128 (uint32 sf.Variant)
  ser.Struct sf.Payload (MultisigTransactionImpl.MarshalBCS E)

/-- The method `MultisigTransactionPayload.UnmarshalBCS`. -/
def MultisigTransactionPayload.UnmarshalBCS (E : Decls) (sf : MultisigTransactionPayload E)
    (des : Deserializer) : MultisigTransactionPayload E × Deserializer :=
  let variant := des.Uleb128
  if variant.1 = MultisigTransactionPayloadVariantEntryFunction then
    let r := variant.2.Struct (EntryFunction.zero E) (EntryFunction.UnmarshalBCS E)
    ({ sf with Payload := some (.entryFunction r.1) }, r.2)
  else
    (sf, variant.2.SetError
      ("bad variant " ++ toString variant.1 ++ " for MultisigTransactionPayload"))

/-- The method `Multisig.MarshalBCS`. -/
def Multisig.MarshalBCS (E : Decls) (sf : Multisig E) (ser : Serializer) : Serializer :=
  let ser := ser.Struct (some sf.MultisigAddress) E.accountAddress.MarshalBCS
  match sf.Payload with
  | none => ser.Bool false
  | some p => (ser.Bool true).Struct (some p) (MultisigTransactionPayload.MarshalBCS E)

/-- The method `Multisig.UnmarshalBCS`. -/
def Multisig.UnmarshalBCS (E : Decls) (sf : Multisig E) (des : Deserializer) :
    Multisig E × Deserializer :=
  let a := des.Struct sf.MultisigAddress E.accountAddress.UnmarshalBCS
  let b := a.2.Bool
  if b.1 then
    let p := b.2.Struct (MultisigTransactionPayload.zero E)
      (MultisigTransactionPayload.UnmarshalBCS E)
    ({ MultisigAddress := a.1, Payload := some p.1 }, p.2)
  else
    ({ sf with MultisigAddress := a.1 }, b.2)

/-- The method `PayloadType` of the value held in a `TransactionPayloadImpl`.
The one of `Script` is declared in another file of the repository; it is taken to
return the constant named after it. -/
def TransactionPayloadImpl.PayloadType {E : Decls} : TransactionPayloadImpl E → Nat
  | .script _ => TransactionPayloadVariantScript
  | .moduleBundle => TransactionPayloadVariantModuleBundle
  | .entryFunction _ => TransactionPayloadVariantEntryFunction
  | .multisig _ => TransactionPayloadVariantMultisig
  | .safeEntryFunction _ => TransactionPayloadVariantSafeEntryFunction

/-- The method `MarshalBCS` of the value held in a `TransactionPayloadImpl`. -/
def TransactionPayloadImpl.MarshalBCS (E : Decls) (p : TransactionPayloadImpl E)
    (ser : Serializer) : Serializer :=
  match p with
  | .script s => E.script.MarshalBCS s ser
  | .moduleBundle => ModuleBundle.MarshalBCS ser
  | .entryFunction sf => EntryFunction.MarshalBCS E sf ser
  | .multisig sf => Multisig.MarshalBCS E sf ser
  | .safeEntryFunction sf => SafeEntryFunction.MarshalBCS E sf ser

/-- The method `TransactionPayload.MarshalBCS`; the receiver is a pointer that
may be nil. -/
def TransactionPayload.MarshalBCS (E : Decls) (txn : Option (TransactionPayload E))
    (ser : Serializer) : Serializer :=
  match txn with
  | none => ser.SetError "nil transaction payload"
  | some t =>
    match t.Payload with
    | none => ser.SetError "nil transaction payload"
    | some p =>
      let ser := ser.Uleb128 (uint32 p.PayloadType)
      TransactionPayloadImpl.MarshalBCS E p ser

/-- The method `TransactionPayload.UnmarshalBCS`. -/
def TransactionPayload.UnmarshalBCS (E : Decls) (txn : TransactionPayload E)
    (des : Deserializer) : TransactionPayload E × Deserializer :=
  let payloadType := des.Uleb128
  if payloadType.1 = TransactionPayloadVariantScript then
    let r := E.script.UnmarshalBCS E.script.zero payloadType.2
    ({ Payload := some (.script r.1) }, r.2)
  else if payloadType.1 = TransactionPayloadVariantModuleBundle then
    (txn, payloadType.2.SetError "module bundle is not supported as a transaction payload")
  else if payloadType.1 = TransactionPayloadVariantEntryFunction then
    let r := EntryFunction.UnmarshalBCS E (EntryFunction.zero E) payloadType.2
    ({ Payload := some (.entryFunction r.1) }, r.2)
  else if payloadType.1 = TransactionPayloadVariantMultisig then
    let r := Multisig.UnmarshalBCS E (Multisig.zero E) payloadType.2
    ({ Payload := some (.multisig r.1) }, r.2)
  else
    (txn, payloadType.2.SetError ("bad txn payload kind, " ++ toString payloadType.1))

/-! ## Round trips -/

/-- The codec `S` round-trips at the value `x`: on every serializer without an
error `MarshalBCS` appends the same bytes `bs` and sets no error, and
`UnmarshalBCS` into a zero value, on `bs` followed by any bytes `rest`,
yields `x`, sets no error and leaves exactly `rest` unread. -/
def bcs.Struct.RoundTripsAt {α : Type} (S : Struct α) (x : α) : Prop :=
  ∃ bs : List Nat,
    (∀ out, S.MarshalBCS x { out := out, err := none } = { out := out ++ bs, err := none }) ∧
    (∀ rest, S.UnmarshalBCS S.zero { input := bs ++ rest, err := none }
      = (x, { input := rest, err := none }))

/-- The bytes that the loop `for _, a := range sf.Args { ser.WriteBytes(a) }`
writes. -/
def argsBytes : List (List Nat) → List Nat
  | [] => []
  | a :: rest => ulebBytes 4 (uint32 a.length % 2 ^ 32) ++ a ++ argsBytes rest

/-- Every length that `EntryFunction.MarshalBCS` writes fits the `uint32` it is
converted to: the function name, the number of type tags, the number of
arguments and each argument. -/
def EntryFunction.InRange {E : Decls} (sf : EntryFunction E) : Prop :=
  sf.Function.length < 2 ^ 32 ∧ sf.ArgTypes.length < 2 ^ 32 ∧
    sf.Args.length < 2 ^ 32 ∧ ∀ a ∈ sf.Args, a.length < 2 ^ 32

/-- The parts of an `EntryFunction` whose codecs are declared in another
file of the repository round-trip: the module id and each type tag. -/
def EntryFunction.PartsRoundTrip {E : Decls} (sf : EntryFunction E) : Prop :=
  E.moduleId.RoundTripsAt sf.Module ∧ ∀ t ∈ sf.ArgTypes, E.typeTag.RoundTripsAt t

/-- The payloads of the round-trip property: an `EntryFunction`, or a `Multisig`
with no inner payload or with an inner payload of variant EntryFunction that
holds an `EntryFunction`; the lengths are in range and the parts with a codec
of their own (module id, type tags, multisig address) round-trip. -/
def TransactionPayload.RoundTripDomain {E : Decls} (txn : TransactionPayload E) : Prop :=
  match txn.Payload with
  | some (.entryFunction sf) => sf.InRange ∧ sf.PartsRoundTrip
  | some (.multisig m) =>
    E.accountAddress.RoundTripsAt m.MultisigAddress ∧
      (match m.Payload with
       | none => True
       | some p =>
         p.Variant = MultisigTransactionPayloadVariantEntryFunction ∧
           (match p.Payload with
            | some (.entryFunction sf) => sf.InRange ∧ sf.PartsRoundTrip
            | none => False))
  | _ => False

/-- A byte string encoded with its length before it, as a `bcs.Struct`. -/
def bytesStruct : Struct (List Nat) where
  zero := []
  MarshalBCS := fun b ser => ser.WriteBytes b
  UnmarshalBCS := fun _ des => des.ReadBytes

/-- An instance of `Decls`, for the evaluation of the model at concrete
inputs: each of the four types is a byte string, encoded with its length
before it. -/
def Decls.sample : Decls where
  ModuleId := List Nat
  TypeTag := List Nat
  AccountAddress := List Nat
  Script := List Nat
  moduleId := bytesStruct
  typeTag := bytesStruct
  accountAddress := bytesStruct
  script := bytesStruct

/-- An `EntryFunction` over the sample declarations with 2^32 arguments, each
the empty byte string, an empty module id, an empty name and no type tag. -/
def EntryFunction.manyArgs : EntryFunction Decls.sample :=
  { Module := [], Function := [], ArgTypes := [], Args := List.replicate (2 ^ 32) [] }

/-- A `Multisig` over the sample declarations with an inner `EntryFunction`
payload: one type tag, two arguments of which one is empty. -/
def Multisig.sample : Multisig Decls.sample :=
  { MultisigAddress := [10, 11],
    Payload := some
      { Variant := MultisigTransactionPayloadVariantEntryFunction,
        Payload := some (.entryFunction
          { Module := [1, 2], Function := [102], ArgTypes := [[7]], Args := [[1, 2, 3], []] }) } }

/-- A `SafeEntryFunction` over the sample declarations: one argument and a
hash of 32 zero bytes. -/
def SafeEntryFunction.sample : SafeEntryFunction Decls.sample :=
  { Module := [1], Function := [102], ArgTypes := [], Args := [[7]],
    Hash := ⟨List.replicate 32 0, rfl⟩ }

/-! ## Further methods of `transactionPayload.go` and `MultiAuthKeyAuthenticator.go` -/

/-- The zero value `SafeEntryFunction{}`. -/
def SafeEntryFunction.zero (E : Decls) : SafeEntryFunction E :=
  { Module := E.moduleId.zero, Function := [], ArgTypes := [], Args := [],
    Hash := ⟨List.replicate 32 0, rfl⟩ }

/-- The loop `for i, value := range ... { sf.Hash[i] = value }` from index `i`
on: each value is stored at its index in the 32-byte array; an index of 32 or
more is out of range, a panic. -/
def SafeEntryFunction.copyHash :
    { l : List Nat // l.length = 32 } → Nat → List Nat → Option { l : List Nat // l.length = 32 }
  | hash, _, [] => some hash
  | hash, i, value :: rest =>
    if i < 32 then
      SafeEntryFunction.copyHash
        ⟨hash.val.set i value, by rw [List.length_set]; exact hash.property⟩ (i + 1) rest
    else none

/-- The method `SafeEntryFunction.UnmarshalBCS`; `none` is the panic of the
last loop. -/
def SafeEntryFunction.UnmarshalBCS (E : Decls) (sf : SafeEntryFunction E)
    (des : Deserializer) : Option (SafeEntryFunction E × Deserializer) :=
  let m := E.moduleId.UnmarshalBCS sf.Module des
  let f := m.2.ReadString
  let ts := DeserializeSequence E.typeTag f.2
  let alen := ts.2.Uleb128
  let args := readArgs alen.1 alen.2
  let h := args.2.ReadBytes
  match SafeEntryFunction.copyHash sf.Hash 0 h.1 with
  | none => none
  | some hash =>
    some ({ Module := m.1, Function := f.1, ArgTypes := ts.1, Args := args.1, Hash := hash },
          h.2)

/-- The encodings `enc x` of the elements of a list, one after the other. -/
def encodeAll {α : Type} (enc : α → List Nat) : List α → List Nat
  | [] => []
  | x :: rest => enc x ++ encodeAll enc rest

/-- The element loop of `bcs.SerializeSequence` on a slice of pointers: the
`MarshalBCS` of each element in order. A nil entry makes that method read
through a nil receiver, a panic (`none`). -/
def crypto.MultiAuthKeyAuthenticator.marshalPointers {α : Type} (S : Struct α) :
    List (Option α) → Serializer → Option Serializer
  | [], ser => some ser
  | none :: _, _ => none
  | some x :: rest, ser =>
    crypto.MultiAuthKeyAuthenticator.marshalPointers S rest (S.MarshalBCS x ser)

/-- The call `bcs.SerializeSequence(array, ser)` on a slice of pointers: the
ULEB128 count, then the elements. -/
def crypto.MultiAuthKeyAuthenticator.serializePointers {α : Type} (S : Struct α)
    (array : List (Option α)) (ser : Serializer) : Option Serializer :=
  crypto.MultiAuthKeyAuthenticator.marshalPointers S array
    (ser.Uleb128 (uint32 array.length))

/-- The method `MultiAuthKeyAuthenticator.MarshalBCS`. `K` and `S` are the
codecs of `AnyPublicKey` and `AnySignature`. -/
def crypto.MultiAuthKeyAuthenticator.MarshalBCS {PK Sig : Type}
    (K : Struct (crypto.AnyPublicKey PK)) (S : Struct (crypto.AnySignature Sig))
    (ea : crypto.MultiAuthKeyAuthenticator PK Sig) (ser : Serializer) : Option Serializer :=
  match crypto.MultiAuthKeyAuthenticator.serializePointers K ea.PubKeys ser with
  | none => none
  | some ser => crypto.MultiAuthKeyAuthenticator.serializePointers S ea.Signatures ser

/-! ## `signedTransaction.go` -/

/-- The types that `signedTransaction.go` uses and that are declared in
another file of the repository: `RawTransaction`, `AccountAddress`, the
fields of the multi-agent and fee-payer authenticators that this file does
not read (`AuthFields`), and the values of every other implementation of the
interface held in `TransactionAuthenticator.Auth` (`OtherAuth`). -/
structure TxTypes where
  RawTransaction : Type
  AccountAddress : Type
  AuthFields : Type
  OtherAuth : Type

/-- The struct `MultiAgentTransactionAuthenticator`, through the field that
`Verify` reads. -/
structure MultiAgentTransactionAuthenticator (T : TxTypes) where
  SecondarySignerAddresses : List T.AccountAddress
  others : T.AuthFields

/-- The struct `FeePayerTransactionAuthenticator`, through the two fields that
`Verify` reads. -/
structure FeePayerTransactionAuthenticator (T : TxTypes) where
  FeePayer : Option T.AccountAddress
  SecondarySignerAddresses : List T.AccountAddress
  others : T.AuthFields

/-- A non-nil value of the interface held in `TransactionAuthenticator.Auth`,
by its dynamic type: the two types of the type switch of `Verify` (pointers,
which may be nil), or a value of any other implementation. -/
inductive TransactionAuthenticatorImpl (T : TxTypes)
  | multiAgent (a : Option (MultiAgentTransactionAuthenticator T))
  | feePayer (a : Option (FeePayerTransactionAuthenticator T))
  | other (a : T.OtherAuth)

/-- The struct `TransactionAuthenticator`: a variant tag and the interface
value `Auth`, which may be nil. -/
structure TransactionAuthenticator (T : TxTypes) where
  Variant : Nat
  Auth : Option (TransactionAuthenticatorImpl T)

/-- The struct `SignedTransaction`: two pointers. -/
structure SignedTransaction (T : TxTypes) where
  Transaction : Option T.RawTransaction
  Authenticator : Option (TransactionAuthenticator T)

/-- The tag of `RawTransactionWithData`. The source names two of its
constants; every other value is `other` with its number. -/
inductive RawTransactionWithDataVariant
  | MultiAgentRawTransactionWithDataVariant
  | MultiAgentWithFeePayerRawTransactionWithDataVariant
  | other (tag : Nat)
deriving DecidableEq, Repr

/-- The struct `MultiAgentRawTransactionWithData`, as `Verify` builds it. -/
structure MultiAgentRawTransactionWithData (T : TxTypes) where
  RawTxn : Option T.RawTransaction
  SecondarySigners : List T.AccountAddress

/-- The struct `MultiAgentWithFeePayerRawTransactionWithData`, as `Verify`
builds it. -/
structure MultiAgentWithFeePayerRawTransactionWithData (T : TxTypes) where
  RawTxn : Option T.RawTransaction
  FeePayer : Option T.AccountAddress
  SecondarySigners : List T.AccountAddress

/-- The value held in `RawTransactionWithData.Inner`, by its dynamic type. -/
inductive RawTransactionWithDataImpl (T : TxTypes)
  | multiAgent (inner : MultiAgentRawTransactionWithData T)
  | multiAgentWithFeePayer (inner : MultiAgentWithFeePayerRawTransactionWithData T)

/-- The struct `RawTransactionWithData{Variant, Inner}`. -/
structure RawTransactionWithData (T : TxTypes) where
  Variant : RawTransactionWithDataVariant
  Inner : RawTransactionWithDataImpl T

/-- The functions that `signedTransaction.go` calls and that are declared in
another file of the repository or in a library, each taken to return:

* the codecs of `RawTransaction` and `TransactionAuthenticator`;
* `(*RawTransaction).SigningMessage()`, a message and an error;
* `(*TransactionAuthenticator).Verify(msg)`;
* `RawTransactionWithDataPrehash()`;
* the `MarshalBCS` of `RawTransactionWithData`;
* SHA3-256 on a byte string, and `base58.Encode`. -/
structure TxDecls (T : TxTypes) where
  rawTransaction : Struct T.RawTransaction
  transactionAuthenticator : Struct (TransactionAuthenticator T)
  SigningMessage : Option T.RawTransaction → List Nat × Option String
  Verify : TransactionAuthenticator T → List Nat → Bool
  RawTransactionWithDataPrehash : List Nat
  withDataMarshalBCS : RawTransactionWithData T → Serializer → Serializer
  sha3 : List Nat → List Nat
  base58Encode : List Nat → String

/-- The constant `UserTransactionVariant`. -/
def UserTransactionVariant : Nat := 0

/-- The bytes of the Go string `"ENDLESS::Transaction"`. -/
def transactionDomain : List Nat :=
  [69, 78, 68, 76, 69, 83, 83, 58, 58, 84, 114, 97, 110, 115, 97, 99, 116, 105, 111, 110]

/-- Modelled from the spec: `Sha3256Hash(parts [][]byte)`, absent from the
sources ("Hash primitive: SHA3-256 over concatenated byte buffers"); `sha3` is
SHA3-256 on one byte string. -/
def Sha3256Hash (sha3 : List Nat → List Nat) (parts : List (List Nat)) : List Nat :=
  sha3 (encodeAll (fun p => p) parts)

/-- The method `SignedTransaction.MarshalBCS`: the `MarshalBCS` of the raw
transaction, then the one of the authenticator, each called on the pointer
field; a nil pointer is read through by the method, a panic (`none`). -/
def SignedTransaction.MarshalBCS {T : TxTypes} (D : TxDecls T) (txn : SignedTransaction T)
    (ser : Serializer) : Option Serializer :=
  match txn.Transaction with
  | none => none
  | some raw =>
    let ser := D.rawTransaction.MarshalBCS raw ser
    match txn.Authenticator with
    | none => none
    | some auth => some (D.transactionAuthenticator.MarshalBCS auth ser)

/-- The method `SignedTransaction.UnmarshalBCS`: both pointer fields are set
to fresh structs, which are decoded in turn. -/
def SignedTransaction.UnmarshalBCS {T : TxTypes} (D : TxDecls T) (des : Deserializer) :
    SignedTransaction T × Deserializer :=
  let r := D.rawTransaction.UnmarshalBCS D.rawTransaction.zero des
  let a := D.transactionAuthenticator.UnmarshalBCS D.transactionAuthenticator.zero r.2
  ({ Transaction := some r.1, Authenticator := some a.1 }, a.2)

/-- The call `bcs.Serialize(txn)` on a `SignedTransaction`: the bytes and a nil
error, or no bytes and the error; `none` when `MarshalBCS` panics. -/
def SignedTransaction.Serialize {T : TxTypes} (D : TxDecls T) (txn : SignedTransaction T) :
    Option (List Nat × Option String) :=
  match SignedTransaction.MarshalBCS D txn { out := [], err := none } with
  | none => none
  | some ser =>
    match ser.err with
    | some e => some ([], some e)
    | none => some (ser.out, none)

/-- The last step of each case of `Verify`: nil when the authenticator
verifies the message, the error "signature is invalid" otherwise. -/
def SignedTransaction.check {T : TxTypes} (D : TxDecls T) (auth : TransactionAuthenticator T)
    (message : List Nat) : Option String :=
  if D.Verify auth message then none else some "signature is invalid"

/-- The method `SignedTransaction.Verify`. The result is the returned error
(`some none` is a nil error); `none` is a panic, on a nil `Authenticator`
pointer or a nil pointer held in `Auth`. -/
def SignedTransaction.Verify {T : TxTypes} (D : TxDecls T) (txn : SignedTransaction T) :
    Option (Option String) :=
  match txn.Authenticator with
  | none => none
  | some auth =>
    match auth.Auth with
    | some (.multiAgent none) => none
    | some (.multiAgent (some ma)) =>
      let prehash := D.RawTransactionWithDataPrehash
      let rawTransactionWithData : RawTransactionWithData T :=
        { Variant := .MultiAgentRawTransactionWithDataVariant,
          Inner := .multiAgent
            { RawTxn := txn.Transaction, SecondarySigners := ma.SecondarySignerAddresses } }
      let r := bcs.Serialize (D.withDataMarshalBCS rawTransactionWithData)
      match r.2 with
      | some err => some (some err)
      | none => some (SignedTransaction.check D auth (prehash ++ r.1))
    | some (.feePayer none) => none
    | some (.feePayer (some fp)) =>
      let prehash := D.RawTransactionWithDataPrehash
      let rawTransactionWithData : RawTransactionWithData T :=
        { Variant := .MultiAgentWithFeePayerRawTransactionWithDataVariant,
          Inner := .multiAgentWithFeePayer
            { RawTxn := txn.Transaction, FeePayer := fp.FeePayer,
              SecondarySigners := fp.SecondarySignerAddresses } }
      let r := bcs.Serialize (D.withDataMarshalBCS rawTransactionWithData)
      match r.2 with
      | some err => some (some err)
      | none => some (SignedTransaction.check D auth (prehash ++ r.1))
    | _ =>
      let r := D.SigningMessage txn.Transaction
      match r.2 with
      | some err => some (some err)
      | none => some (SignedTransaction.check D auth r.1)

/-- The method `SignedTransaction.Hash`, with the global `TransactionPrefix`
passed in and returned. The first component is the returned pair of a string
and an error, or `none` when `bcs.Serialize` panics; the second is
`TransactionPrefix` after the call. -/
def SignedTransaction.Hash {T : TxTypes} (D : TxDecls T)
    (TransactionPrefix : Option (List Nat)) (txn : SignedTransaction T) :
    Option (String × Option String) × Option (List Nat) :=
  let TransactionPrefix : List Nat :=
    match TransactionPrefix with
    | none => Sha3256Hash D.sha3 [transactionDomain]
    | some p => p
  match SignedTransaction.Serialize D txn with
  | none => (none, some TransactionPrefix)
  | some (_, some err) => (some ("", some err), some TransactionPrefix)
  | some (txnBytes, none) =>
    let hashBytes :=
      Sha3256Hash D.sha3 [TransactionPrefix, [UserTransactionVariant % 256], txnBytes]
    (some (D.base58Encode hashBytes, none), some TransactionPrefix)

/-- Modelled from the spec: `(*RawTransaction).SigningMessage()`, absent from
the sources ("Raw Transaction → signing message (domain prehash + canonical
bytes)"): the single-signer prehash followed by the canonical bytes of the
raw transaction, or the serialization error. `rawPrehash` is the single-signer
prehash; a nil receiver is a failure. -/
def RawTransaction.SigningMessage {Raw : Type} (rawPrehash : List Nat) (R : Struct Raw)
    (txn : Option Raw) : List Nat × Option String :=
  match txn with
  | none => ([], some "nil raw transaction")
  | some raw =>
    let r := Serialize (R.MarshalBCS raw)
    match r.2 with
    | some err => ([], some err)
    | none => (rawPrehash ++ r.1, none)

/-- Modelled from the spec: the domain separation of the two signing messages
("The domain prehash is a hash of a fixed ASCII domain-separation string
distinct from the plain single-signer prehash", and a SHA3-256 hash is
"exactly 32 bytes"). `SigningMessage` is the spec's single-signer message with
the prehash `rawPrehash`; the two prehashes have 32 bytes each and are
different. -/
def TxDecls.DomainSeparated {T : TxTypes} (D : TxDecls T) (rawPrehash : List Nat) : Prop :=
  D.SigningMessage = RawTransaction.SigningMessage rawPrehash D.rawTransaction ∧
    rawPrehash.length = 32 ∧ D.RawTransactionWithDataPrehash.length = 32 ∧
    rawPrehash ≠ D.RawTransactionWithDataPrehash

/-- An instance of `TxTypes`, for the evaluation of the model at concrete
inputs: a raw transaction is its payload alone, over the sample declarations;
addresses and the authenticators of other types are byte strings. -/
def TxTypes.sample : TxTypes where
  RawTransaction := TransactionPayload Decls.sample
  AccountAddress := List Nat
  AuthFields := Unit
  OtherAuth := List Nat

/-- The codec of the sample raw transaction: the one of its payload. -/
def TxDecls.sampleRaw : Struct (TransactionPayload Decls.sample) where
  zero := { Payload := none }
  MarshalBCS := fun txn ser => TransactionPayload.MarshalBCS Decls.sample (some txn) ser
  UnmarshalBCS := TransactionPayload.UnmarshalBCS Decls.sample

/-- A codec for the sample `TransactionAuthenticator`: the variant tag alone,
with no authenticator held. -/
def TxDecls.sampleAuthenticator : Struct (TransactionAuthenticator TxTypes.sample) where
  zero := { Variant := 0, Auth := none }
  MarshalBCS := fun a ser => ser.Uleb128 (uint32 a.Variant)
  UnmarshalBCS := fun _ des => ({ Variant := des.Uleb128.1, Auth := none }, des.Uleb128.2)

/-- The encoding of the sample `RawTransactionWithData`: a tag byte, the raw
transaction, the secondary-signer addresses as a sequence and, in the
fee-payer variant, the fee payer's address. -/
def TxDecls.sampleWithData (w : RawTransactionWithData TxTypes.sample) (ser : Serializer) :
    Serializer :=
  match w.Inner with
  | .multiAgent inner =>
    SerializeSequence bytesStruct.MarshalBCS inner.SecondarySigners
      ((ser.Uleb128 0).Struct inner.RawTxn TxDecls.sampleRaw.MarshalBCS)
  | .multiAgentWithFeePayer inner =>
    (SerializeSequence bytesStruct.MarshalBCS inner.SecondarySigners
      ((ser.Uleb128 1).Struct inner.RawTxn TxDecls.sampleRaw.MarshalBCS)).Struct
        inner.FeePayer bytesStruct.MarshalBCS

/-- An instance of `TxDecls`, for the evaluation of the model at concrete
inputs. The single-signer prehash is 32 bytes 1, the envelope prehash 32
bytes 2; an authenticator of another type holds the one message that it
verifies; the stand-in for SHA3-256 is the 32-byte string of the input's
length, the one for base58 the text of the bytes as characters. -/
def TxDecls.sample : TxDecls TxTypes.sample where
  rawTransaction := TxDecls.sampleRaw
  transactionAuthenticator := TxDecls.sampleAuthenticator
  SigningMessage := RawTransaction.SigningMessage (List.replicate 32 1) TxDecls.sampleRaw
  Verify := fun auth msg =>
    match auth.Auth with
    | some (.other sig) => (show List Nat from sig) == msg
    | _ => false
  RawTransactionWithDataPrehash := List.replicate 32 2
  withDataMarshalBCS := TxDecls.sampleWithData
  sha3 := fun bs => List.replicate 32 (bs.length % 256)
  base58Encode := fun bs => String.mk (bs.map Char.ofNat)

/-- A sample raw transaction: an `EntryFunction` payload with the module id
`01`, the name "f", no type tag and one argument `07`; its encoding is
`02 01 01 01 66 00 01 01 07`. -/
def TxDecls.sampleTxn : TransactionPayload Decls.sample :=
  { Payload := some (.entryFunction
      { Module := [1], Function := [102], ArgTypes := [], Args := [[7]] }) }

/-- A `SafeEntryFunction` over the sample declarations whose hash is the bytes
1, 2, ..., 32. -/
def SafeEntryFunction.hashed : SafeEntryFunction Decls.sample :=
  { Module := [1], Function := [102], ArgTypes := [], Args := [[7]],
    Hash := ⟨List.range' 1 32, rfl⟩ }

/-- An Ed25519 public key of 32 zero bytes, as an `AnyPublicKey`. -/
def crypto.AnyPublicKey.sample : crypto.AnyPublicKey (Option crypto.PublicKey) :=
  { Variant := .AnyPublicKeyVariantEd25519,
    PubKey := some (.Ed25519PublicKey (List.replicate 32 0)) }

/-- An Ed25519 signature of 64 zero bytes, as an `AnySignature`. -/
def crypto.AnySignature.sample : crypto.AnySignature (Option crypto.Signature) :=
  { Variant := .AnySignatureVariantEd25519,
    Signature := some (.Ed25519Signature (List.replicate 64 0)) }

/-- A `MultiAuthKeyAuthenticator` with 2^32 public keys and 2^32 signatures,
each a pointer to the sample key and to the sample signature. -/
def crypto.MultiAuthKeyAuthenticator.manyKeys :
    crypto.MultiAuthKeyAuthenticator (Option crypto.PublicKey) (Option crypto.Signature) :=
  { PubKeys := List.replicate (2 ^ 32) (some crypto.AnyPublicKey.sample),
    Signatures := List.replicate (2 ^ 32) (some crypto.AnySignature.sample) }

/-! ## `FromAuthenticators` and repeated `Hash` calls -/

/-- The loop of `FromAuthenticators` from index `i` with `n` iterations left:
`ea.PubKeys[i], ea.Signatures[i], err = fromAuthenticator(auths[i])`, and a
return of the error when it is not nil. A nil entry of `auths` makes
`fromAuthenticator` read `auth.Variant` through a nil pointer, a panic;
`none` is a panic. -/
def crypto.MultiAuthKeyAuthenticator.fromLoop {PK Sig Other : Type}
    (PubKey : crypto.AccountAuthenticator PK Sig Other → Option PK)
    (Signature : crypto.AccountAuthenticator PK Sig Other → Option Sig)
    (auths : List (Option (crypto.AccountAuthenticator PK Sig Other))) :
    Nat → Nat → crypto.MultiAuthKeyAuthenticator PK Sig →
      Option (crypto.MultiAuthKeyAuthenticator PK Sig × Option String)
  | 0, _, ea => some (ea, none)
  | n + 1, i, ea =>
    match auths[i]? with
    | none => none
    | some none => none
    | some (some auth) =>
      match crypto.fromAuthenticator PubKey Signature auth with
      | none => none
      | some (pk, sg, err) =>
        let ea : crypto.MultiAuthKeyAuthenticator PK Sig :=
          { PubKeys := ea.PubKeys.set i pk, Signatures := ea.Signatures.set i sg }
        match err with
        | some e => some (ea, some e)
        | none => crypto.MultiAuthKeyAuthenticator.fromLoop PubKey Signature auths n (i + 1) ea

/-- The method `MultiAuthKeyAuthenticator.FromAuthenticators`: both fields of
the receiver are replaced by slices of `len(auths)` nil pointers, then the
loop runs. The result is the receiver after the call and the returned error;
`none` is a panic. -/
def crypto.MultiAuthKeyAuthenticator.FromAuthenticators {PK Sig Other : Type}
    (PubKey : crypto.AccountAuthenticator PK Sig Other → Option PK)
    (Signature : crypto.AccountAuthenticator PK Sig Other → Option Sig)
    (auths : List (Option (crypto.AccountAuthenticator PK Sig Other))) :
    Option (crypto.MultiAuthKeyAuthenticator PK Sig × Option String) :=
  crypto.MultiAuthKeyAuthenticator.fromLoop PubKey Signature auths auths.length 0
    { PubKeys := List.replicate auths.length none,
      Signatures := List.replicate auths.length none }

/-- The public-key pointer that `fromAuthenticator` returns for an entry of
`auths`, nil when it returns none or does not return. -/
def crypto.convertedKey {PK Sig Other : Type}
    (PubKey : crypto.AccountAuthenticator PK Sig Other → Option PK)
    (Signature : crypto.AccountAuthenticator PK Sig Other → Option Sig)
    (a : Option (crypto.AccountAuthenticator PK Sig Other)) : Option (crypto.AnyPublicKey PK) :=
  match a with
  | none => none
  | some auth =>
    match crypto.fromAuthenticator PubKey Signature auth with
    | none => none
    | some r => r.1

/-- The signature pointer that `fromAuthenticator` returns for an entry of
`auths`, nil when it returns none or does not return. -/
def crypto.convertedSig {PK Sig Other : Type}
    (PubKey : crypto.AccountAuthenticator PK Sig Other → Option PK)
    (Signature : crypto.AccountAuthenticator PK Sig Other → Option Sig)
    (a : Option (crypto.AccountAuthenticator PK Sig Other)) : Option (crypto.AnySignature Sig) :=
  match a with
  | none => none
  | some auth =>
    match crypto.fromAuthenticator PubKey Signature auth with
    | none => none
    | some r => r.2.1

/-- The entry of `auths` is a non-nil pointer on which `fromAuthenticator`
returns a nil error. -/
def crypto.Converts {PK Sig Other : Type}
    (PubKey : crypto.AccountAuthenticator PK Sig Other → Option PK)
    (Signature : crypto.AccountAuthenticator PK Sig Other → Option Sig)
    (a : Option (crypto.AccountAuthenticator PK Sig Other)) : Prop :=
  ∃ auth pk sg, a = some auth ∧
    crypto.fromAuthenticator PubKey Signature auth = some (pk, sg, none)

/-- The global `TransactionPrefix` after a sequence of `Hash` calls, one for
each signed transaction of the list in order, started with the given value. -/
def SignedTransaction.prefixAfter {T : TxTypes} (D : TxDecls T) :
    Option (List Nat) → List (SignedTransaction T) → Option (List Nat)
  | p, [] => p
  | p, txn :: rest =>
    SignedTransaction.prefixAfter D (SignedTransaction.Hash D p txn).2 rest

/-! ## `internal/types/account.go` -/

/-- The Go builtin `copy(dst[off:], src)` on the array or slice `dst`: the
elements of `src` are stored from index `off` on, as many as fit; the other
elements of `dst` keep their values. -/
def copyAt (dst : List Nat) (off : Nat) (src : List Nat) : List Nat :=
  dst.take off ++ src.take (dst.length - off) ++ dst.drop (off + src.length)

/-- The statement `copy(dst[off:], src)` on an array `dst` of `n` bytes. -/
def copyArray {n : Nat} (dst : { l : List Nat // l.length = n }) (off : Nat)
    (src : List Nat) : { l : List Nat // l.length = n } :=
  ⟨copyAt dst.val off src, by
    have h := dst.property
    simp only [copyAt, List.length_append, List.length_take, List.length_drop]
    omega⟩

/-- The type `crypto.AuthenticationKey`, declared in another file of the
repository: a `[32]byte` (the source slices it with `[:]`; the specification
has "fixed 32-byte value"). -/
abbrev crypto.AuthenticationKey : Type := { l : List Nat // l.length = 32 }

namespace types

/-- The type `AccountAddress`, declared in another file of the repository: a
`[32]byte` (the source indexes it with `32-len(bytes)`; the specification
has "fixed 32-byte identifier"). -/
abbrev AccountAddress : Type := { l : List Nat // l.length = 32 }

/-- The zero value of `AccountAddress`: 32 zero bytes. -/
def AccountAddress.zero : AccountAddress := ⟨List.replicate 32 0, rfl⟩

/-- The struct `Account`; `Signer` is an interface value and may be nil. `S` is
the type of the non-nil values of `crypto.Signer`. -/
structure Account (S : Type) where
  Address : AccountAddress
  Signer : Option S

/-- The function `NewAccountFromSigner`. `authKey` is the variadic argument;
`AuthKey` is the method `signer.AuthKey()`, which returns a pointer (that may be
nil) or panics. The result is the returned pair of a pointer and an error;
`none` is a panic: the method call on a nil interface value, a panic of the
method, or the slicing of a nil array pointer. -/
def NewAccountFromSigner {S : Type} (AuthKey : S → Option (Option crypto.AuthenticationKey))
    (signer : Option S) (authKey : List crypto.AuthenticationKey) :
    Option (Option (Account S) × Option String) :=
  let out : Account S := { Address := AccountAddress.zero, Signer := none }
  if authKey.length = 1 then
    match authKey[0]? with
    | none => none
    | some k =>
      some (some { Address := copyArray out.Address 0 k.val, Signer := signer }, none)
  else if authKey.length > 1 then
    some (none, some "must only provide one auth key")
  else
    match signer with
    | none => none
    | some s =>
      match AuthKey s with
      | none => none
      | some none => none
      | some (some k) =>
        some (some { Address := copyArray out.Address 0 k.val, Signer := signer }, none)

/-- The errors that `ParseStringRelaxed` returns: the two package variables
`ErrAddressTooShort` and `ErrAddressTooLong`, and the two errors of
`hex.DecodeString`. -/
inductive ParseError
  | ErrAddressTooShort
  | ErrAddressTooLong
  | InvalidByteError (b : Nat)
  | ErrLength
deriving DecidableEq, Repr

/-- The library function `strings.HasPrefix`, on byte strings. -/
def strings.HasPrefix (s pre : List Nat) : Bool :=
  s.take pre.length == pre

/-- The value of a hexadecimal digit (`0-9`, `a-f`, `A-F`) given by its
character code, as in the table of `encoding/hex`. -/
def hex.fromHexChar (c : Nat) : Option Nat :=
  if 48 ≤ c ∧ c ≤ 57 then some (c - 48)
  else if 97 ≤ c ∧ c ≤ 102 then some (c - 97 + 10)
  else if 65 ≤ c ∧ c ≤ 70 then some (c - 65 + 10)
  else none

/-- The library function `hex.DecodeString`: two digits give one byte, the
high digit first; a character that is no digit and an odd length are errors,
and the bytes decoded before the error are returned with it. -/
def hex.DecodeString : List Nat → List Nat × Option ParseError
  | [] => ([], none)
  | [p] =>
    match hex.fromHexChar p with
    | none => ([], some (.InvalidByteError p))
    | some _ => ([], some .ErrLength)
  | p :: q :: rest =>
    match hex.fromHexChar p with
    | none => ([], some (.InvalidByteError p))
    | some a =>
      match hex.fromHexChar q with
      | none => ([], some (.InvalidByteError q))
      | some b =>
        let r := hex.DecodeString rest
        ((a * 16 + b) :: r.1, r.2)

/-- The alphabet of `base58`, as character codes: the digit of a character is
its index. -/
def base58.alphabet : List Nat :=
  [49, 50, 51, 52, 53, 54, 55, 56, 57,
   65, 66, 67, 68, 69, 70, 71, 72, 74, 75, 76, 77, 78, 80, 81, 82, 83, 84, 85, 86, 87, 88, 89, 90,
   97, 98, 99, 100, 101, 102, 103, 104, 105, 106, 107, 109, 110, 111, 112, 113, 114, 115, 116,
   117, 118, 119, 120, 121, 122]

/-- The base-58 digit of a character, `none` for a character outside the
alphabet. -/
def base58.digit (c : Nat) : Option Nat :=
  if base58.alphabet.indexOf c < 58 then some (base58.alphabet.indexOf c) else none

/-- The number that a string of base-58 digits denotes, the first digit the
most significant, added to `acc` times the weight of the string; `none` when a
character is outside the alphabet. -/
def base58.value : List Nat → Nat → Option Nat
  | [], acc => some acc
  | c :: rest, acc =>
    match base58.digit c with
    | none => none
    | some d => base58.value rest (acc * 58 + d)

/-- The method `big.Int.Bytes`: the big-endian bytes of a number with no
leading zero byte, none for zero. `fuel` bounds the number of bytes. -/
def base58.bigBytes : Nat → Nat → List Nat
  | 0, _ => []
  | fuel + 1, v => if v = 0 then [] else base58.bigBytes fuel (v / 256) ++ [v % 256]

/-- The library function `base58.Decode` of `btcutil`: the empty result when a
character is outside the alphabet; otherwise one zero byte for each leading
`1` of the string, then the big-endian bytes of the number that the string
denotes. -/
def base58.Decode (b : List Nat) : List Nat :=
  match base58.value b 0 with
  | none => []
  | some answer =>
    List.replicate (b.takeWhile (fun c => c == 49)).length 0 ++ base58.bigBytes b.length answer

/-- The method `AccountAddress.ParseStringRelaxed`. The result is the receiver
after the call and the returned error; `none` is a panic (a slice bound out
of range). The string `"0x"` is the bytes 48, 120 and `"0"` the byte 48. -/
def AccountAddress.ParseStringRelaxed (aa : AccountAddress) (x : List Nat) :
    Option (AccountAddress × Option ParseError) :=
  if strings.HasPrefix x [48, 120] then
    let x := x.drop 2
    if x.length < 1 then some (aa, some .ErrAddressTooShort)
    else if x.length > 64 then some (aa, some .ErrAddressTooLong)
    else
      let x := if x.length % 2 ≠ 0 then 48 :: x else x
      let r := hex.DecodeString x
      match r.2 with
      | some err => some (aa, some err)
      | none =>
        if r.1.length ≤ 32 then some (copyArray aa (32 - r.1.length) r.1, none)
        else none
  else
    if x.length < 30 then some (aa, some .ErrAddressTooShort)
    else
      let base58Bytes := base58.Decode x
      some (copyArray aa 0 base58Bytes, none)

end types

/-! ## `AuthenticationKey.FromPublicKey` and the codec of `RawTransaction` -/

/-- Modelled from the spec: `AuthenticationKey.FromPublicKey`, absent from the
sources ("AuthenticationKey = Sha3-256(publicKeyBytes ‖ schemeTagByte), exactly
32 bytes"): the hash of the key's bytes followed by its scheme tag byte is
copied into the receiver. `bytes` is `publicKey.Bytes()`, `scheme` the scheme
tag of the key (`Ed25519Scheme` for an Ed25519 key), `sha3` SHA3-256 on one byte
string. -/
def crypto.AuthenticationKey.FromPublicKey (sha3 : List Nat → List Nat)
    (ak : crypto.AuthenticationKey) (bytes : List Nat) (scheme : Nat) :
    crypto.AuthenticationKey :=
  copyArray ak 0 (Sha3256Hash sha3 [bytes, [scheme]])

/-- The `n` little-endian bytes of `v` (of `v` modulo 256^n). -/
def bcs.leBytes : Nat → Nat → List Nat
  | 0, _ => []
  | n + 1, v => v % 256 :: bcs.leBytes n (v / 256)

/-- The number whose little-endian bytes are given. -/
def bcs.leValue : List Nat → Nat
  | [] => 0
  | b :: rest => b + 256 * bcs.leValue rest

/-- Modelled from the spec: `Serializer.U64`, absent from the sources
("fixed-width fields"): eight bytes, little-endian. -/
def bcs.Serializer.U64 (ser : Serializer) (v : Nat) : Serializer :=
  ser.write (bcs.leBytes 8 v)

/-- Modelled from the spec: `Serializer.U8`, absent from the sources: one
byte. -/
def bcs.Serializer.U8 (ser : Serializer) (v : Nat) : Serializer :=
  ser.write (bcs.leBytes 1 v)

/-- The reading of a fixed-width number of `n` bytes: a deserializer in error
reads nothing and yields zero, and so does one with fewer than `n` bytes
left, which sets the error. -/
def bcs.Deserializer.fixedWidth (des : Deserializer) (n : Nat) : Nat × Deserializer :=
  match des.err with
  | some _ => (0, des)
  | none =>
    if n ≤ des.input.length then
      (bcs.leValue (des.input.take n), { des with input := des.input.drop n })
    else (0, des.SetError "not enough bytes remaining to deserialize")

/-- Modelled from the spec: `Deserializer.U64`, absent from the sources. -/
def bcs.Deserializer.U64 (des : Deserializer) : Nat × Deserializer :=
  des.fixedWidth 8

/-- Modelled from the spec: `Deserializer.U8`, absent from the sources. -/
def bcs.Deserializer.U8 (des : Deserializer) : Nat × Deserializer :=
  des.fixedWidth 1

/-- Modelled from the spec: the struct `RawTransaction`, absent from the
sources ("sender address, sequence number, payload, max gas amount, gas unit
price, expiration timestamp (seconds), chain id"), with the field names of
`transactions_test.go`. The numbers are `uint64`, the chain id a `uint8`. -/
structure RawTransaction (E : Decls) where
  Sender : E.AccountAddress
  SequenceNumber : Nat
  Payload : TransactionPayload E
  MaxGasAmount : Nat
  GasUnitPrice : Nat
  ExpirationTimestampSeconds : Nat
  ChainId : Nat

/-- The zero value `RawTransaction{}`. -/
def RawTransaction.zero (E : Decls) : RawTransaction E :=
  { Sender := E.accountAddress.zero, SequenceNumber := 0, Payload := { Payload := none },
    MaxGasAmount := 0, GasUnitPrice := 0, ExpirationTimestampSeconds := 0, ChainId := 0 }

/-- Modelled from the spec: `RawTransaction.MarshalBCS`, absent from the
sources: the fields in the order of their declaration, each with its own
encoding. -/
def RawTransaction.MarshalBCS (E : Decls) (txn : RawTransaction E) (ser : Serializer) :
    Serializer :=
  let ser := E.accountAddress.MarshalBCS txn.Sender ser
  let ser := ser.U64 txn.SequenceNumber
  let ser := TransactionPayload.MarshalBCS E (some txn.Payload) ser
  let ser := ser.U64 txn.MaxGasAmount
  let ser := ser.U64 txn.GasUnitPrice
  let ser := ser.U64 txn.ExpirationTimestampSeconds
  ser.U8 txn.ChainId

/-- Modelled from the spec: `RawTransaction.UnmarshalBCS`, absent from the
sources: the fields are decoded in the order of their declaration, each into
the field of the receiver. -/
def RawTransaction.UnmarshalBCS (E : Decls) (txn : RawTransaction E) (des : Deserializer) :
    RawTransaction E × Deserializer :=
  let s := E.accountAddress.UnmarshalBCS txn.Sender des
  let n := s.2.U64
  let p := TransactionPayload.UnmarshalBCS E txn.Payload n.2
  let g := p.2.U64
  let u := g.2.U64
  let e := u.2.U64
  let c := e.2.U8
  ({ Sender := s.1, SequenceNumber := n.1, Payload := p.1, MaxGasAmount := g.1,
     GasUnitPrice := u.1, ExpirationTimestampSeconds := e.1, ChainId := c.1 }, c.2)

/-- The numeric fields of a `RawTransaction` are values of their Go types:
four `uint64` and a `uint8`. -/
def RawTransaction.InRange {E : Decls} (txn : RawTransaction E) : Prop :=
  txn.SequenceNumber < 2 ^ 64 ∧ txn.MaxGasAmount < 2 ^ 64 ∧ txn.GasUnitPrice < 2 ^ 64 ∧
    txn.ExpirationTimestampSeconds < 2 ^ 64 ∧ txn.ChainId < 2 ^ 8

/-- A `RawTransaction` over the sample declarations with the numbers of
`TestRawTransactionSign` and an `EntryFunction` payload. -/
def RawTransaction.sample : RawTransaction Decls.sample :=
  { Sender := [10, 11], SequenceNumber := 2, Payload := TxDecls.sampleTxn,
    MaxGasAmount := 1000, GasUnitPrice := 2000, ExpirationTimestampSeconds := 1714158778,
    ChainId := 221 }

/-- A `RawTransaction` over the sample declarations whose payload is the
`EntryFunction` with 2^32 arguments; every other field is zero or empty. -/
def RawTransaction.manyArgs : RawTransaction Decls.sample :=
  { Sender := [], SequenceNumber := 0,
    Payload := { Payload := some (.entryFunction EntryFunction.manyArgs) },
    MaxGasAmount := 0, GasUnitPrice := 0, ExpirationTimestampSeconds := 0, ChainId := 0 }

/-! ## Nil and empty slices

The structures above hold the elements of their slices. `reflect.DeepEqual`,
which `assert.Equal` applies to structs, also tells a nil slice from an empty
slice that is not nil. The definitions of this section carry that difference:
they are the payload types and their codecs once more, with slice fields of
the type `Slice`. -/

/-- A Go slice value: the nil slice, or a slice that is not nil with its
elements (`make` and a composite literal give a slice that is not nil, also
for the length 0). -/
inductive Slice (α : Type)
  | nil
  | make (elems : List α)
deriving DecidableEq, Repr

/-- The elements of a slice, which `len` and `range` see: none for the nil
slice. -/
def Slice.elems {α : Type} : Slice α → List α
  | .nil => []
  | .make l => l

/-- Modelled from the spec: what the readers of `bcs`, which are absent from the
sources, return for a sequence of length zero. The specification does not
say whether that is nil or an empty slice that is not nil: `nilBytes` says
that `ReadBytes` returns nil for it, `nilSequence` that `DeserializeSequence`
does. -/
structure SliceReaders where
  nilBytes : Bool
  nilSequence : Bool
deriving DecidableEq, Repr

/-- The slice that a reader returns for the elements it has read: nil for no
element when `nilOnEmpty` is set, a slice that is not nil otherwise. -/
def Slice.read {α : Type} (nilOnEmpty : Bool) (l : List α) : Slice α :=
  if l.isEmpty && nilOnEmpty then .nil else .make l

namespace deep

/-- Modelled from the spec: `Deserializer.ReadBytes` with its result as a
slice value: nil on a failure. -/
def ReadBytes (R : SliceReaders) (des : Deserializer) : Slice Nat × Deserializer :=
  let r := des.ReadBytes
  match r.2.err with
  | some _ => (.nil, r.2)
  | none => (Slice.read R.nilBytes r.1, r.2)

/-- Modelled from the spec: `bcs.DeserializeSequence[T]` with its result as a
slice value: nil on a failure. -/
def DeserializeSequence {α : Type} (R : SliceReaders) (S : Struct α) (des : Deserializer) :
    Slice α × Deserializer :=
  let r := bcs.DeserializeSequence S des
  match r.2.err with
  | some _ => (.nil, r.2)
  | none => (Slice.read R.nilSequence r.1, r.2)

/-- The struct `EntryFunction`, with its slices as slice values. -/
structure EntryFunction (E : Decls) where
  Module : E.ModuleId
  Function : List Nat
  ArgTypes : Slice E.TypeTag
  Args : Slice (Slice Nat)

/-- The interface `MultisigTransactionImpl`, with slices as slice values. -/
inductive MultisigTransactionImpl (E : Decls)
  | entryFunction (sf : deep.EntryFunction E)

/-- The struct `MultisigTransactionPayload`, with slices as slice values. -/
structure MultisigTransactionPayload (E : Decls) where
  Variant : Nat
  Payload : Option (deep.MultisigTransactionImpl E)

/-- The struct `Multisig`, with slices as slice values. -/
structure Multisig (E : Decls) where
  MultisigAddress : E.AccountAddress
  Payload : Option (deep.MultisigTransactionPayload E)

/-- The interface `TransactionPayloadImpl`, with slices as slice values. A
`SafeEntryFunction` is held with the elements of its slices alone: no decoder
produces one. -/
inductive TransactionPayloadImpl (E : Decls)
  | script (s : E.Script)
  | moduleBundle
  | entryFunction (sf : deep.EntryFunction E)
  | multisig (sf : deep.Multisig E)
  | safeEntryFunction (sf : SafeEntryFunction E)

/-- The struct `TransactionPayload`, with slices as slice values. -/
structure TransactionPayload (E : Decls) where
  Payload : Option (deep.TransactionPayloadImpl E)

/-- The zero value `EntryFunction{}`: both slices are nil. -/
def EntryFunction.zero (E : Decls) : deep.EntryFunction E :=
  { Module := E.moduleId.zero, Function := [], ArgTypes := .nil, Args := .nil }

/-- The zero value `MultisigTransactionPayload{}`. -/
def MultisigTransactionPayload.zero (E : Decls) : deep.MultisigTransactionPayload E :=
  { Variant := 0, Payload := none }

/-- The zero value `Multisig{}`. -/
def Multisig.zero (E : Decls) : deep.Multisig E :=
  { MultisigAddress := E.accountAddress.zero, Payload := none }

/-- The method `EntryFunction.MarshalBCS`: the slices are read through `len`
and `range`. -/
def EntryFunction.MarshalBCS (E : Decls) (sf : deep.EntryFunction E) (ser : Serializer) :
    Serializer :=
  let ser := E.moduleId.MarshalBCS sf.Module ser
  let ser := ser.WriteString sf.Function
  let ser := SerializeSequence E.typeTag.MarshalBCS sf.ArgTypes.elems ser
  let ser := ser.Uleb128 (uint32 sf.Args.elems.length)
  sf.Args.elems.foldl (fun s a => s.WriteBytes a.elems) ser

/-- The loop `for i := range alen { sf.Args[i] = des.ReadBytes() }`. -/
def readArgs (R : SliceReaders) : Nat → Deserializer → List (Slice Nat) × Deserializer
  | 0, des => ([], des)
  | n + 1, des =>
    let r := deep.ReadBytes R des
    let rs := deep.readArgs R n r.2
    (r.1 :: rs.1, rs.2)

/-- The method `EntryFunction.UnmarshalBCS`: `sf.Args` is `make([][]byte, alen)`,
a slice that is not nil, whatever `alen` is. -/
def EntryFunction.UnmarshalBCS (E : Decls) (R : SliceReaders) (sf : deep.EntryFunction E)
    (des : Deserializer) : deep.EntryFunction E × Deserializer :=
  let m := E.moduleId.UnmarshalBCS sf.Module des
  let f := m.2.ReadString
  let ts := deep.DeserializeSequence R E.typeTag f.2
  let alen := ts.2.Uleb128
  let args := deep.readArgs R alen.1 alen.2
  ({ Module := m.1, Function := f.1, ArgTypes := ts.1, Args := .make args.1 }, args.2)

/-- The method `MarshalBCS` of the value held in a `MultisigTransactionImpl`. -/
def MultisigTransactionImpl.MarshalBCS (E : Decls) (p : deep.MultisigTransactionImpl E)
    (ser : Serializer) : Serializer :=
  match p with
  | .entryFunction sf => deep.EntryFunction.MarshalBCS E sf ser

/-- The method `MultisigTransactionPayload.MarshalBCS`. -/
def MultisigTransactionPayload.MarshalBCS (E : Decls)
    (sf : deep.MultisigTransactionPayload E) (ser : Serializer) : Serializer :=
  let ser := ser.Uleb128 (uint32 sf.Variant)
  ser.Struct sf.Payload (deep.MultisigTransactionImpl.MarshalBCS E)

/-- The method `MultisigTransactionPayload.UnmarshalBCS`. -/
def MultisigTransactionPayload.UnmarshalBCS (E : Decls) (R : SliceReaders)
    (sf : deep.MultisigTransactionPayload E) (des : Deserializer) :
    deep.MultisigTransactionPayload E × Deserializer :=
  let variant := des.Uleb128
  if variant.1 = MultisigTransactionPayloadVariantEntryFunction then
    let r := variant.2.Struct (deep.EntryFunction.zero E) (deep.EntryFunction.UnmarshalBCS E R)
    ({ sf with Payload := some (.entryFunction r.1) }, r.2)
  else
    (sf, variant.2.SetError
      ("bad variant " ++ toString variant.1 ++ " for MultisigTransactionPayload"))

/-- The method `Multisig.MarshalBCS`. -/
def Multisig.MarshalBCS (E : Decls) (sf : deep.Multisig E) (ser : Serializer) : Serializer :=
  let ser := ser.Struct (some sf.MultisigAddress) E.accountAddress.MarshalBCS
  match sf.Payload with
  | none => ser.Bool false
  | some p => (ser.Bool true).Struct (some p) (deep.MultisigTransactionPayload.MarshalBCS E)

/-- The method `Multisig.UnmarshalBCS`. -/
def Multisig.UnmarshalBCS (E : Decls) (R : SliceReaders) (sf : deep.Multisig E)
    (des : Deserializer) : deep.Multisig E × Deserializer :=
  let a := des.Struct sf.MultisigAddress E.accountAddress.UnmarshalBCS
  let b := a.2.Bool
  if b.1 then
    let p := b.2.Struct (deep.MultisigTransactionPayload.zero E)
      (deep.MultisigTransactionPayload.UnmarshalBCS E R)
    ({ MultisigAddress := a.1, Payload := some p.1 }, p.2)
  else
    ({ sf with MultisigAddress := a.1 }, b.2)

/-- The method `PayloadType` of the value held in a `TransactionPayloadImpl`. -/
def TransactionPayloadImpl.PayloadType {E : Decls} : deep.TransactionPayloadImpl E → Nat
  | .script _ => TransactionPayloadVariantScript
  | .moduleBundle => TransactionPayloadVariantModuleBundle
  | .entryFunction _ => TransactionPayloadVariantEntryFunction
  | .multisig _ => TransactionPayloadVariantMultisig
  | .safeEntryFunction _ => TransactionPayloadVariantSafeEntryFunction

/-- The method `MarshalBCS` of the value held in a `TransactionPayloadImpl`. -/
def TransactionPayloadImpl.MarshalBCS (E : Decls) (p : deep.TransactionPayloadImpl E)
    (ser : Serializer) : Serializer :=
  match p with
  | .script s => E.script.MarshalBCS s ser
  | .moduleBundle => ModuleBundle.MarshalBCS ser
  | .entryFunction sf => deep.EntryFunction.MarshalBCS E sf ser
  | .multisig sf => deep.Multisig.MarshalBCS E sf ser
  | .safeEntryFunction sf => SafeEntryFunction.MarshalBCS E sf ser

/-- The method `TransactionPayload.MarshalBCS`; the receiver is a pointer that
may be nil. -/
def TransactionPayload.MarshalBCS (E : Decls) (txn : Option (deep.TransactionPayload E))
    (ser : Serializer) : Serializer :=
  match txn with
  | none => ser.SetError "nil transaction payload"
  | some t =>
    match t.Payload with
    | none => ser.SetError "nil transaction payload"
    | some p =>
      let ser := ser.Uleb128 (uint32 p.PayloadType)
      deep.TransactionPayloadImpl.MarshalBCS E p ser

/-- The method `TransactionPayload.UnmarshalBCS`. -/
def TransactionPayload.UnmarshalBCS (E : Decls) (R : SliceReaders)
    (txn : deep.TransactionPayload E) (des : Deserializer) :
    deep.TransactionPayload E × Deserializer :=
  let payloadType := des.Uleb128
  if payloadType.1 = TransactionPayloadVariantScript then
    let r := E.script.UnmarshalBCS E.script.zero payloadType.2
    ({ Payload := some (.script r.1) }, r.2)
  else if payloadType.1 = TransactionPayloadVariantModuleBundle then
    (txn, payloadType.2.SetError "module bundle is not supported as a transaction payload")
  else if payloadType.1 = TransactionPayloadVariantEntryFunction then
    let r := deep.EntryFunction.UnmarshalBCS E R (deep.EntryFunction.zero E) payloadType.2
    ({ Payload := some (.entryFunction r.1) }, r.2)
  else if payloadType.1 = TransactionPayloadVariantMultisig then
    let r := deep.Multisig.UnmarshalBCS E R (deep.Multisig.zero E) payloadType.2
    ({ Payload := some (.multisig r.1) }, r.2)
  else
    (txn, payloadType.2.SetError ("bad txn payload kind, " ++ toString payloadType.1))

/-- Modelled from the spec: the struct `RawTransaction`, absent from the
sources, with slices as slice values. -/
structure RawTransaction (E : Decls) where
  Sender : E.AccountAddress
  SequenceNumber : Nat
  Payload : deep.TransactionPayload E
  MaxGasAmount : Nat
  GasUnitPrice : Nat
  ExpirationTimestampSeconds : Nat
  ChainId : Nat

/-- The zero value `RawTransaction{}`. -/
def RawTransaction.zero (E : Decls) : deep.RawTransaction E :=
  { Sender := E.accountAddress.zero, SequenceNumber := 0, Payload := { Payload := none },
    MaxGasAmount := 0, GasUnitPrice := 0, ExpirationTimestampSeconds := 0, ChainId := 0 }

/-- Modelled from the spec: `RawTransaction.MarshalBCS`, absent from the
sources: the fields in the order of their declaration. -/
def RawTransaction.MarshalBCS (E : Decls) (txn : deep.RawTransaction E) (ser : Serializer) :
    Serializer :=
  let ser := E.accountAddress.MarshalBCS txn.Sender ser
  let ser := ser.U64 txn.SequenceNumber
  let ser := deep.TransactionPayload.MarshalBCS E (some txn.Payload) ser
  let ser := ser.U64 txn.MaxGasAmount
  let ser := ser.U64 txn.GasUnitPrice
  let ser := ser.U64 txn.ExpirationTimestampSeconds
  ser.U8 txn.ChainId

/-- Modelled from the spec: `RawTransaction.UnmarshalBCS`, absent from the
sources: the fields are decoded in the order of their declaration. -/
def RawTransaction.UnmarshalBCS (E : Decls) (R : SliceReaders) (txn : deep.RawTransaction E)
    (des : Deserializer) : deep.RawTransaction E × Deserializer :=
  let s := E.accountAddress.UnmarshalBCS txn.Sender des
  let n := s.2.U64
  let p := deep.TransactionPayload.UnmarshalBCS E R txn.Payload n.2
  let g := p.2.U64
  let u := g.2.U64
  let e := u.2.U64
  let c := e.2.U8
  ({ Sender := s.1, SequenceNumber := n.1, Payload := p.1, MaxGasAmount := g.1,
     GasUnitPrice := u.1, ExpirationTimestampSeconds := e.1, ChainId := c.1 }, c.2)

/-- The numeric fields of a `RawTransaction` are values of their Go types:
four `uint64` and a `uint8`. -/
def RawTransaction.InRange {E : Decls} (txn : deep.RawTransaction E) : Prop :=
  txn.SequenceNumber < 2 ^ 64 ∧ txn.MaxGasAmount < 2 ^ 64 ∧ txn.GasUnitPrice < 2 ^ 64 ∧
    txn.ExpirationTimestampSeconds < 2 ^ 64 ∧ txn.ChainId < 2 ^ 8

/-- The elements of the slices of an `EntryFunction`: the value of the
structure without the difference between nil and empty. -/
def EntryFunction.contents {E : Decls} (sf : deep.EntryFunction E) : Endless.EntryFunction E :=
  { Module := sf.Module, Function := sf.Function, ArgTypes := sf.ArgTypes.elems,
    Args := sf.Args.elems.map Slice.elems }

/-- The form in which `EntryFunction.UnmarshalBCS` stores the contents of an
`EntryFunction`: `Args` is a slice that is not nil, each argument and
`ArgTypes` are what the readers return for their elements. -/
def EntryFunction.decoded {E : Decls} (R : SliceReaders) (sf : deep.EntryFunction E) :
    deep.EntryFunction E :=
  { Module := sf.Module, Function := sf.Function,
    ArgTypes := Slice.read R.nilSequence sf.ArgTypes.elems,
    Args := .make (sf.Args.elems.map (fun a => Slice.read R.nilBytes a.elems)) }

/-- The slices of an `EntryFunction` are in the form the decoder stores: `Args`
is not nil, and `ArgTypes` and each argument are not empty, or empty and nil or
not nil as the reader returns an empty result. -/
def EntryFunction.ReadForm {E : Decls} (R : SliceReaders) (sf : deep.EntryFunction E) : Prop :=
  sf.Args ≠ .nil ∧ sf.ArgTypes = Slice.read R.nilSequence sf.ArgTypes.elems ∧
    ∀ a ∈ sf.Args.elems, a = Slice.read R.nilBytes a.elems

/-- The `EntryFunction` that a `TransactionPayload` of the round-trip property
holds, directly or in a `Multisig`. -/
def TransactionPayload.held {E : Decls} (txn : deep.TransactionPayload E) :
    Option (deep.EntryFunction E) :=
  match txn.Payload with
  | some (.entryFunction sf) => some sf
  | some (.multisig m) =>
    match m.Payload with
    | some p =>
      match p.Payload with
      | some (.entryFunction sf) => some sf
      | none => none
    | none => none
  | _ => none

/-- The payload with the `EntryFunction` it holds replaced. -/
def TransactionPayload.withHeld {E : Decls} (txn : deep.TransactionPayload E)
    (f : deep.EntryFunction E → deep.EntryFunction E) : deep.TransactionPayload E :=
  match txn.Payload with
  | some (.entryFunction sf) => { Payload := some (.entryFunction (f sf)) }
  | some (.multisig m) =>
    match m.Payload with
    | some p =>
      match p.Payload with
      | some (.entryFunction sf) =>
        { Payload := some (.multisig
            { m with Payload := some { p with Payload := some (.entryFunction (f sf)) } }) }
      | none => txn
    | none => txn
  | _ => txn

/-- The payloads of the round-trip property: an `EntryFunction`, or a `Multisig`
with no inner payload or with an inner payload of variant EntryFunction that
holds an `EntryFunction`; the lengths are in range and the parts with a codec
of their own (module id, type tags, multisig address) round-trip. -/
def TransactionPayload.RoundTripDomain {E : Decls} (txn : deep.TransactionPayload E) : Prop :=
  match txn.Payload with
  | some (.entryFunction sf) => sf.contents.InRange ∧ sf.contents.PartsRoundTrip
  | some (.multisig m) =>
    E.accountAddress.RoundTripsAt m.MultisigAddress ∧
      (match m.Payload with
       | none => True
       | some p =>
         p.Variant = MultisigTransactionPayloadVariantEntryFunction ∧
           (match p.Payload with
            | some (.entryFunction sf) => sf.contents.InRange ∧ sf.contents.PartsRoundTrip
            | none => False))
  | _ => False

/-- The slices of the `EntryFunction` that the payload holds, if it holds one,
are in the form the decoder stores. -/
def TransactionPayload.ReadForm {E : Decls} (R : SliceReaders)
    (txn : deep.TransactionPayload E) : Prop :=
  match deep.TransactionPayload.held txn with
  | some sf => sf.ReadForm R
  | none => True

/-- An `EntryFunction` payload over the sample declarations whose `Args` is the
nil slice: the value `EntryFunction{Module: m, Function: "f", ArgTypes:
[]TypeTag{t}}`. -/
def TransactionPayload.nilArgs : deep.TransactionPayload Decls.sample :=
  { Payload := some (.entryFunction
      { Module := [1], Function := [102], ArgTypes := .make [[7]], Args := .nil }) }

/-- An `EntryFunction` payload over the sample declarations with slices that are
not nil and not empty: one type tag and two arguments. -/
def TransactionPayload.sample : deep.TransactionPayload Decls.sample :=
  { Payload := some (.entryFunction
      { Module := [1], Function := [102], ArgTypes := .make [[7]],
        Args := .make [.make [1, 2, 3], .make [9]] }) }

/-- A `RawTransaction` over the sample declarations with the numbers of
`TestRawTransactionSign` and the given payload. -/
def RawTransaction.sample (payload : deep.TransactionPayload Decls.sample) :
    deep.RawTransaction Decls.sample :=
  { Sender := [10, 11], SequenceNumber := 2, Payload := payload, MaxGasAmount := 1000,
    GasUnitPrice := 2000, ExpirationTimestampSeconds := 1714158778, ChainId := 221 }

end deep

/-! ## Theorems -/

namespace crypto

open bcs

theorem verifyFrom_eq_true_iff {PK Sig : Type} (V : KeyVerify PK Sig)
    (ea : MultiAuthKeyAuthenticator PK Sig) (msg : List Nat) (n i : Nat) :
    MultiAuthKeyAuthenticator.verifyFrom V ea msg n i = some true ↔
      ∀ j, i ≤ j → j < i + n → MultiAuthKeyAuthenticator.verifyAt V ea msg j = some true := by
  induction n generalizing i with
  | zero =>
    simp only [MultiAuthKeyAuthenticator.verifyFrom, true_iff]
    intro j h1 h2
    omega
  | succ n ih =>
    simp only [MultiAuthKeyAuthenticator.verifyFrom]
    constructor
    · intro h j h1 h2
      cases hv : MultiAuthKeyAuthenticator.verifyAt V ea msg i with
      | none => simp [hv] at h
      | some b =>
        cases b with
        | false => simp [hv] at h
        | true =>
          simp only [hv] at h
          by_cases hj : j = i
          · rw [hj]; exact hv
          · exact (ih (i + 1)).1 h j (by omega) (by omega)
    · intro h
      have hi := h i (Nat.le_refl i) (by omega)
      simp only [hi]
      exact (ih (i + 1)).2 (fun j h1 h2 => h j (by omega) (by omega))

theorem verifyFrom_ne_none {PK Sig : Type} (V : KeyVerify PK Sig)
    (ea : MultiAuthKeyAuthenticator PK Sig) (msg : List Nat) (n i : Nat)
    (h : ∀ j, i ≤ j → j < i + n → MultiAuthKeyAuthenticator.verifyAt V ea msg j ≠ none) :
    MultiAuthKeyAuthenticator.verifyFrom V ea msg n i ≠ none := by
  induction n generalizing i with
  | zero => simp [MultiAuthKeyAuthenticator.verifyFrom]
  | succ n ih =>
    simp only [MultiAuthKeyAuthenticator.verifyFrom]
    cases hv : MultiAuthKeyAuthenticator.verifyAt V ea msg i with
    | none => exact absurd hv (h i (Nat.le_refl i) (by omega))
    | some b =>
      cases b with
      | false => simp
      | true => exact ih (i + 1) (fun j h1 h2 => h j (by omega) (by omega))

theorem Verify_of_length_ne {PK Sig : Type} (V : KeyVerify PK Sig)
    (ea : MultiAuthKeyAuthenticator PK Sig) (msg : List Nat)
    (h : ea.PubKeys.length ≠ ea.Signatures.length) :
    MultiAuthKeyAuthenticator.Verify V ea msg = some false := by
  simp [MultiAuthKeyAuthenticator.Verify, h]

theorem verifyAt_eq_some_iff {PK Sig : Type} (V : KeyVerify PK Sig)
    (ea : MultiAuthKeyAuthenticator PK Sig) (msg : List Nat) (i : Nat) (b : Bool) :
    MultiAuthKeyAuthenticator.verifyAt V ea msg i = some b ↔
      ∃ pk sig, ea.PubKeys[i]? = some pk ∧ ea.Signatures[i]? = some (some sig) ∧
        V pk msg sig.Signature = some b := by
  unfold MultiAuthKeyAuthenticator.verifyAt
  constructor
  · intro h
    split at h
    · rename_i pk sig hpk hsig
      exact ⟨pk, sig, hpk, hsig, h⟩
    · cases h
  · rintro ⟨pk, sig, hpk, hsig, hv⟩
    rw [hpk, hsig]
    exact hv

/-- C1. `Verify(msg)` returns true if and only if the two lists have the same
length and at every index `i` both `PubKeys[i]` and the signature pointer
`Signatures[i]` exist, the latter not nil, and the key's check
`PubKeys[i].Verify(msg, Signatures[i].Signature)` returns true. When the
lengths are equal and no check panics, one index whose check returns false
makes `Verify` return false: all n of n must verify, there is no threshold.
The check `V` is the method `AnyPublicKey.Verify`, applied to the entry of
`PubKeys`, the message and the `Signature` field of the entry of
`Signatures`. -/
theorem MultiAuthKeyAuthenticator_Verify_iff {PK Sig : Type} (V : KeyVerify PK Sig)
    (ea : MultiAuthKeyAuthenticator PK Sig) (msg : List Nat) :
    (MultiAuthKeyAuthenticator.Verify V ea msg = some true ↔
      ea.PubKeys.length = ea.Signatures.length ∧
      ∀ i, i < ea.PubKeys.length →
        ∃ pk sig, ea.PubKeys[i]? = some pk ∧ ea.Signatures[i]? = some (some sig) ∧
          V pk msg sig.Signature = some true) ∧
    (ea.PubKeys.length = ea.Signatures.length →
      (∀ i, i < ea.PubKeys.length →
        ∃ pk sig b, ea.PubKeys[i]? = some pk ∧ ea.Signatures[i]? = some (some sig) ∧
          V pk msg sig.Signature = some b) →
      (∃ i pk sig, i < ea.PubKeys.length ∧ ea.PubKeys[i]? = some pk ∧
        ea.Signatures[i]? = some (some sig) ∧ V pk msg sig.Signature = some false) →
      MultiAuthKeyAuthenticator.Verify V ea msg = some false) := by
  have key : ea.PubKeys.length = ea.Signatures.length →
      (MultiAuthKeyAuthenticator.Verify V ea msg = some true ↔
        ∀ i, i < ea.PubKeys.length →
          MultiAuthKeyAuthenticator.verifyAt V ea msg i = some true) := by
    intro hlen
    simp only [MultiAuthKeyAuthenticator.Verify, hlen, ne_eq, not_true_eq_false, if_false]
    rw [← hlen, verifyFrom_eq_true_iff]
    constructor
    · intro h i hi
      exact h i (Nat.zero_le i) (by omega)
    · intro h i _ hi
      exact h i (by omega)
  constructor
  · by_cases hlen : ea.PubKeys.length = ea.Signatures.length
    · rw [key hlen]
      constructor
      · intro h
        exact ⟨hlen, fun i hi => (verifyAt_eq_some_iff V ea msg i true).1 (h i hi)⟩
      · intro h i hi
        exact (verifyAt_eq_some_iff V ea msg i true).2 (h.2 i hi)
    · rw [Verify_of_length_ne V ea msg hlen]
      constructor
      · intro h
        cases h
      · intro h
        exact absurd h.1 hlen
  · intro hlen hnp hex
    obtain ⟨i, pk, sig, hi, hpk, hsig, hfalse⟩ := hex
    have hfalse' : MultiAuthKeyAuthenticator.verifyAt V ea msg i = some false :=
      (verifyAt_eq_some_iff V ea msg i false).2 ⟨pk, sig, hpk, hsig, hfalse⟩
    have hnt : MultiAuthKeyAuthenticator.Verify V ea msg ≠ some true := by
      intro ht
      have := (key hlen).1 ht i hi
      rw [hfalse'] at this
      cases this
    have hnn : MultiAuthKeyAuthenticator.Verify V ea msg ≠ none := by
      simp only [MultiAuthKeyAuthenticator.Verify, hlen, ne_eq, not_true_eq_false, if_false]
      rw [← hlen]
      refine verifyFrom_ne_none V ea msg _ 0 (fun j _ h2 => ?_)
      obtain ⟨pk', sig', b, h1, h2', h3⟩ := hnp j (by omega)
      rw [(verifyAt_eq_some_iff V ea msg j b).2 ⟨pk', sig', h1, h2', h3⟩]
      exact Option.some_ne_none b
    cases hv : MultiAuthKeyAuthenticator.Verify V ea msg with
    | none => exact absurd hv hnn
    | some b =>
      cases b with
      | false => rfl
      | true => exact absurd hv hnt

/-- C1, at concrete inputs, with a key check that accepts a signature equal to
the key. Two keys and two signatures that match index by index: `Verify`
returns true. The same keys with a second signature that does not match:
`Verify` returns false, although the lengths are equal and the first index
verifies. -/
theorem MultiAuthKeyAuthenticator_Verify_iff_witness :
    MultiAuthKeyAuthenticator.Verify
        (fun pk _ sig => some (decide (pk.map (fun k => k.PubKey) = some sig)))
        ({ PubKeys := [some { Variant := .AnyPublicKeyVariantEd25519, PubKey := 3 },
                       some { Variant := .other 1, PubKey := 4 }],
           Signatures := [some { Variant := .AnySignatureVariantEd25519, Signature := 3 },
                          some { Variant := .other 1, Signature := 4 }] } :
          MultiAuthKeyAuthenticator Nat Nat)
        [1] = some true ∧
    MultiAuthKeyAuthenticator.Verify
        (fun pk _ sig => some (decide (pk.map (fun k => k.PubKey) = some sig)))
        ({ PubKeys := [some { Variant := .AnyPublicKeyVariantEd25519, PubKey := 3 },
                       some { Variant := .other 1, PubKey := 4 }],
           Signatures := [some { Variant := .AnySignatureVariantEd25519, Signature := 3 },
                          some { Variant := .other 1, Signature := 5 }] } :
          MultiAuthKeyAuthenticator Nat Nat)
        [1] = some false :=
  ⟨(MultiAuthKeyAuthenticator_Verify_iff
      (fun pk _ sig => some (decide (pk.map (fun k => k.PubKey) = some sig)))
      { PubKeys := [some { Variant := .AnyPublicKeyVariantEd25519, PubKey := 3 },
                    some { Variant := .other 1, PubKey := 4 }],
        Signatures := [some { Variant := .AnySignatureVariantEd25519, Signature := 3 },
                       some { Variant := .other 1, Signature := 4 }] }
      [1]).1.2 ⟨rfl, fun i hi =>
        match i, hi with
        | 0, _ => ⟨_, _, rfl, rfl, rfl⟩
        | 1, _ => ⟨_, _, rfl, rfl, rfl⟩⟩,
   (MultiAuthKeyAuthenticator_Verify_iff
      (fun pk _ sig => some (decide (pk.map (fun k => k.PubKey) = some sig)))
      { PubKeys := [some { Variant := .AnyPublicKeyVariantEd25519, PubKey := 3 },
                    some { Variant := .other 1, PubKey := 4 }],
        Signatures := [some { Variant := .AnySignatureVariantEd25519, Signature := 3 },
                       some { Variant := .other 1, Signature := 5 }] }
      [1]).2 rfl
      (fun i hi =>
        match i, hi with
        | 0, _ => ⟨_, _, _, rfl, rfl, rfl⟩
        | 1, _ => ⟨_, _, _, rfl, rfl, rfl⟩)
      ⟨1, _, _, by decide, rfl, rfl, rfl⟩⟩

/-- C2. When `PubKeys` and `Signatures` have different lengths (one of them
may be empty), `Verify` returns false for every message: it returns a value,
so it does not panic, whatever the entries of the two lists are. -/
theorem MultiAuthKeyAuthenticator_Verify_length_mismatch {PK Sig : Type}
    (V : KeyVerify PK Sig) (ea : MultiAuthKeyAuthenticator PK Sig) (msg : List Nat)
    (h : ea.PubKeys.length ≠ ea.Signatures.length) :
    MultiAuthKeyAuthenticator.Verify V ea msg = some false := by
  unfold MultiAuthKeyAuthenticator.Verify
  rw [if_pos h]

/-- C2, at a concrete input: one nil public key and no signature, with a key
check that would panic if it were called. -/
theorem MultiAuthKeyAuthenticator_Verify_length_mismatch_witness :
    ([none] : List (Option (AnyPublicKey Nat))).length
        ≠ ([] : List (Option (AnySignature Nat))).length ∧
      MultiAuthKeyAuthenticator.Verify (fun _ _ _ => none)
        ({ PubKeys := [none], Signatures := [] } : MultiAuthKeyAuthenticator Nat Nat)
        [1, 2] = some false :=
  ⟨by decide,
    MultiAuthKeyAuthenticator_Verify_length_mismatch (fun _ _ _ => none)
      { PubKeys := [none], Signatures := [] } [1, 2] (by decide)⟩

theorem readPointers_length {α : Type} (S : Struct α) (n : Nat) (des : Deserializer) :
    (MultiAuthKeyAuthenticator.readPointers S n des).1.length = n := by
  induction n generalizing des with
  | zero => rfl
  | succ n ih =>
    simp only [MultiAuthKeyAuthenticator.readPointers, List.length_cons, ih]

/-- C3, refuted at a concrete input: the bytes `00 01 00 40` followed by 64
zero bytes encode no public key and one Ed25519 signature. `UnmarshalBCS`
decodes them without an error into a value with 0 public keys and 1
signature. -/
theorem MultiAuthKeyAuthenticator_UnmarshalBCS_accepts_mismatch :
    (MultiAuthKeyAuthenticator.UnmarshalBCS AnyPublicKey.codec AnySignature.codec
        { input := [0, 1, 0, 64] ++ List.replicate 64 0, err := none }).2
      = { input := [], err := none } ∧
    (MultiAuthKeyAuthenticator.UnmarshalBCS AnyPublicKey.codec AnySignature.codec
        { input := [0, 1, 0, 64] ++ List.replicate 64 0, err := none }).1
      = { PubKeys := [],
          Signatures := [some { Variant := .AnySignatureVariantEd25519,
                                Signature := some (.Ed25519Signature (List.replicate 64 0)) }] } := by
  constructor <;> decide

/-- C3, amended. `UnmarshalBCS` reads the two counts independently and does
not compare them: `PubKeys` gets as many entries as the first count read,
`Signatures` as many as the second count read. The length invariant is
enforced by `Verify`: on a decoded value whose two counts differ it returns
false for every message. -/
theorem MultiAuthKeyAuthenticator_UnmarshalBCS_counts {PK Sig : Type}
    (K : Struct (AnyPublicKey PK)) (S : Struct (AnySignature Sig))
    (V : KeyVerify PK Sig) (des : Deserializer) (msg : List Nat) :
    (MultiAuthKeyAuthenticator.UnmarshalBCS K S des).1.PubKeys.length
        = des.Uleb128.1 ∧
    (MultiAuthKeyAuthenticator.UnmarshalBCS K S des).1.Signatures.length
        = (MultiAuthKeyAuthenticator.readPointers K des.Uleb128.1 des.Uleb128.2).2.Uleb128.1 ∧
    (des.Uleb128.1
        ≠ (MultiAuthKeyAuthenticator.readPointers K des.Uleb128.1 des.Uleb128.2).2.Uleb128.1 →
      MultiAuthKeyAuthenticator.Verify V
        (MultiAuthKeyAuthenticator.UnmarshalBCS K S des).1 msg = some false) := by
  have h1 : (MultiAuthKeyAuthenticator.UnmarshalBCS K S des).1.PubKeys.length
      = des.Uleb128.1 := by
    simp only [MultiAuthKeyAuthenticator.UnmarshalBCS, readPointers_length]
  have h2 : (MultiAuthKeyAuthenticator.UnmarshalBCS K S des).1.Signatures.length
      = (MultiAuthKeyAuthenticator.readPointers K des.Uleb128.1 des.Uleb128.2).2.Uleb128.1 := by
    simp only [MultiAuthKeyAuthenticator.UnmarshalBCS, readPointers_length]
  refine ⟨h1, h2, fun hne => ?_⟩
  apply Verify_of_length_ne
  rw [h1, h2]
  exact hne

/-- C4. `fromAuthenticator` converts item by item. Under the tag Ed25519 it
returns the pair `AnyPublicKey{Ed25519, auth.PubKey()}`,
`AnySignature{Ed25519, auth.Signature()}` and a nil error; under the tag
SingleSender it returns the `PubKey` and `Sig` pointers of the held
`SingleKeyAuthenticator` as they are and a nil error; under every other tag
it returns two nil pointers and the error "unsupported authenticator type"
with the tag's number. -/
theorem fromAuthenticator_cases {PK Sig Other : Type}
    (PubKey : AccountAuthenticator PK Sig Other → Option PK)
    (Signature : AccountAuthenticator PK Sig Other → Option Sig)
    (auth : AccountAuthenticator PK Sig Other) :
    (auth.Variant = .AccountAuthenticatorEd25519 →
      ∀ pk sg, PubKey auth = some pk → Signature auth = some sg →
        fromAuthenticator PubKey Signature auth
          = some (some { Variant := .AnyPublicKeyVariantEd25519, PubKey := pk },
                  some { Variant := .AnySignatureVariantEd25519, Signature := sg }, none)) ∧
    (auth.Variant = .AccountAuthenticatorSingleSender →
      ∀ a, auth.Auth = some (.singleKey (some a)) →
        fromAuthenticator PubKey Signature auth = some (a.PubKey, a.Sig, none)) ∧
    (∀ tag, auth.Variant = .other tag →
      fromAuthenticator PubKey Signature auth
        = some (none, none, some ("unsupported authenticator type " ++ toString tag))) := by
  refine ⟨?_, ?_, ?_⟩
  · intro hv pk sg hpk hsg
    simp only [fromAuthenticator, hv, hpk, hsg]
  · intro hv a ha
    simp only [fromAuthenticator, hv, ha]
  · intro tag hv
    simp only [fromAuthenticator, hv]

/-- C4, at concrete inputs: an Ed25519 authenticator whose key is 7 and whose
signature is 9, a SingleSender authenticator that holds a key and a nil
signature pointer, and an authenticator with the tag number 3. -/
theorem fromAuthenticator_cases_witness :
    fromAuthenticator (fun _ => some 7) (fun _ => some 9)
        ({ Variant := .AccountAuthenticatorEd25519, Auth := some (.other ()) } :
          AccountAuthenticator Nat Nat Unit)
      = some (some { Variant := .AnyPublicKeyVariantEd25519, PubKey := 7 },
              some { Variant := .AnySignatureVariantEd25519, Signature := 9 }, none) ∧
    fromAuthenticator (fun _ => some 7) (fun _ => some 9)
        ({ Variant := .AccountAuthenticatorSingleSender,
           Auth := some (.singleKey (some
             { PubKey := some { Variant := .other 1, PubKey := 5 }, Sig := none })) } :
          AccountAuthenticator Nat Nat Unit)
      = some (some { Variant := .other 1, PubKey := 5 }, none, none) ∧
    fromAuthenticator (fun _ => some 7) (fun _ => some 9)
        ({ Variant := .other 3, Auth := none } : AccountAuthenticator Nat Nat Unit)
      = some (none, none, some "unsupported authenticator type 3") :=
  ⟨(fromAuthenticator_cases (fun _ => some 7) (fun _ => some 9)
      { Variant := .AccountAuthenticatorEd25519, Auth := some (.other ()) }).1
      rfl 7 9 rfl rfl,
   (fromAuthenticator_cases (fun _ => some 7) (fun _ => some 9)
      { Variant := .AccountAuthenticatorSingleSender,
        Auth := some (.singleKey (some
          { PubKey := some { Variant := .other 1, PubKey := 5 }, Sig := none })) }).2.1
      rfl _ rfl,
   (fromAuthenticator_cases (fun _ => some 7) (fun _ => some 9)
      { Variant := .other 3, Auth := none }).2.2 3 rfl⟩

/-- C5, refuted at a concrete input: an `AccountAuthenticator` with the tag
SingleSender whose `Auth` holds a `*MultiAuthKeyAuthenticator` (with no keys
and no signatures). The type assertion `auth.Auth.(*SingleKeyAuthenticator)`
panics: `fromAuthenticator` returns neither a pair nor an error. -/
theorem fromAuthenticator_panics_on_mismatch :
    fromAuthenticator (fun _ => some none) (fun _ => some none)
        ({ Variant := .AccountAuthenticatorSingleSender,
           Auth := some (.multiAuthKey (some { PubKeys := [], Signatures := [] })) } :
          AccountAuthenticator (Option crypto.PublicKey) (Option crypto.Signature) Unit)
      = none := by
  rfl

/-- C5, amended. `fromAuthenticator` is a function of its argument (equal
arguments give equal results), and it panics in exactly two situations: the
tag is SingleSender and `Auth` does not hold a non-nil
`*SingleKeyAuthenticator`, or the tag is Ed25519 and `auth.PubKey()` or
`auth.Signature()` panics. In every other situation it returns, and what it
returns is either a nil error (with the converted pair) or two nil pointers
and an error. -/
theorem fromAuthenticator_panic_iff {PK Sig Other : Type}
    (PubKey : AccountAuthenticator PK Sig Other → Option PK)
    (Signature : AccountAuthenticator PK Sig Other → Option Sig)
    (auth : AccountAuthenticator PK Sig Other) :
    (fromAuthenticator PubKey Signature auth = none ↔
      (auth.Variant = .AccountAuthenticatorSingleSender ∧
        ¬ ∃ a, auth.Auth = some (.singleKey (some a))) ∨
      (auth.Variant = .AccountAuthenticatorEd25519 ∧
        (PubKey auth = none ∨ Signature auth = none))) ∧
    (∀ r, fromAuthenticator PubKey Signature auth = some r →
      r.2.2 = none ∨ (r.1 = none ∧ r.2.1 = none ∧ r.2.2 ≠ none)) ∧
    (∀ auth', auth' = auth →
      fromAuthenticator PubKey Signature auth' = fromAuthenticator PubKey Signature auth) := by
  obtain ⟨variant, held⟩ := auth
  refine ⟨?_, ?_, ?_⟩
  · cases variant with
    | AccountAuthenticatorEd25519 =>
      cases hp : PubKey ⟨.AccountAuthenticatorEd25519, held⟩ with
      | none => simp [fromAuthenticator, hp]
      | some pk =>
        cases hs : Signature ⟨.AccountAuthenticatorEd25519, held⟩ with
        | none => simp [fromAuthenticator, hp, hs]
        | some sg => simp [fromAuthenticator, hp, hs]
    | AccountAuthenticatorSingleSender =>
      cases held with
      | none => simp [fromAuthenticator]
      | some impl =>
        cases impl with
        | singleKey a =>
          cases a with
          | none => simp [fromAuthenticator]
          | some a => simp [fromAuthenticator]
        | multiAuthKey a => simp [fromAuthenticator]
        | other a => simp [fromAuthenticator]
    | other tag => simp [fromAuthenticator]
  · intro r hr
    cases variant with
    | AccountAuthenticatorEd25519 =>
      cases hp : PubKey ⟨.AccountAuthenticatorEd25519, held⟩ with
      | none => simp [fromAuthenticator, hp] at hr
      | some pk =>
        cases hs : Signature ⟨.AccountAuthenticatorEd25519, held⟩ with
        | none => simp [fromAuthenticator, hp, hs] at hr
        | some sg =>
          simp only [fromAuthenticator, hp, hs, Option.some.injEq] at hr
          left
          rw [← hr]
    | AccountAuthenticatorSingleSender =>
      cases held with
      | none => simp [fromAuthenticator] at hr
      | some impl =>
        cases impl with
        | singleKey a =>
          cases a with
          | none => simp [fromAuthenticator] at hr
          | some a =>
            simp only [fromAuthenticator, Option.some.injEq] at hr
            left
            rw [← hr]
        | multiAuthKey a => simp [fromAuthenticator] at hr
        | other a => simp [fromAuthenticator] at hr
    | other tag =>
      simp only [fromAuthenticator, Option.some.injEq] at hr
      right
      rw [← hr]
      simp
  · intro auth' h
    rw [h]

end crypto

/-! ### The codec primitives -/

namespace bcs

theorem write_ok (out bs : List Nat) :
    ({ out := out, err := none } : Serializer).write bs = { out := out ++ bs, err := none } := by
  rfl

theorem Uleb128_ok (out : List Nat) (v : Nat) :
    ({ out := out, err := none } : Serializer).Uleb128 v
      = { out := out ++ ulebBytes 4 (v % 2 ^ 32), err := none } := by
  rfl

theorem WriteBytes_ok (out b : List Nat) :
    ({ out := out, err := none } : Serializer).WriteBytes b
      = { out := out ++ (ulebBytes 4 (uint32 b.length % 2 ^ 32) ++ b), err := none } := by
  simp only [Serializer.WriteBytes, Uleb128_ok, write_ok, List.append_assoc]

theorem Serializer_SetError_err_ne_none (ser : Serializer) (e : String) :
    (ser.SetError e).err ≠ none := by
  unfold Serializer.SetError
  cases h : ser.err with
  | none => simp
  | some e' => simp [h]

theorem Serializer_SetError_out (ser : Serializer) (e : String) : (ser.SetError e).out = ser.out := by
  unfold Serializer.SetError
  cases h : ser.err with
  | none => rfl
  | some e' => rfl

theorem Deserializer_SetError_err_ne_none (des : Deserializer) (e : String) :
    (des.SetError e).err ≠ none := by
  unfold Deserializer.SetError
  cases h : des.err with
  | none => simp
  | some e' => simp [h]

theorem readUleb_ulebBytes (m v : Nat) (rest : List Nat) (h : v < 128 ^ (m + 1)) :
    readUleb (m + 1) (ulebBytes m v ++ rest) = some (v, rest) := by
  induction m generalizing v with
  | zero =>
    have hv : v < 128 := by simpa using h
    simp [ulebBytes, readUleb, hv]
  | succ m ih =>
    by_cases hv : v < 128
    · simp [ulebBytes, readUleb, hv]
    · have hdiv : v / 128 < 128 ^ (m + 1) := by
        rw [Nat.div_lt_iff_lt_mul (by decide)]
        calc v < 128 ^ (m + 1 + 1) := h
          _ = 128 ^ (m + 1) * 128 := by rw [Nat.pow_succ]
      have hnot : ¬ (v % 128 + 128 < 128) := by omega
      have hmod : (v % 128 + 128) % 128 + 128 * (v / 128) = v := by omega
      simp only [ulebBytes, hv, if_false, List.cons_append, readUleb, hnot, ih (v / 128) hdiv,
        hmod]

theorem Deserializer_Uleb128_ulebBytes (v : Nat) (rest : List Nat) (h : v < 2 ^ 32) :
    ({ input := ulebBytes 4 v ++ rest, err := none } : Deserializer).Uleb128
      = (v, { input := rest, err := none }) := by
  have h5 : v < 128 ^ (4 + 1) := by
    have : (2 : Nat) ^ 32 ≤ 128 ^ (4 + 1) := by decide
    omega
  simp only [Deserializer.Uleb128, readUleb_ulebBytes 4 v rest h5, h, if_true]

theorem Deserializer_ReadBytes_ok (b rest : List Nat) (h : b.length < 2 ^ 32) :
    ({ input := ulebBytes 4 (uint32 b.length % 2 ^ 32) ++ b ++ rest, err := none } :
        Deserializer).ReadBytes
      = (b, { input := rest, err := none }) := by
  have hu : uint32 b.length % 2 ^ 32 = b.length := by
    unfold uint32
    rw [Nat.mod_mod, Nat.mod_eq_of_lt h]
  rw [hu, List.append_assoc]
  simp only [Deserializer.ReadBytes, Deserializer_Uleb128_ulebBytes b.length (b ++ rest) h,
    List.length_append, Nat.le_add_right, if_true, List.take_left', List.drop_left']

end bcs

/-! ### `transactionPayload.go` -/

open bcs

theorem foldl_marshal_readElements {α : Type} (S : Struct α) (ts : List α)
    (h : ∀ t ∈ ts, S.RoundTripsAt t) :
    ∃ bs : List Nat,
      (∀ out, ts.foldl (fun s x => S.MarshalBCS x s) { out := out, err := none }
        = { out := out ++ bs, err := none }) ∧
      (∀ rest, readElements S ts.length { input := bs ++ rest, err := none }
        = (ts, { input := rest, err := none })) := by
  induction ts with
  | nil =>
    exact ⟨[], fun out => by simp, fun rest => by simp [readElements]⟩
  | cons t ts ih =>
    obtain ⟨b1, hm1, hu1⟩ := h t (List.mem_cons_self t ts)
    obtain ⟨b2, hm2, hu2⟩ := ih (fun x hx => h x (List.mem_cons_of_mem t hx))
    refine ⟨b1 ++ b2, fun out => ?_, fun rest => ?_⟩
    · simp only [List.foldl_cons, hm1, hm2, List.append_assoc]
    · simp only [List.length_cons, readElements, List.append_assoc, hu1, hu2]

theorem sequence_roundtrip {α : Type} (S : Struct α) (ts : List α)
    (h : ∀ t ∈ ts, S.RoundTripsAt t) (hlen : ts.length < 2 ^ 32) :
    ∃ bs : List Nat,
      (∀ out, SerializeSequence S.MarshalBCS ts { out := out, err := none }
        = { out := out ++ bs, err := none }) ∧
      (∀ rest, DeserializeSequence S { input := bs ++ rest, err := none }
        = (ts, { input := rest, err := none })) := by
  obtain ⟨b, hm, hu⟩ := foldl_marshal_readElements S ts h
  have hl : uint32 ts.length % 2 ^ 32 = ts.length := by
    unfold uint32
    rw [Nat.mod_mod, Nat.mod_eq_of_lt hlen]
  refine ⟨ulebBytes 4 ts.length ++ b, fun out => ?_, fun rest => ?_⟩
  · simp only [SerializeSequence, Uleb128_ok, hl, hm, List.append_assoc]
  · simp only [DeserializeSequence, List.append_assoc,
      Deserializer_Uleb128_ulebBytes ts.length (b ++ rest) hlen, hu]

theorem foldl_WriteBytes (args : List (List Nat)) (out : List Nat) :
    args.foldl (fun (s : Serializer) a => s.WriteBytes a) { out := out, err := none }
      = { out := out ++ argsBytes args, err := none } := by
  induction args generalizing out with
  | nil => simp [argsBytes]
  | cons a args ih =>
    simp only [List.foldl_cons, WriteBytes_ok, ih, argsBytes, List.append_assoc]

theorem readArgs_argsBytes (args : List (List Nat)) (rest : List Nat)
    (h : ∀ a ∈ args, a.length < 2 ^ 32) :
    readArgs args.length { input := argsBytes args ++ rest, err := none }
      = (args, { input := rest, err := none }) := by
  induction args with
  | nil => simp [readArgs, argsBytes]
  | cons a args ih =>
    have ha := h a (List.mem_cons_self a args)
    have hr := ih (fun x hx => h x (List.mem_cons_of_mem a hx))
    have e : argsBytes (a :: args) ++ rest
        = ulebBytes 4 (uint32 a.length % 2 ^ 32) ++ a ++ (argsBytes args ++ rest) := by
      simp only [argsBytes, List.append_assoc]
    simp only [List.length_cons, readArgs, e, Deserializer_ReadBytes_ok a _ ha, hr]

theorem readArgs_length (n : Nat) (des : Deserializer) : (readArgs n des).1.length = n := by
  induction n generalizing des with
  | zero => rfl
  | succ n ih => simp only [readArgs, List.length_cons, ih]

/-- The encoding of an `EntryFunction` up to the argument count, and what the
decoder does with it: after the module id, the function name and the type
tags it reads a count and that many arguments from what follows. -/
theorem EntryFunction_head {E : Decls} (sf : EntryFunction E)
    (hparts : sf.PartsRoundTrip) (hfn : sf.Function.length < 2 ^ 32)
    (htags : sf.ArgTypes.length < 2 ^ 32) :
    ∃ pre : List Nat,
      (∀ out, EntryFunction.MarshalBCS E sf { out := out, err := none }
        = { out := out ++ (pre ++ (ulebBytes 4 (uint32 sf.Args.length % 2 ^ 32)
              ++ argsBytes sf.Args)), err := none }) ∧
      (∀ tail, EntryFunction.UnmarshalBCS E (EntryFunction.zero E)
          { input := pre ++ tail, err := none }
        = ({ Module := sf.Module, Function := sf.Function, ArgTypes := sf.ArgTypes,
             Args := (readArgs (Deserializer.Uleb128 { input := tail, err := none }).1
                      (Deserializer.Uleb128 { input := tail, err := none }).2).1 },
           (readArgs (Deserializer.Uleb128 { input := tail, err := none }).1
              (Deserializer.Uleb128 { input := tail, err := none }).2).2)) := by
  obtain ⟨mb, hmm, hmu⟩ := hparts.1
  obtain ⟨tb, htm, htu⟩ := sequence_roundtrip E.typeTag sf.ArgTypes hparts.2 htags
  refine ⟨mb ++ (ulebBytes 4 (uint32 sf.Function.length % 2 ^ 32) ++ sf.Function) ++ tb,
    fun out => ?_, fun tail => ?_⟩
  · simp only [EntryFunction.MarshalBCS, hmm, Serializer.WriteString, WriteBytes_ok, htm,
      Uleb128_ok, foldl_WriteBytes, List.append_assoc]
  · have e : mb ++ (ulebBytes 4 (uint32 sf.Function.length % 2 ^ 32) ++ sf.Function) ++ tb
          ++ tail
        = mb ++ (ulebBytes 4 (uint32 sf.Function.length % 2 ^ 32) ++ sf.Function
            ++ (tb ++ tail)) := by
      simp only [List.append_assoc]
    simp only [EntryFunction.UnmarshalBCS, EntryFunction.zero, e, hmu,
      Deserializer.ReadString, Deserializer_ReadBytes_ok sf.Function _ hfn, htu]

theorem EntryFunction_roundtrip {E : Decls} (sf : EntryFunction E)
    (hr : sf.InRange) (hparts : sf.PartsRoundTrip) :
    ∃ bs : List Nat,
      (∀ out, EntryFunction.MarshalBCS E sf { out := out, err := none }
        = { out := out ++ bs, err := none }) ∧
      (∀ rest, EntryFunction.UnmarshalBCS E (EntryFunction.zero E)
          { input := bs ++ rest, err := none }
        = (sf, { input := rest, err := none })) := by
  obtain ⟨hfn, htags, hargs, hall⟩ := hr
  obtain ⟨pre, hm, hu⟩ := EntryFunction_head sf hparts hfn htags
  have hl : uint32 sf.Args.length % 2 ^ 32 = sf.Args.length := by
    unfold uint32
    rw [Nat.mod_mod, Nat.mod_eq_of_lt hargs]
  refine ⟨pre ++ (ulebBytes 4 (uint32 sf.Args.length % 2 ^ 32) ++ argsBytes sf.Args),
    hm, fun rest => ?_⟩
  have e : pre ++ (ulebBytes 4 (uint32 sf.Args.length % 2 ^ 32) ++ argsBytes sf.Args) ++ rest
      = pre ++ (ulebBytes 4 sf.Args.length ++ (argsBytes sf.Args ++ rest)) := by
    simp only [hl, List.append_assoc]
  rw [e, hu, Deserializer_Uleb128_ulebBytes sf.Args.length _ hargs]
  simp only [readArgs_argsBytes sf.Args rest hall]

theorem Deserializer_Uleb128_small (b : Nat) (tail : List Nat) (hb : b < 128) :
    ({ input := b :: tail, err := none } : Deserializer).Uleb128
      = (b, { input := tail, err := none }) := by
  have h32 : b < 2 ^ 32 := by
    have : (128 : Nat) ≤ 2 ^ 32 := by decide
    omega
  simp only [Deserializer.Uleb128, readUleb, hb, if_true, h32]

theorem TransactionPayload_MarshalBCS_some {E : Decls} (p : TransactionPayloadImpl E)
    (out : List Nat) :
    TransactionPayload.MarshalBCS E (some { Payload := some p }) { out := out, err := none }
      = TransactionPayloadImpl.MarshalBCS E p
          { out := out ++ ulebBytes 4 (uint32 p.PayloadType % 2 ^ 32), err := none } := by
  rfl

theorem TransactionPayload_UnmarshalBCS_entryFunction {E : Decls} (txn : TransactionPayload E)
    (tail : List Nat) :
    TransactionPayload.UnmarshalBCS E txn { input := 2 :: tail, err := none }
      = ({ Payload := some (.entryFunction
            (EntryFunction.UnmarshalBCS E (EntryFunction.zero E)
              { input := tail, err := none }).1) },
         (EntryFunction.UnmarshalBCS E (EntryFunction.zero E)
            { input := tail, err := none }).2) := by
  simp [TransactionPayload.UnmarshalBCS, Deserializer_Uleb128_small 2 tail (by decide),
    TransactionPayloadVariantScript, TransactionPayloadVariantModuleBundle,
    TransactionPayloadVariantEntryFunction]

theorem TransactionPayload_UnmarshalBCS_multisig {E : Decls} (txn : TransactionPayload E)
    (tail : List Nat) :
    TransactionPayload.UnmarshalBCS E txn { input := 3 :: tail, err := none }
      = ({ Payload := some (.multisig
            (Multisig.UnmarshalBCS E (Multisig.zero E) { input := tail, err := none }).1) },
         (Multisig.UnmarshalBCS E (Multisig.zero E) { input := tail, err := none }).2) := by
  simp [TransactionPayload.UnmarshalBCS, Deserializer_Uleb128_small 3 tail (by decide),
    TransactionPayloadVariantScript, TransactionPayloadVariantModuleBundle,
    TransactionPayloadVariantEntryFunction, TransactionPayloadVariantMultisig]

theorem MultisigTransactionPayload_roundtrip {E : Decls} (sf : EntryFunction E)
    (hr : sf.InRange) (hparts : sf.PartsRoundTrip) :
    ∃ bs : List Nat,
      (∀ out, MultisigTransactionPayload.MarshalBCS E
          { Variant := MultisigTransactionPayloadVariantEntryFunction,
            Payload := some (.entryFunction sf) } { out := out, err := none }
        = { out := out ++ bs, err := none }) ∧
      (∀ rest, MultisigTransactionPayload.UnmarshalBCS E (MultisigTransactionPayload.zero E)
          { input := bs ++ rest, err := none }
        = ({ Variant := MultisigTransactionPayloadVariantEntryFunction,
             Payload := some (.entryFunction sf) }, { input := rest, err := none })) := by
  obtain ⟨eb, hm, hu⟩ := EntryFunction_roundtrip sf hr hparts
  refine ⟨0 :: eb, fun out => ?_, fun rest => ?_⟩
  · have h0 : ulebBytes 4 (uint32 MultisigTransactionPayloadVariantEntryFunction % 2 ^ 32)
        = [0] := by decide
    simp only [MultisigTransactionPayload.MarshalBCS, Uleb128_ok, h0, Serializer.Struct,
      MultisigTransactionImpl.MarshalBCS, hm, List.append_assoc, List.singleton_append]
  · simp only [MultisigTransactionPayload.UnmarshalBCS, List.cons_append,
      Deserializer_Uleb128_small 0 _ (by decide : 0 < 128),
      MultisigTransactionPayloadVariantEntryFunction, if_true, Deserializer.Struct, hu,
      MultisigTransactionPayload.zero]

theorem Multisig_roundtrip {E : Decls} (m : Multisig E)
    (haddr : E.accountAddress.RoundTripsAt m.MultisigAddress)
    (hp : match m.Payload with
      | none => True
      | some p =>
        p.Variant = MultisigTransactionPayloadVariantEntryFunction ∧
          (match p.Payload with
           | some (.entryFunction sf) => sf.InRange ∧ sf.PartsRoundTrip
           | none => False)) :
    ∃ bs : List Nat,
      (∀ out, Multisig.MarshalBCS E m { out := out, err := none }
        = { out := out ++ bs, err := none }) ∧
      (∀ rest, Multisig.UnmarshalBCS E (Multisig.zero E) { input := bs ++ rest, err := none }
        = (m, { input := rest, err := none })) := by
  obtain ⟨ab, ham, hau⟩ := haddr
  obtain ⟨addr, payload⟩ := m
  cases payload with
  | none =>
    refine ⟨ab ++ [0], fun out => ?_, fun rest => ?_⟩
    · simp only [Multisig.MarshalBCS, Serializer.Struct, ham, Serializer.Bool, write_ok,
        List.append_assoc]
      rfl
    · simp only [Multisig.UnmarshalBCS, Multisig.zero, Deserializer.Struct, List.append_assoc,
        hau, List.singleton_append, Deserializer.Bool]
      rfl
  | some p =>
    obtain ⟨variant, held⟩ := p
    obtain ⟨hv, hheld⟩ := hp
    cases held with
    | none => exact absurd hheld id
    | some impl =>
      cases impl with
      | entryFunction sf =>
        obtain ⟨pb, hpm, hpu⟩ := MultisigTransactionPayload_roundtrip sf hheld.1 hheld.2
        simp only at hv
        subst hv
        refine ⟨ab ++ (1 :: pb), fun out => ?_, fun rest => ?_⟩
        · simp only [Multisig.MarshalBCS, Serializer.Struct, ham, Serializer.Bool, write_ok,
            hpm, List.append_assoc]
          rfl
        · simp only [Multisig.UnmarshalBCS, Multisig.zero, Deserializer.Struct,
            List.append_assoc, hau, List.cons_append, Deserializer.Bool, hpu]
          rfl

/-- C6. When the tag that `UnmarshalBCS` reads at the front of the input is
the ModuleBundle tag (1), or is none of the tags Script (0), EntryFunction (2)
and Multisig (3), which covers every unknown tag and the tags 4 and 5, the
deserializer ends with an error and the target is exactly as it was before
the call, its `Payload` field included. (A failed read of the tag yields 0
and is not in this case.) -/
theorem TransactionPayload_UnmarshalBCS_rejects_tag {E : Decls} (txn : TransactionPayload E)
    (des : Deserializer)
    (htag : des.Uleb128.1 = TransactionPayloadVariantModuleBundle ∨
      (des.Uleb128.1 ≠ TransactionPayloadVariantScript ∧
        des.Uleb128.1 ≠ TransactionPayloadVariantEntryFunction ∧
        des.Uleb128.1 ≠ TransactionPayloadVariantMultisig)) :
    (TransactionPayload.UnmarshalBCS E txn des).2.err ≠ none ∧
      (TransactionPayload.UnmarshalBCS E txn des).1 = txn ∧
      (TransactionPayload.UnmarshalBCS E txn des).1.Payload = txn.Payload := by
  have key : ∃ e, TransactionPayload.UnmarshalBCS E txn des
      = (txn, des.Uleb128.2.SetError e) := by
    unfold TransactionPayload.UnmarshalBCS
    rcases htag with h1 | ⟨h0, h2, h3⟩
    · have hs : des.Uleb128.1 ≠ TransactionPayloadVariantScript := by
        rw [h1]
        decide
      exact ⟨_, by rw [if_neg hs, if_pos h1]⟩
    · by_cases h1 : des.Uleb128.1 = TransactionPayloadVariantModuleBundle
      · exact ⟨_, by rw [if_neg h0, if_pos h1]⟩
      · exact ⟨_, by rw [if_neg h0, if_neg h1, if_neg h2, if_neg h3]⟩
  obtain ⟨e, he⟩ := key
  rw [he]
  exact ⟨Deserializer_SetError_err_ne_none _ _, rfl, rfl⟩

/-- C6, at a concrete input: the bytes `01 07` decoded into a target that
already holds a `Script`. -/
theorem TransactionPayload_UnmarshalBCS_rejects_tag_witness :
    (TransactionPayload.UnmarshalBCS Decls.sample { Payload := some (.script [9]) }
        { input := [1, 7], err := none }).2.err ≠ none ∧
      (TransactionPayload.UnmarshalBCS Decls.sample { Payload := some (.script [9]) }
        { input := [1, 7], err := none }).1 = { Payload := some (.script [9]) } ∧
      (TransactionPayload.UnmarshalBCS Decls.sample { Payload := some (.script [9]) }
        { input := [1, 7], err := none }).1.Payload = some (.script [9]) :=
  TransactionPayload_UnmarshalBCS_rejects_tag (E := Decls.sample)
    { Payload := some (.script [9]) } { input := [1, 7], err := none } (Or.inl rfl)

/-- C7. Encoding an empty `TransactionPayload` fails: for a nil receiver and
for a receiver whose `Payload` is nil, `MarshalBCS` leaves the serializer in
error and its output as it was (no tag is written); on a fresh serializer the
error is "nil transaction payload", and `bcs.Serialize` returns it with no
bytes. -/
theorem TransactionPayload_MarshalBCS_empty (E : Decls) (ser : Serializer) :
    ((TransactionPayload.MarshalBCS E none ser).err ≠ none ∧
      (TransactionPayload.MarshalBCS E none ser).out = ser.out) ∧
    ((TransactionPayload.MarshalBCS E (some { Payload := none }) ser).err ≠ none ∧
      (TransactionPayload.MarshalBCS E (some { Payload := none }) ser).out = ser.out) ∧
    TransactionPayload.MarshalBCS E (some { Payload := none }) { out := [], err := none }
      = { out := [], err := some "nil transaction payload" } ∧
    Serialize (TransactionPayload.MarshalBCS E (some { Payload := none }))
      = ([], some "nil transaction payload") := by
  refine ⟨⟨?_, ?_⟩, ⟨?_, ?_⟩, rfl, rfl⟩
  · exact Serializer_SetError_err_ne_none ser _
  · exact Serializer_SetError_out ser _
  · exact Serializer_SetError_err_ne_none ser _
  · exact Serializer_SetError_out ser _

/-- C8. `ModuleBundle` always fails to encode and to decode:
`ModuleBundle.MarshalBCS` leaves every serializer in error,
`ModuleBundle.UnmarshalBCS` leaves every deserializer in error, and the
encoding of a `TransactionPayload` that holds a `ModuleBundle` ends in error
on every serializer, so that `bcs.Serialize` returns an error and no bytes. -/
theorem ModuleBundle_always_fails (E : Decls) :
    (∀ ser : Serializer, (ModuleBundle.MarshalBCS ser).err ≠ none) ∧
    (∀ des : Deserializer, (ModuleBundle.UnmarshalBCS des).err ≠ none) ∧
    (∀ ser : Serializer,
      (TransactionPayload.MarshalBCS E (some { Payload := some .moduleBundle }) ser).err
        ≠ none) ∧
    Serialize (TransactionPayload.MarshalBCS E (some { Payload := some .moduleBundle }))
      = ([], some "ModuleBundle unimplemented") := by
  refine ⟨fun ser => Serializer_SetError_err_ne_none ser _,
    fun des => Deserializer_SetError_err_ne_none des _, fun ser => ?_, rfl⟩
  exact Serializer_SetError_err_ne_none _ _

/-- The round trip of the elements. A `TransactionPayload` that holds an
`EntryFunction` (also one with no type tags and no arguments), or a `Multisig`
with no inner payload or with an inner payload of variant EntryFunction,
in which every length it encodes is below 2^32 and whose module id, type tags
and multisig address round-trip under their own codecs: `MarshalBCS` on a
fresh serializer yields bytes `bs` and no error, and `UnmarshalBCS` into a
fresh `TransactionPayload`, on `bs` followed by any bytes `rest`, yields a
value with the elements of the original, with no error, and leaves exactly
`rest` unread. Whether a slice is nil is not part of these values; the
section on nil and empty slices adds it. -/
theorem TransactionPayload_roundtrip {E : Decls} (txn : TransactionPayload E)
    (h : txn.RoundTripDomain) (rest : List Nat) :
    ∃ bs : List Nat,
      TransactionPayload.MarshalBCS E (some txn) { out := [], err := none }
        = { out := bs, err := none } ∧
      TransactionPayload.UnmarshalBCS E { Payload := none }
          { input := bs ++ rest, err := none }
        = (txn, { input := rest, err := none }) := by
  obtain ⟨payload⟩ := txn
  cases payload with
  | none => exact absurd h id
  | some p =>
    cases p with
    | script s => exact absurd h id
    | moduleBundle => exact absurd h id
    | safeEntryFunction sf => exact absurd h id
    | entryFunction sf =>
      obtain ⟨eb, hm, hu⟩ := EntryFunction_roundtrip sf h.1 h.2
      refine ⟨2 :: eb, ?_, ?_⟩
      · rw [TransactionPayload_MarshalBCS_some]
        have h2 : ulebBytes 4 (uint32 (TransactionPayloadImpl.PayloadType
            (TransactionPayloadImpl.entryFunction sf)) % 2 ^ 32) = [2] := rfl
        rw [h2]
        simp only [TransactionPayloadImpl.MarshalBCS, hm, List.nil_append,
          List.singleton_append]
      · rw [List.cons_append, TransactionPayload_UnmarshalBCS_entryFunction, hu]
    | multisig m =>
      obtain ⟨mb, hm, hu⟩ := Multisig_roundtrip m h.1 h.2
      refine ⟨3 :: mb, ?_, ?_⟩
      · rw [TransactionPayload_MarshalBCS_some]
        have h3 : ulebBytes 4 (uint32 (TransactionPayloadImpl.PayloadType
            (TransactionPayloadImpl.multisig m)) % 2 ^ 32) = [3] := rfl
        rw [h3]
        simp only [TransactionPayloadImpl.MarshalBCS, hm, List.nil_append,
          List.singleton_append]
      · rw [List.cons_append, TransactionPayload_UnmarshalBCS_multisig, hu]

theorem bytesStruct_roundTripsAt (b : List Nat) (h : b.length < 2 ^ 32) :
    bytesStruct.RoundTripsAt b := by
  refine ⟨ulebBytes 4 (uint32 b.length % 2 ^ 32) ++ b, fun out => ?_, fun rest => ?_⟩
  · exact WriteBytes_ok out b
  · exact Deserializer_ReadBytes_ok b rest h

/-- The round trip of the elements at a concrete input: a `Multisig` payload
with an inner `EntryFunction`, over the sample declarations. -/
theorem TransactionPayload_roundtrip_witness :
    TransactionPayload.RoundTripDomain
        ({ Payload := some (.multisig Multisig.sample) } : TransactionPayload Decls.sample) ∧
      ∃ bs : List Nat,
        TransactionPayload.MarshalBCS Decls.sample
            (some { Payload := some (.multisig Multisig.sample) }) { out := [], err := none }
          = { out := bs, err := none } ∧
        TransactionPayload.UnmarshalBCS Decls.sample { Payload := none }
            { input := bs ++ [], err := none }
          = ({ Payload := some (.multisig Multisig.sample) }, { input := [], err := none }) :=
  have hdom : TransactionPayload.RoundTripDomain
      ({ Payload := some (.multisig Multisig.sample) } : TransactionPayload Decls.sample) :=
    ⟨bytesStruct_roundTripsAt [10, 11] (by decide), rfl,
      ⟨by decide, by decide, by decide, by decide⟩,
      bytesStruct_roundTripsAt [1, 2] (by decide),
      fun t ht => by
        have ht' : t = [7] := by simpa using ht
        rw [ht']
        exact bytesStruct_roundTripsAt [7] (by decide)⟩
  ⟨hdom, TransactionPayload_roundtrip _ hdom []⟩

/-- The bound 2^32 on the lengths is needed for the round trip: on an
`EntryFunction` payload with 2^32 arguments `uint32(len(sf.Args))` is 0, so the
encoding succeeds with the argument count 0, and decoding the bytes yields an
`EntryFunction` with no argument, which is not the original. -/
theorem TransactionPayload_roundtrip_fails_beyond_uint32 :
    ∃ bs : List Nat,
      TransactionPayload.MarshalBCS Decls.sample
          (some { Payload := some (.entryFunction EntryFunction.manyArgs) })
          { out := [], err := none }
        = { out := bs, err := none } ∧
      (TransactionPayload.UnmarshalBCS Decls.sample { Payload := none }
          { input := bs, err := none }).1
        = { Payload := some (.entryFunction
              { Module := [], Function := [], ArgTypes := [], Args := [] }) } ∧
      (TransactionPayload.UnmarshalBCS Decls.sample { Payload := none }
          { input := bs, err := none }).1
        ≠ { Payload := some (.entryFunction EntryFunction.manyArgs) } := by
  have hparts : EntryFunction.manyArgs.PartsRoundTrip :=
    ⟨bytesStruct_roundTripsAt [] (by decide), fun t ht => absurd ht (List.not_mem_nil t)⟩
  obtain ⟨pre, hm, hu⟩ := EntryFunction_head EntryFunction.manyArgs hparts
    (by decide) (by decide)
  have hA : EntryFunction.manyArgs.Args.length = 2 ^ 32 := by
    show (List.replicate (2 ^ 32) ([] : List Nat)).length = 2 ^ 32
    exact List.length_replicate _ _
  have h0 : ulebBytes 4 (uint32 EntryFunction.manyArgs.Args.length % 2 ^ 32) = [0] := by
    rw [hA]
    decide
  rw [h0] at hm
  generalize argsBytes EntryFunction.manyArgs.Args = ab at hm
  have hdec : (TransactionPayload.UnmarshalBCS Decls.sample { Payload := none }
      { input := 2 :: (pre ++ ([0] ++ ab)), err := none }).1
        = { Payload := some (.entryFunction
              { Module := [], Function := [], ArgTypes := [], Args := [] }) } := by
    rw [TransactionPayload_UnmarshalBCS_entryFunction, hu, List.singleton_append,
      Deserializer_Uleb128_small 0 ab (by decide)]
    rfl
  refine ⟨2 :: (pre ++ ([0] ++ ab)), ?_, hdec, ?_⟩
  · rw [TransactionPayload_MarshalBCS_some]
    have h2 : ulebBytes 4 (uint32 (TransactionPayloadImpl.PayloadType
        (TransactionPayloadImpl.entryFunction EntryFunction.manyArgs)) % 2 ^ 32) = [2] := rfl
    rw [h2]
    simp only [TransactionPayloadImpl.MarshalBCS, hm, List.nil_append, List.singleton_append]
  · rw [hdec]
    intro h
    have h2 := congrArg (fun t : TransactionPayload Decls.sample =>
      match t.Payload with
      | some (.entryFunction sf) => sf.Args.length
      | _ => 0) h
    have h3 : (0 : Nat) = EntryFunction.manyArgs.Args.length := h2
    rw [hA] at h3
    exact absurd h3 (by decide)

/-- C10, on the code: `MarshalBCS` writes the tag 5 before a
`SafeEntryFunction`, and `UnmarshalBCS` has no case for the tag 5: on every
input that starts with the byte 5 it sets the error "bad txn payload kind, 5"
and leaves the target as it was. At the sample `SafeEntryFunction` the
encoding is 41 bytes, and decoding them into a fresh `TransactionPayload`
fails with nothing reconstructed. -/
theorem TransactionPayload_SafeEntryFunction_not_decodable :
    (∀ (E : Decls) (sf : SafeEntryFunction E) (out : List Nat),
      TransactionPayload.MarshalBCS E (some { Payload := some (.safeEntryFunction sf) })
          { out := out, err := none }
        = SafeEntryFunction.MarshalBCS E sf { out := out ++ [5], err := none }) ∧
    (∀ (E : Decls) (txn : TransactionPayload E) (tail : List Nat),
      TransactionPayload.UnmarshalBCS E txn { input := 5 :: tail, err := none }
        = (txn, { input := tail, err := some "bad txn payload kind, 5" })) ∧
    TransactionPayload.MarshalBCS Decls.sample
        (some { Payload := some (.safeEntryFunction SafeEntryFunction.sample) })
        { out := [], err := none }
      = { out := [5, 1, 1, 1, 102, 0, 1, 1, 7] ++ List.replicate 32 0, err := none } ∧
    TransactionPayload.UnmarshalBCS Decls.sample { Payload := none }
        { input := [5, 1, 1, 1, 102, 0, 1, 1, 7] ++ List.replicate 32 0, err := none }
      = ({ Payload := none },
         { input := [1, 1, 1, 102, 0, 1, 1, 7] ++ List.replicate 32 0,
           err := some "bad txn payload kind, 5" }) := by
  refine ⟨fun E sf out => rfl, fun E txn tail => ?_, by decide, rfl⟩
  simp [TransactionPayload.UnmarshalBCS, Deserializer_Uleb128_small 5 tail (by decide),
    TransactionPayloadVariantScript, TransactionPayloadVariantModuleBundle,
    TransactionPayloadVariantEntryFunction, TransactionPayloadVariantMultisig,
    Deserializer.SetError]
  rfl

/-! ### Layouts, round trips of the authenticator, hashing and verification -/

theorem uint32_mod (n : Nat) : uint32 n % 2 ^ 32 = uint32 n := by
  unfold uint32
  exact Nat.mod_mod _ _

theorem foldl_marshal_encodeAll {α : Type} (marshal : α → Serializer → Serializer)
    (enc : α → List Nat) (xs : List α)
    (h : ∀ x ∈ xs, ∀ out, marshal x { out := out, err := none }
      = { out := out ++ enc x, err := none }) (out : List Nat) :
    xs.foldl (fun s x => marshal x s) { out := out, err := none }
      = { out := out ++ encodeAll enc xs, err := none } := by
  induction xs generalizing out with
  | nil => simp [encodeAll]
  | cons x xs ih =>
    have hx := h x (List.mem_cons_self x xs)
    have hxs := ih (fun y hy => h y (List.mem_cons_of_mem x hy))
    simp only [List.foldl_cons, hx, hxs, encodeAll, List.append_assoc]

theorem argsBytes_eq_encodeAll (args : List (List Nat)) :
    argsBytes args = encodeAll (fun a => ulebBytes 4 (uint32 a.length) ++ a) args := by
  induction args with
  | nil => rfl
  | cons a args ih => simp only [argsBytes, encodeAll, ih, uint32_mod]

/-- C11, on the code: `SafeEntryFunction.MarshalBCS` writes the hash with
`FixedBytes`, 32 bytes with no length before them, and `UnmarshalBCS` reads it
back with `ReadBytes`, which takes the first hash byte for a length. At the
sample value whose hash is 1, 2, ..., 32 the encoding ends with these 32
bytes; decoding it into a fresh value returns without error a value whose
hash is 2 followed by 31 zero bytes, and leaves the last 30 bytes unread. -/
theorem SafeEntryFunction_roundtrip_fails :
    SafeEntryFunction.MarshalBCS Decls.sample SafeEntryFunction.hashed
        { out := [], err := none }
      = { out := [1, 1, 1, 102, 0, 1, 1, 7] ++ List.range' 1 32, err := none } ∧
    SafeEntryFunction.UnmarshalBCS Decls.sample (SafeEntryFunction.zero Decls.sample)
        { input := [1, 1, 1, 102, 0, 1, 1, 7] ++ List.range' 1 32, err := none }
      = some ({ Module := [1], Function := [102], ArgTypes := [], Args := [[7]],
                Hash := ⟨2 :: List.replicate 31 0, rfl⟩ },
              { input := List.range' 3 30, err := none }) ∧
    (⟨2 :: List.replicate 31 0, rfl⟩ : { l : List Nat // l.length = 32 })
      ≠ SafeEntryFunction.hashed.Hash := by
  refine ⟨by decide, rfl, by decide⟩

/-- C12. On a serializer without error, `EntryFunction.MarshalBCS` appends, in
this order and with nothing else: the bytes of the module id, the function
name with its ULEB128 length before it, the ULEB128 count of the type tags and
the bytes of each type tag in order, the ULEB128 count of the arguments and
each argument in order as its ULEB128 length followed by its bytes unchanged.
Every count and length is the `uint32` that the code converts it to; `mb` and
`tagBytes` are the bytes that the codecs of the module id and of the type
tags write. -/
theorem EntryFunction_MarshalBCS_layout {E : Decls} (sf : EntryFunction E)
    (mb : List Nat) (tagBytes : E.TypeTag → List Nat) (out : List Nat)
    (hm : ∀ o, E.moduleId.MarshalBCS sf.Module { out := o, err := none }
      = { out := o ++ mb, err := none })
    (ht : ∀ t ∈ sf.ArgTypes, ∀ o, E.typeTag.MarshalBCS t { out := o, err := none }
      = { out := o ++ tagBytes t, err := none }) :
    EntryFunction.MarshalBCS E sf { out := out, err := none }
      = { out := out ++ (mb
            ++ (ulebBytes 4 (uint32 sf.Function.length) ++ sf.Function)
            ++ (ulebBytes 4 (uint32 sf.ArgTypes.length) ++ encodeAll tagBytes sf.ArgTypes)
            ++ (ulebBytes 4 (uint32 sf.Args.length)
                ++ encodeAll (fun a => ulebBytes 4 (uint32 a.length) ++ a) sf.Args)),
          err := none } := by
  simp only [EntryFunction.MarshalBCS, hm, Serializer.WriteString, WriteBytes_ok,
    SerializeSequence, Uleb128_ok, foldl_marshal_encodeAll _ tagBytes sf.ArgTypes ht,
    foldl_WriteBytes, argsBytes_eq_encodeAll, uint32_mod, List.append_assoc]

/-- C12, at a concrete input: the sample declarations, a module id `01 02`,
the name "f", one type tag `07` and the arguments `01 02 03` and empty. -/
theorem EntryFunction_MarshalBCS_layout_witness :
    EntryFunction.MarshalBCS Decls.sample
        { Module := [1, 2], Function := [102], ArgTypes := [[7]], Args := [[1, 2, 3], []] }
        { out := [], err := none }
      = { out := [2, 1, 2, 1, 102, 1, 1, 7, 2, 3, 1, 2, 3, 0], err := none } :=
  EntryFunction_MarshalBCS_layout (E := Decls.sample)
    { Module := [1, 2], Function := [102], ArgTypes := [[7]], Args := [[1, 2, 3], []] }
    [2, 1, 2] (fun (t : List Nat) => ulebBytes 4 (uint32 t.length % 2 ^ 32) ++ t) []
    (fun o => WriteBytes_ok o [1, 2]) (fun t _ o => WriteBytes_ok o t)

/-- C13. `Multisig.MarshalBCS` writes the multisig address (`ab` are the bytes
of its codec), then one flag byte: 0 when `Payload` is nil, and nothing more;
1 otherwise, followed by the nested `MultisigTransactionPayload`, which is its
ULEB128 variant tag and then its payload. `MultisigTransactionPayload.UnmarshalBCS`
accepts the tag 0 alone: on tag 0 it sets `Payload` to the `EntryFunction` it
decodes, on every other tag it sets an error and leaves the receiver, its
`Payload` included, as it was. -/
theorem Multisig_MarshalBCS_layout {E : Decls} (addr : E.AccountAddress) (ab out : List Nat)
    (ha : ∀ o, E.accountAddress.MarshalBCS addr { out := o, err := none }
      = { out := o ++ ab, err := none }) :
    Multisig.MarshalBCS E { MultisigAddress := addr, Payload := none }
        { out := out, err := none }
      = { out := out ++ (ab ++ [0]), err := none } ∧
    (∀ p : MultisigTransactionPayload E,
      Multisig.MarshalBCS E { MultisigAddress := addr, Payload := some p }
          { out := out, err := none }
        = Serializer.Struct
            { out := out ++ (ab ++ [1] ++ ulebBytes 4 (uint32 p.Variant)), err := none }
            p.Payload (MultisigTransactionImpl.MarshalBCS E)) ∧
    (∀ (variant : Nat) (sf : EntryFunction E),
      Multisig.MarshalBCS E
          { MultisigAddress := addr,
            Payload := some { Variant := variant, Payload := some (.entryFunction sf) } }
          { out := out, err := none }
        = EntryFunction.MarshalBCS E sf
            { out := out ++ (ab ++ [1] ++ ulebBytes 4 (uint32 variant)), err := none }) ∧
    (∀ (sf : MultisigTransactionPayload E) (des : Deserializer),
      des.Uleb128.1 ≠ MultisigTransactionPayloadVariantEntryFunction →
        (MultisigTransactionPayload.UnmarshalBCS E sf des).1 = sf ∧
        (MultisigTransactionPayload.UnmarshalBCS E sf des).2.err ≠ none) ∧
    (∀ (sf : MultisigTransactionPayload E) (des : Deserializer),
      des.Uleb128.1 = MultisigTransactionPayloadVariantEntryFunction →
        (MultisigTransactionPayload.UnmarshalBCS E sf des).1.Payload
          = some (.entryFunction
              (EntryFunction.UnmarshalBCS E (EntryFunction.zero E) des.Uleb128.2).1) ∧
        (MultisigTransactionPayload.UnmarshalBCS E sf des).2
          = (EntryFunction.UnmarshalBCS E (EntryFunction.zero E) des.Uleb128.2).2) := by
  refine ⟨?_, fun p => ?_, fun variant sf => ?_, fun sf des h => ?_, fun sf des h => ?_⟩
  · simp only [Multisig.MarshalBCS, Serializer.Struct, ha, Serializer.Bool, write_ok,
      List.append_assoc]
    rfl
  · simp only [Multisig.MarshalBCS, Serializer.Struct, ha, Serializer.Bool, write_ok,
      MultisigTransactionPayload.MarshalBCS, Uleb128_ok, uint32_mod, List.append_assoc]
    rfl
  · simp only [Multisig.MarshalBCS, Serializer.Struct, ha, Serializer.Bool, write_ok,
      MultisigTransactionPayload.MarshalBCS, Uleb128_ok, uint32_mod, List.append_assoc,
      MultisigTransactionImpl.MarshalBCS]
    rfl
  · unfold MultisigTransactionPayload.UnmarshalBCS
    rw [if_neg h]
    exact ⟨rfl, Deserializer_SetError_err_ne_none _ _⟩
  · unfold MultisigTransactionPayload.UnmarshalBCS
    rw [if_pos h]
    exact ⟨rfl, rfl⟩

/-- C13, at a concrete input: the sample declarations, the address `0a 0b`,
the inner variant 0 and an inner `EntryFunction` with an empty module id, the
name "f", no type tag and no argument. -/
theorem Multisig_MarshalBCS_layout_witness :
    Multisig.MarshalBCS Decls.sample
        { MultisigAddress := [10, 11],
          Payload := some
            { Variant := 0,
              Payload := some (.entryFunction
                { Module := [], Function := [102], ArgTypes := [], Args := [] }) } }
        { out := [], err := none }
      = { out := [2, 10, 11, 1, 0, 0, 1, 102, 0, 0], err := none } :=
  (Multisig_MarshalBCS_layout (E := Decls.sample) [10, 11] [2, 10, 11] []
    (fun o => WriteBytes_ok o [10, 11])).2.2.1 0
    { Module := [], Function := [102], ArgTypes := [], Args := [] }

namespace crypto

theorem marshalPointers_map_some {α : Type} (S : Struct α) (enc : α → List Nat)
    (xs : List α)
    (h : ∀ x ∈ xs, ∀ o, S.MarshalBCS x { out := o, err := none }
      = { out := o ++ enc x, err := none }) (out : List Nat) :
    MultiAuthKeyAuthenticator.marshalPointers S (xs.map some) { out := out, err := none }
      = some { out := out ++ encodeAll enc xs, err := none } := by
  induction xs generalizing out with
  | nil => simp [MultiAuthKeyAuthenticator.marshalPointers, encodeAll]
  | cons x xs ih =>
    have hx := h x (List.mem_cons_self x xs)
    have hxs := ih (fun y hy => h y (List.mem_cons_of_mem x hy))
    simp only [List.map_cons, MultiAuthKeyAuthenticator.marshalPointers, hx, hxs, encodeAll,
      List.append_assoc]

theorem MarshalBCS_of_encodings {PK Sig : Type}
    (K : Struct (AnyPublicKey PK)) (S : Struct (AnySignature Sig))
    (encK : AnyPublicKey PK → List Nat) (encS : AnySignature Sig → List Nat)
    (keys : List (AnyPublicKey PK)) (sigs : List (AnySignature Sig)) (out : List Nat)
    (hK : ∀ k ∈ keys, ∀ o, K.MarshalBCS k { out := o, err := none }
      = { out := o ++ encK k, err := none })
    (hS : ∀ s ∈ sigs, ∀ o, S.MarshalBCS s { out := o, err := none }
      = { out := o ++ encS s, err := none }) :
    MultiAuthKeyAuthenticator.MarshalBCS K S
        { PubKeys := keys.map some, Signatures := sigs.map some }
        { out := out, err := none }
      = some { out := out ++ ((ulebBytes 4 (uint32 keys.length) ++ encodeAll encK keys)
                ++ (ulebBytes 4 (uint32 sigs.length) ++ encodeAll encS sigs)),
               err := none } := by
  simp only [MultiAuthKeyAuthenticator.MarshalBCS, MultiAuthKeyAuthenticator.serializePointers,
    List.length_map, Uleb128_ok, uint32_mod, marshalPointers_map_some K encK keys hK,
    marshalPointers_map_some S encS sigs hS, List.append_assoc]

/-- C14. On a serializer without error, `MultiAuthKeyAuthenticator.MarshalBCS`
appends exactly the ULEB128 count of `PubKeys` and the encoding of each public
key in order, then the ULEB128 count of `Signatures` and the encoding of each
signature in order. Each count is the one of its own list: the two lists need
not have the same length. The entries are non-nil pointers, each count is the
`uint32` of the list's length, and `encK`, `encS` are the bytes that the
codecs of `AnyPublicKey` and `AnySignature` write. -/
theorem MultiAuthKeyAuthenticator_MarshalBCS_layout {PK Sig : Type}
    (K : Struct (AnyPublicKey PK)) (S : Struct (AnySignature Sig))
    (encK : AnyPublicKey PK → List Nat) (encS : AnySignature Sig → List Nat)
    (keys : List (AnyPublicKey PK)) (sigs : List (AnySignature Sig)) (out : List Nat)
    (hK : ∀ k ∈ keys, ∀ o, K.MarshalBCS k { out := o, err := none }
      = { out := o ++ encK k, err := none })
    (hS : ∀ s ∈ sigs, ∀ o, S.MarshalBCS s { out := o, err := none }
      = { out := o ++ encS s, err := none }) :
    MultiAuthKeyAuthenticator.MarshalBCS K S
        { PubKeys := keys.map some, Signatures := sigs.map some }
        { out := out, err := none }
      = some { out := out ++ ((ulebBytes 4 (uint32 keys.length) ++ encodeAll encK keys)
                ++ (ulebBytes 4 (uint32 sigs.length) ++ encodeAll encS sigs)),
               err := none } :=
  MarshalBCS_of_encodings K S encK encS keys sigs out hK hS

/-- C14, at a concrete input: one Secp256k1 public key of 65 bytes and no
signature, under the codecs modelled from the spec; the counts written are 1
and 0. -/
theorem MultiAuthKeyAuthenticator_MarshalBCS_layout_witness :
    MultiAuthKeyAuthenticator.MarshalBCS AnyPublicKey.codec AnySignature.codec
        { PubKeys := [some { Variant := .other 1,
                             PubKey := some (.Secp256k1PublicKey (List.replicate 65 4)) }],
          Signatures := [] }
        { out := [], err := none }
      = some { out := [1, 1, 65] ++ List.replicate 65 4 ++ [0], err := none } := by
  have h := MultiAuthKeyAuthenticator_MarshalBCS_layout AnyPublicKey.codec AnySignature.codec
    (fun _ => [1, 65] ++ List.replicate 65 4) (fun _ => [])
    [{ Variant := .other 1, PubKey := some (.Secp256k1PublicKey (List.replicate 65 4)) }]
    [] []
    (fun k hk o => by
      have hk' : k =
          { Variant := .other 1,
            PubKey := some (.Secp256k1PublicKey (List.replicate 65 4)) } := by
        simpa using hk
      rw [hk']
      simp only [AnyPublicKey.codec, AnyPublicKey.MarshalBCS, Uleb128_ok, WriteBytes_ok,
        List.append_assoc]
      rfl)
    (fun s hs o => absurd hs (List.not_mem_nil s))
  exact h

end crypto

namespace crypto

theorem Deserializer_Uleb128_lt (des : Deserializer) : des.Uleb128.1 < 2 ^ 32 := by
  have hpos : (0 : Nat) < 2 ^ 32 := by decide
  unfold Deserializer.Uleb128
  split
  · exact hpos
  · split
    · exact hpos
    · split
      · assumption
      · exact hpos

theorem marshal_read_pointers {α : Type} (S : Struct α) (xs : List α)
    (h : ∀ x ∈ xs, S.RoundTripsAt x) :
    ∃ bs : List Nat,
      (∀ out, MultiAuthKeyAuthenticator.marshalPointers S (xs.map some)
          { out := out, err := none } = some { out := out ++ bs, err := none }) ∧
      (∀ rest, MultiAuthKeyAuthenticator.readPointers S xs.length
          { input := bs ++ rest, err := none }
        = (xs.map some, { input := rest, err := none })) := by
  induction xs with
  | nil =>
    exact ⟨[], fun out => by simp [MultiAuthKeyAuthenticator.marshalPointers],
      fun rest => by simp [MultiAuthKeyAuthenticator.readPointers]⟩
  | cons x xs ih =>
    obtain ⟨b1, hm1, hu1⟩ := h x (List.mem_cons_self x xs)
    obtain ⟨b2, hm2, hu2⟩ := ih (fun y hy => h y (List.mem_cons_of_mem x hy))
    refine ⟨b1 ++ b2, fun out => ?_, fun rest => ?_⟩
    · simp only [List.map_cons, MultiAuthKeyAuthenticator.marshalPointers, hm1, hm2,
        List.append_assoc]
    · simp only [List.length_cons, MultiAuthKeyAuthenticator.readPointers, Deserializer.Struct,
        List.append_assoc, hu1, hu2, List.map_cons]

theorem serialize_read_pointers {α : Type} (S : Struct α) (xs : List α)
    (h : ∀ x ∈ xs, S.RoundTripsAt x) (hlen : xs.length < 2 ^ 32) :
    ∃ bs : List Nat,
      (∀ out, MultiAuthKeyAuthenticator.serializePointers S (xs.map some)
          { out := out, err := none } = some { out := out ++ bs, err := none }) ∧
      (∀ rest,
        (Deserializer.Uleb128 { input := bs ++ rest, err := none }).1 = xs.length ∧
        MultiAuthKeyAuthenticator.readPointers S xs.length
            (Deserializer.Uleb128 { input := bs ++ rest, err := none }).2
          = (xs.map some, { input := rest, err := none })) := by
  obtain ⟨b, hm, hu⟩ := marshal_read_pointers S xs h
  have hl : uint32 xs.length % 2 ^ 32 = xs.length := by
    unfold uint32
    rw [Nat.mod_mod, Nat.mod_eq_of_lt hlen]
  refine ⟨ulebBytes 4 xs.length ++ b, fun out => ?_, fun rest => ?_⟩
  · simp only [MultiAuthKeyAuthenticator.serializePointers, List.length_map, Uleb128_ok, hl, hm,
      List.append_assoc]
  · rw [List.append_assoc, Deserializer_Uleb128_ulebBytes xs.length (b ++ rest) hlen]
    exact ⟨rfl, hu rest⟩

/-- C15, amended. A `MultiAuthKeyAuthenticator` whose entries are non-nil, whose
two lists have fewer than 2^32 entries each (equal lengths or not) and whose
public keys and signatures round-trip under their own codecs, round-trips:
`MarshalBCS` on a fresh serializer yields bytes `bs` and no error, and
`UnmarshalBCS` on `bs` followed by any bytes `rest` yields the same public
keys and the same signatures in the same order, with no error, and leaves
exactly `rest` unread. -/
theorem MultiAuthKeyAuthenticator_roundtrip {PK Sig : Type}
    (K : Struct (AnyPublicKey PK)) (S : Struct (AnySignature Sig))
    (keys : List (AnyPublicKey PK)) (sigs : List (AnySignature Sig))
    (hK : ∀ k ∈ keys, K.RoundTripsAt k) (hS : ∀ s ∈ sigs, S.RoundTripsAt s)
    (hkeys : keys.length < 2 ^ 32) (hsigs : sigs.length < 2 ^ 32) (rest : List Nat) :
    ∃ bs : List Nat,
      MultiAuthKeyAuthenticator.MarshalBCS K S
          { PubKeys := keys.map some, Signatures := sigs.map some }
          { out := [], err := none }
        = some { out := bs, err := none } ∧
      MultiAuthKeyAuthenticator.UnmarshalBCS K S { input := bs ++ rest, err := none }
        = ({ PubKeys := keys.map some, Signatures := sigs.map some },
           { input := rest, err := none }) := by
  obtain ⟨kb, hkm, hku⟩ := serialize_read_pointers K keys hK hkeys
  obtain ⟨sb, hsm, hsu⟩ := serialize_read_pointers S sigs hS hsigs
  refine ⟨kb ++ sb, ?_, ?_⟩
  · simp only [MultiAuthKeyAuthenticator.MarshalBCS, hkm, hsm, List.nil_append]
  · have h1 := hku (sb ++ rest)
    have h2 := hsu rest
    simp only [MultiAuthKeyAuthenticator.UnmarshalBCS, List.append_assoc, h1.1, h1.2, h2.1, h2.2]

theorem AnyPublicKey_codec_roundTripsAt (b : List Nat) (hb : b.length = 32) :
    AnyPublicKey.codec.RoundTripsAt
      { Variant := .AnyPublicKeyVariantEd25519, PubKey := some (.Ed25519PublicKey b) } := by
  have h32 : b.length < 2 ^ 32 := by
    rw [hb]
    decide
  refine ⟨0 :: (ulebBytes 4 (uint32 b.length % 2 ^ 32) ++ b), fun out => ?_, fun rest => ?_⟩
  · simp only [AnyPublicKey.codec, AnyPublicKey.MarshalBCS, Uleb128_ok, WriteBytes_ok,
      List.append_assoc]
    rfl
  · have e : (0 :: (ulebBytes 4 (uint32 b.length % 2 ^ 32) ++ b)) ++ rest
        = 0 :: (ulebBytes 4 (uint32 b.length % 2 ^ 32) ++ b ++ rest) := by
      simp only [List.cons_append, List.append_assoc]
    rw [e]
    simp only [AnyPublicKey.codec, AnyPublicKey.UnmarshalBCS,
      Deserializer_Uleb128_small 0 _ (by decide : 0 < 128),
      Deserializer_ReadBytes_ok b rest h32]
    simp only [hb, if_true]

theorem AnySignature_codec_roundTripsAt (b : List Nat) (hb : b.length = 64) :
    AnySignature.codec.RoundTripsAt
      { Variant := .AnySignatureVariantEd25519, Signature := some (.Ed25519Signature b) } := by
  have h32 : b.length < 2 ^ 32 := by
    rw [hb]
    decide
  refine ⟨0 :: (ulebBytes 4 (uint32 b.length % 2 ^ 32) ++ b), fun out => ?_, fun rest => ?_⟩
  · simp only [AnySignature.codec, AnySignature.MarshalBCS, Uleb128_ok, WriteBytes_ok,
      List.append_assoc]
    rfl
  · have e : (0 :: (ulebBytes 4 (uint32 b.length % 2 ^ 32) ++ b)) ++ rest
        = 0 :: (ulebBytes 4 (uint32 b.length % 2 ^ 32) ++ b ++ rest) := by
      simp only [List.cons_append, List.append_assoc]
    rw [e]
    simp only [AnySignature.codec, AnySignature.UnmarshalBCS,
      Deserializer_Uleb128_small 0 _ (by decide : 0 < 128),
      Deserializer_ReadBytes_ok b rest h32]
    simp only [hb, if_true]

/-- C15 amended, at a concrete input: one Ed25519 public key and one Ed25519
signature, under the codecs modelled from the spec. -/
theorem MultiAuthKeyAuthenticator_roundtrip_witness :
    ∃ bs : List Nat,
      MultiAuthKeyAuthenticator.MarshalBCS AnyPublicKey.codec AnySignature.codec
          { PubKeys := [AnyPublicKey.sample].map some,
            Signatures := [AnySignature.sample].map some }
          { out := [], err := none }
        = some { out := bs, err := none } ∧
      MultiAuthKeyAuthenticator.UnmarshalBCS AnyPublicKey.codec AnySignature.codec
          { input := bs ++ [], err := none }
        = ({ PubKeys := [AnyPublicKey.sample].map some,
             Signatures := [AnySignature.sample].map some },
           { input := [], err := none }) :=
  MultiAuthKeyAuthenticator_roundtrip AnyPublicKey.codec AnySignature.codec
    [AnyPublicKey.sample] [AnySignature.sample]
    (fun k hk => by
      have hk' : k = AnyPublicKey.sample := by simpa using hk
      rw [hk']
      exact AnyPublicKey_codec_roundTripsAt (List.replicate 32 0) rfl)
    (fun s hs => by
      have hs' : s = AnySignature.sample := by simpa using hs
      rw [hs']
      exact AnySignature_codec_roundTripsAt (List.replicate 64 0) rfl)
    (by decide) (by decide) []

/-- C15, refuted at a concrete input: 2^32 public keys and 2^32 signatures,
each of which round-trips on its own. The two lists have the same length and
`MarshalBCS` succeeds, but `UnmarshalBCS` reads each count as a `uint32`, so
the lists that it yields have fewer than 2^32 entries: the decoded value is
not the original. -/
theorem MultiAuthKeyAuthenticator_roundtrip_fails_beyond_uint32 :
    MultiAuthKeyAuthenticator.manyKeys.PubKeys.length
        = MultiAuthKeyAuthenticator.manyKeys.Signatures.length ∧
    (∀ p ∈ MultiAuthKeyAuthenticator.manyKeys.PubKeys,
      ∃ k, p = some k ∧ AnyPublicKey.codec.RoundTripsAt k) ∧
    (∀ p ∈ MultiAuthKeyAuthenticator.manyKeys.Signatures,
      ∃ s, p = some s ∧ AnySignature.codec.RoundTripsAt s) ∧
    ∃ bs : List Nat,
      MultiAuthKeyAuthenticator.MarshalBCS AnyPublicKey.codec AnySignature.codec
          MultiAuthKeyAuthenticator.manyKeys { out := [], err := none }
        = some { out := bs, err := none } ∧
      (MultiAuthKeyAuthenticator.UnmarshalBCS AnyPublicKey.codec AnySignature.codec
          { input := bs, err := none }).1 ≠ MultiAuthKeyAuthenticator.manyKeys := by
  have hk := AnyPublicKey_codec_roundTripsAt (List.replicate 32 0) rfl
  have hs := AnySignature_codec_roundTripsAt (List.replicate 64 0) rfl
  have hkeys : MultiAuthKeyAuthenticator.manyKeys.PubKeys
      = (List.replicate (2 ^ 32) AnyPublicKey.sample).map some := by
    rw [List.map_replicate]
    rfl
  have hsigs : MultiAuthKeyAuthenticator.manyKeys.Signatures
      = (List.replicate (2 ^ 32) AnySignature.sample).map some := by
    rw [List.map_replicate]
    rfl
  have e : MultiAuthKeyAuthenticator.manyKeys
      = { PubKeys := (List.replicate (2 ^ 32) AnyPublicKey.sample).map some,
          Signatures := (List.replicate (2 ^ 32) AnySignature.sample).map some } := by
    rw [← hkeys, ← hsigs]
  have hlenK : MultiAuthKeyAuthenticator.manyKeys.PubKeys.length = 2 ^ 32 := by
    show (List.replicate (2 ^ 32) (some AnyPublicKey.sample)).length = 2 ^ 32
    exact List.length_replicate _ _
  have hlenS : MultiAuthKeyAuthenticator.manyKeys.Signatures.length = 2 ^ 32 := by
    show (List.replicate (2 ^ 32) (some AnySignature.sample)).length = 2 ^ 32
    exact List.length_replicate _ _
  refine ⟨by rw [hlenK, hlenS], ?_, ?_, ?_⟩
  · intro p hp
    exact ⟨AnyPublicKey.sample, List.eq_of_mem_replicate hp, hk⟩
  · intro p hp
    exact ⟨AnySignature.sample, List.eq_of_mem_replicate hp, hs⟩
  · obtain ⟨kb, hkb, _⟩ := hk
    obtain ⟨sb, hsb, _⟩ := hs
    have hm := MarshalBCS_of_encodings AnyPublicKey.codec AnySignature.codec
      (fun _ => kb) (fun _ => sb)
      (List.replicate (2 ^ 32) AnyPublicKey.sample)
      (List.replicate (2 ^ 32) AnySignature.sample) []
      (fun k hk' o => by rw [List.eq_of_mem_replicate hk']; exact hkb o)
      (fun s hs' o => by rw [List.eq_of_mem_replicate hs']; exact hsb o)
    rw [← e] at hm
    obtain ⟨bs, hbs⟩ : ∃ bs : List Nat,
        MultiAuthKeyAuthenticator.MarshalBCS AnyPublicKey.codec AnySignature.codec
          MultiAuthKeyAuthenticator.manyKeys { out := [], err := none }
          = some { out := bs, err := none } := ⟨_, hm⟩
    refine ⟨bs, hbs, fun h => ?_⟩
    have hlt := Deserializer_Uleb128_lt { input := bs, err := none }
    have h3 : (MultiAuthKeyAuthenticator.UnmarshalBCS AnyPublicKey.codec AnySignature.codec
        { input := bs, err := none }).1.PubKeys.length
        = (Deserializer.Uleb128 { input := bs, err := none }).1 := by
      simp only [MultiAuthKeyAuthenticator.UnmarshalBCS, readPointers_length]
    rw [h, hlenK] at h3
    rw [← h3] at hlt
    exact absurd hlt (Nat.lt_irrefl _)

end crypto

/-- C16. The wire encoding of a `SignedTransaction` is the encoding of its raw
transaction immediately followed by the encoding of its authenticator, with
nothing before, between or after them (`rb` and `ab` are the bytes that the
codecs of the two parts write), and `bcs.Serialize` returns exactly these
bytes. `UnmarshalBCS` reads in the same order: it decodes a fresh raw
transaction from the input and then a fresh authenticator from what the raw
transaction left unread. -/
theorem SignedTransaction_wire_layout {T : TxTypes} (D : TxDecls T)
    (raw : T.RawTransaction) (auth : TransactionAuthenticator T) (rb ab out : List Nat)
    (hr : ∀ o, D.rawTransaction.MarshalBCS raw { out := o, err := none }
      = { out := o ++ rb, err := none })
    (ha : ∀ o, D.transactionAuthenticator.MarshalBCS auth { out := o, err := none }
      = { out := o ++ ab, err := none }) :
    SignedTransaction.MarshalBCS D { Transaction := some raw, Authenticator := some auth }
        { out := out, err := none }
      = some { out := out ++ (rb ++ ab), err := none } ∧
    SignedTransaction.Serialize D { Transaction := some raw, Authenticator := some auth }
      = some (rb ++ ab, none) ∧
    (∀ des : Deserializer,
      (SignedTransaction.UnmarshalBCS D des).1
        = { Transaction := some (D.rawTransaction.UnmarshalBCS D.rawTransaction.zero des).1,
            Authenticator := some (D.transactionAuthenticator.UnmarshalBCS
              D.transactionAuthenticator.zero
              (D.rawTransaction.UnmarshalBCS D.rawTransaction.zero des).2).1 } ∧
      (SignedTransaction.UnmarshalBCS D des).2
        = (D.transactionAuthenticator.UnmarshalBCS D.transactionAuthenticator.zero
            (D.rawTransaction.UnmarshalBCS D.rawTransaction.zero des).2).2) := by
  refine ⟨?_, ?_, fun des => ⟨rfl, rfl⟩⟩
  · simp only [SignedTransaction.MarshalBCS, hr, ha, List.append_assoc]
  · simp only [SignedTransaction.Serialize, SignedTransaction.MarshalBCS, hr, ha,
      List.nil_append]

/-- C16, at a concrete input: the sample raw transaction, whose encoding is
`02 01 01 01 66 00 01 01 07`, and an authenticator with the tag 5, whose
sample encoding is `05`. -/
theorem SignedTransaction_wire_layout_witness :
    SignedTransaction.Serialize TxDecls.sample
        { Transaction := some TxDecls.sampleTxn,
          Authenticator := some { Variant := 5, Auth := none } }
      = some ([2, 1, 1, 1, 102, 0, 1, 1, 7] ++ [5], none) := by
  have h := (SignedTransaction_wire_layout TxDecls.sample TxDecls.sampleTxn
    { Variant := 5, Auth := none } [2, 1, 1, 1, 102, 0, 1, 1, 7] [5] []
    (fun o => by
      show TransactionPayload.MarshalBCS Decls.sample (some TxDecls.sampleTxn)
        { out := o, err := none } = _
      rw [TxDecls.sampleTxn, TransactionPayload_MarshalBCS_some]
      simp only [TransactionPayloadImpl.MarshalBCS, EntryFunction.MarshalBCS, Decls.sample,
        bytesStruct, WriteBytes_ok, Serializer.WriteString, SerializeSequence, Uleb128_ok,
        List.foldl_cons, List.foldl_nil, List.append_assoc]
      rfl)
    (fun o => rfl)).2.1
  exact h

theorem transactionDomain_eq :
    transactionDomain = "ENDLESS::Transaction".toList.map Char.toNat := by
  decide

/-- C17. When `TransactionPrefix` is nil or holds SHA3-256 of
"ENDLESS::Transaction" (the only values that `Hash` itself gives it), `Hash` on
a `SignedTransaction` whose serialization succeeds with the bytes `txnBytes`
returns the base58 text of SHA3-256 of P followed by the byte 0 and by
`txnBytes`, where P is SHA3-256 of "ENDLESS::Transaction", and a nil error;
when the serialization fails with an error, `Hash` returns the empty string
and that error. In both cases `TransactionPrefix` holds P afterwards. -/
theorem SignedTransaction_Hash_value {T : TxTypes} (D : TxDecls T)
    (TransactionPrefix : Option (List Nat)) (txn : SignedTransaction T)
    (hp : TransactionPrefix = none ∨ TransactionPrefix = some (D.sha3 transactionDomain)) :
    (∀ txnBytes, SignedTransaction.Serialize D txn = some (txnBytes, none) →
      (SignedTransaction.Hash D TransactionPrefix txn).1
        = some (D.base58Encode (D.sha3 (D.sha3 transactionDomain ++ [0] ++ txnBytes)),
                none)) ∧
    (∀ bytes err, SignedTransaction.Serialize D txn = some (bytes, some err) →
      (SignedTransaction.Hash D TransactionPrefix txn).1 = some ("", some err)) ∧
    (SignedTransaction.Hash D TransactionPrefix txn).2 = some (D.sha3 transactionDomain) := by
  have hP : Sha3256Hash D.sha3 [transactionDomain] = D.sha3 transactionDomain := by
    simp only [Sha3256Hash, encodeAll, List.append_nil]
  have hbyte : [UserTransactionVariant % 256] = [0] := rfl
  rcases hp with h | h
  · subst h
    refine ⟨fun txnBytes hs => ?_, fun bytes err hs => ?_, ?_⟩
    · simp only [SignedTransaction.Hash, hs, hP, hbyte]
      simp only [Sha3256Hash, encodeAll, List.append_nil, List.append_assoc]
    · simp only [SignedTransaction.Hash, hs]
    · simp only [SignedTransaction.Hash, hP]
      cases hs : SignedTransaction.Serialize D txn with
      | none => rfl
      | some r =>
        obtain ⟨b, e⟩ := r
        cases e with
        | none => rfl
        | some err => rfl
  · subst h
    refine ⟨fun txnBytes hs => ?_, fun bytes err hs => ?_, ?_⟩
    · simp only [SignedTransaction.Hash, hs, hbyte]
      simp only [Sha3256Hash, encodeAll, List.append_nil, List.append_assoc]
    · simp only [SignedTransaction.Hash, hs]
    · simp only [SignedTransaction.Hash]
      cases hs : SignedTransaction.Serialize D txn with
      | none => rfl
      | some r =>
        obtain ⟨b, e⟩ := r
        cases e with
        | none => rfl
        | some err => rfl

/-- C17, at concrete inputs, with a nil `TransactionPrefix`: the sample signed
transaction serializes to ten bytes and `Hash` returns the base58 text of the
hash; a signed transaction whose payload is empty fails to serialize and
`Hash` returns the empty string and the error "nil transaction payload". -/
theorem SignedTransaction_Hash_value_witness :
    (SignedTransaction.Hash TxDecls.sample none
        { Transaction := some TxDecls.sampleTxn,
          Authenticator := some { Variant := 5, Auth := none } }).1
      = some (TxDecls.sample.base58Encode
          (TxDecls.sample.sha3 (TxDecls.sample.sha3 transactionDomain ++ [0]
            ++ [2, 1, 1, 1, 102, 0, 1, 1, 7, 5])), none) ∧
    (SignedTransaction.Hash TxDecls.sample none
        { Transaction := some { Payload := none },
          Authenticator := some { Variant := 5, Auth := none } }).1
      = some ("", some "nil transaction payload") :=
  ⟨(SignedTransaction_Hash_value TxDecls.sample none
      { Transaction := some TxDecls.sampleTxn,
        Authenticator := some { Variant := 5, Auth := none } } (Or.inl rfl)).1
      [2, 1, 1, 1, 102, 0, 1, 1, 7, 5] (by decide),
   (SignedTransaction_Hash_value TxDecls.sample none
      { Transaction := some { Payload := none },
        Authenticator := some { Variant := 5, Auth := none } } (Or.inl rfl)).2.1
      [] "nil transaction payload" (by decide)⟩

/-- C18. For a `SignedTransaction` whose authenticator is of the direct form
(`Auth` holds neither a multi-agent nor a fee-payer authenticator), `Verify`
returns the error of `RawTransaction.SigningMessage` when that call fails;
otherwise it returns nil if and only if `Authenticator.Verify` accepts the
signing message of the raw transaction, and the error "signature is invalid"
when it does not. The result is a function of the signing message and of the
signature check alone: two direct signed transactions with the same signing
message and the same check on it have the same result. -/
theorem SignedTransaction_Verify_direct {T : TxTypes} (D : TxDecls T)
    (raw : Option T.RawTransaction) (auth : TransactionAuthenticator T)
    (hdirect : auth.Auth = none ∨ ∃ a, auth.Auth = some (.other a)) :
    (∀ msg err, D.SigningMessage raw = (msg, some err) →
      SignedTransaction.Verify D { Transaction := raw, Authenticator := some auth }
        = some (some err)) ∧
    (∀ msg, D.SigningMessage raw = (msg, none) →
      (SignedTransaction.Verify D { Transaction := raw, Authenticator := some auth }
          = some none ↔ D.Verify auth msg = true) ∧
      (D.Verify auth msg = false →
        SignedTransaction.Verify D { Transaction := raw, Authenticator := some auth }
          = some (some "signature is invalid"))) ∧
    (∀ (raw' : Option T.RawTransaction) (auth' : TransactionAuthenticator T),
      (auth'.Auth = none ∨ ∃ a, auth'.Auth = some (.other a)) →
      D.SigningMessage raw' = D.SigningMessage raw →
      D.Verify auth' (D.SigningMessage raw).1 = D.Verify auth (D.SigningMessage raw).1 →
      SignedTransaction.Verify D { Transaction := raw', Authenticator := some auth' }
        = SignedTransaction.Verify D { Transaction := raw, Authenticator := some auth }) := by
  have key : ∀ (r : Option T.RawTransaction) (a : TransactionAuthenticator T),
      (a.Auth = none ∨ ∃ x, a.Auth = some (.other x)) →
      SignedTransaction.Verify D { Transaction := r, Authenticator := some a }
        = match (D.SigningMessage r).2 with
          | some err => some (some err)
          | none => some (SignedTransaction.check D a (D.SigningMessage r).1) := by
    intro r a ha
    rcases ha with h | ⟨x, h⟩
    · simp only [SignedTransaction.Verify, h]
    · simp only [SignedTransaction.Verify, h]
  refine ⟨fun msg err hm => ?_, fun msg hm => ⟨?_, fun hf => ?_⟩, fun raw' auth' hd' hsm hv => ?_⟩
  · rw [key raw auth hdirect, hm]
  · rw [key raw auth hdirect, hm]
    simp only [SignedTransaction.check]
    cases hv : D.Verify auth msg with
    | true => simp
    | false => simp
  · rw [key raw auth hdirect, hm]
    simp only [SignedTransaction.check, hf]
    rfl
  · rw [key raw' auth' hd', key raw auth hdirect, hsm]
    simp only [SignedTransaction.check, hv]

/-- C18, at a concrete input: the sample raw transaction under a direct
authenticator that verifies exactly its signing message; `Verify` returns
nil. -/
theorem SignedTransaction_Verify_direct_witness :
    SignedTransaction.Verify TxDecls.sample
        { Transaction := some TxDecls.sampleTxn,
          Authenticator := some
            { Variant := 0,
              Auth := some (.other (List.replicate 32 1 ++ [2, 1, 1, 1, 102, 0, 1, 1, 7])) } }
      = some none :=
  ((SignedTransaction_Verify_direct TxDecls.sample (some TxDecls.sampleTxn)
      { Variant := 0,
        Auth := some (.other (List.replicate 32 1 ++ [2, 1, 1, 1, 102, 0, 1, 1, 7])) }
      (Or.inr ⟨_, rfl⟩)).2.1
    (List.replicate 32 1 ++ [2, 1, 1, 1, 102, 0, 1, 1, 7]) (by decide)).1.2 (by decide)

/-- C19. Under a multi-agent authenticator the message that `Verify` checks is
`RawTransactionWithDataPrehash()` followed by the encoding of
`RawTransactionWithData{MultiAgent variant, raw transaction, secondary-signer
addresses}`, the addresses being those of the authenticator in their stored
order; under a fee-payer authenticator it is the same prehash followed by the
encoding of `RawTransactionWithData{MultiAgentWithFeePayer variant, raw
transaction, fee payer, secondary-signer addresses}`. In both cases `Verify`
returns the serialization error when the envelope fails to encode; otherwise
nil if and only if `Authenticator.Verify` accepts that message, and the error
"signature is invalid" when it does not. -/
theorem SignedTransaction_Verify_envelope {T : TxTypes} (D : TxDecls T)
    (raw : Option T.RawTransaction) (variant : Nat) :
    (∀ ma : MultiAgentTransactionAuthenticator T,
      (∀ err,
        (bcs.Serialize (D.withDataMarshalBCS
          { Variant := .MultiAgentRawTransactionWithDataVariant,
            Inner := .multiAgent
              { RawTxn := raw, SecondarySigners := ma.SecondarySignerAddresses } })).2
          = some err →
        SignedTransaction.Verify D
            { Transaction := raw,
              Authenticator := some
                { Variant := variant, Auth := some (.multiAgent (some ma)) } }
          = some (some err)) ∧
      ((bcs.Serialize (D.withDataMarshalBCS
          { Variant := .MultiAgentRawTransactionWithDataVariant,
            Inner := .multiAgent
              { RawTxn := raw, SecondarySigners := ma.SecondarySignerAddresses } })).2
          = none →
        SignedTransaction.Verify D
            { Transaction := raw,
              Authenticator := some
                { Variant := variant, Auth := some (.multiAgent (some ma)) } }
          = some (if D.Verify { Variant := variant, Auth := some (.multiAgent (some ma)) }
                (D.RawTransactionWithDataPrehash ++
                  (bcs.Serialize (D.withDataMarshalBCS
                    { Variant := .MultiAgentRawTransactionWithDataVariant,
                      Inner := .multiAgent
                        { RawTxn := raw,
                          SecondarySigners := ma.SecondarySignerAddresses } })).1) = true
              then none else some "signature is invalid"))) ∧
    (∀ fp : FeePayerTransactionAuthenticator T,
      (∀ err,
        (bcs.Serialize (D.withDataMarshalBCS
          { Variant := .MultiAgentWithFeePayerRawTransactionWithDataVariant,
            Inner := .multiAgentWithFeePayer
              { RawTxn := raw, FeePayer := fp.FeePayer,
                SecondarySigners := fp.SecondarySignerAddresses } })).2
          = some err →
        SignedTransaction.Verify D
            { Transaction := raw,
              Authenticator := some
                { Variant := variant, Auth := some (.feePayer (some fp)) } }
          = some (some err)) ∧
      ((bcs.Serialize (D.withDataMarshalBCS
          { Variant := .MultiAgentWithFeePayerRawTransactionWithDataVariant,
            Inner := .multiAgentWithFeePayer
              { RawTxn := raw, FeePayer := fp.FeePayer,
                SecondarySigners := fp.SecondarySignerAddresses } })).2
          = none →
        SignedTransaction.Verify D
            { Transaction := raw,
              Authenticator := some
                { Variant := variant, Auth := some (.feePayer (some fp)) } }
          = some (if D.Verify { Variant := variant, Auth := some (.feePayer (some fp)) }
                (D.RawTransactionWithDataPrehash ++
                  (bcs.Serialize (D.withDataMarshalBCS
                    { Variant := .MultiAgentWithFeePayerRawTransactionWithDataVariant,
                      Inner := .multiAgentWithFeePayer
                        { RawTxn := raw, FeePayer := fp.FeePayer,
                          SecondarySigners := fp.SecondarySignerAddresses } })).1) = true
              then none else some "signature is invalid"))) := by
  refine ⟨fun ma => ⟨fun err h => ?_, fun h => ?_⟩, fun fp => ⟨fun err h => ?_, fun h => ?_⟩⟩
  · simp only [SignedTransaction.Verify, h]
  · simp only [SignedTransaction.Verify, h, SignedTransaction.check]
  · simp only [SignedTransaction.Verify, h]
  · simp only [SignedTransaction.Verify, h, SignedTransaction.check]

/-- C19, at a concrete input: the sample raw transaction under a multi-agent
authenticator with the secondary-signer addresses `0a` and `0b`. The envelope
encodes without error, the sample check accepts nothing under this
authenticator, and `Verify` returns "signature is invalid". -/
theorem SignedTransaction_Verify_envelope_witness :
    SignedTransaction.Verify TxDecls.sample
        { Transaction := some TxDecls.sampleTxn,
          Authenticator := some
            { Variant := 2,
              Auth := some (.multiAgent (some
                { SecondarySignerAddresses := [[10], [11]], others := () })) } }
      = some (some "signature is invalid") := by
  have h := ((SignedTransaction_Verify_envelope TxDecls.sample
    (some TxDecls.sampleTxn) 2).1
    { SecondarySignerAddresses := [[10], [11]], others := () }).2 (by decide)
  exact h

theorem append_ne_of_prefix_ne (p q a b : List Nat) (hlen : p.length = q.length)
    (hne : p ≠ q) : p ++ a ≠ q ++ b := by
  intro h
  exact hne (List.append_inj_left h hlen)

/-- C20. Message isolation, with the signing messages as the spec describes
them: the single-signer message is a 32-byte prehash followed by the encoding
of the raw transaction, the envelope prehash has 32 bytes too and differs
from it. Then, for every raw transaction that encodes (to `rb`) and every
multi-agent or fee-payer envelope over it that encodes (to `eb`), the message
checked under the multi-agent or fee-payer authenticator differs from the
message checked under a direct authenticator over the same raw transaction.
Hence a direct authenticator that verifies no message but the envelope
message is rejected by `Verify` ("signature is invalid"), and so is a
multi-agent or fee-payer authenticator that verifies no message but the
single-signer one. -/
theorem SignedTransaction_message_isolation {T : TxTypes} (D : TxDecls T)
    (rawPrehash : List Nat) (hsep : D.DomainSeparated rawPrehash)
    (raw : T.RawTransaction) (rb : List Nat)
    (hraw : bcs.Serialize (D.rawTransaction.MarshalBCS raw) = (rb, none)) :
    D.SigningMessage (some raw) = (rawPrehash ++ rb, none) ∧
    (∀ eb : List Nat, D.RawTransactionWithDataPrehash ++ eb ≠ rawPrehash ++ rb) ∧
    (∀ (eb : List Nat) (direct : TransactionAuthenticator T),
      (direct.Auth = none ∨ ∃ a, direct.Auth = some (.other a)) →
      (∀ m, D.Verify direct m = true → m = D.RawTransactionWithDataPrehash ++ eb) →
      SignedTransaction.Verify D { Transaction := some raw, Authenticator := some direct }
        = some (some "signature is invalid")) ∧
    (∀ (variant : Nat) (ma : MultiAgentTransactionAuthenticator T) (eb : List Nat),
      bcs.Serialize (D.withDataMarshalBCS
          { Variant := .MultiAgentRawTransactionWithDataVariant,
            Inner := .multiAgent
              { RawTxn := some raw, SecondarySigners := ma.SecondarySignerAddresses } })
        = (eb, none) →
      (∀ m, D.Verify { Variant := variant, Auth := some (.multiAgent (some ma)) } m = true →
        m = rawPrehash ++ rb) →
      SignedTransaction.Verify D
          { Transaction := some raw,
            Authenticator := some
              { Variant := variant, Auth := some (.multiAgent (some ma)) } }
        = some (some "signature is invalid")) ∧
    (∀ (variant : Nat) (fp : FeePayerTransactionAuthenticator T) (eb : List Nat),
      bcs.Serialize (D.withDataMarshalBCS
          { Variant := .MultiAgentWithFeePayerRawTransactionWithDataVariant,
            Inner := .multiAgentWithFeePayer
              { RawTxn := some raw, FeePayer := fp.FeePayer,
                SecondarySigners := fp.SecondarySignerAddresses } })
        = (eb, none) →
      (∀ m, D.Verify { Variant := variant, Auth := some (.feePayer (some fp)) } m = true →
        m = rawPrehash ++ rb) →
      SignedTransaction.Verify D
          { Transaction := some raw,
            Authenticator := some
              { Variant := variant, Auth := some (.feePayer (some fp)) } }
        = some (some "signature is invalid")) := by
  obtain ⟨hsm, hl1, hl2, hne⟩ := hsep
  have hmsg : D.SigningMessage (some raw) = (rawPrehash ++ rb, none) := by
    rw [hsm]
    simp only [RawTransaction.SigningMessage, hraw]
  have hdiff : ∀ eb : List Nat, D.RawTransactionWithDataPrehash ++ eb ≠ rawPrehash ++ rb :=
    fun eb => append_ne_of_prefix_ne _ _ eb rb (by rw [hl1, hl2]) (fun h => hne h.symm)
  refine ⟨hmsg, hdiff, fun eb direct hd honly => ?_, fun variant ma eb henv honly => ?_,
    fun variant fp eb henv honly => ?_⟩
  · have hfalse : D.Verify direct (rawPrehash ++ rb) = false := by
      cases hv : D.Verify direct (rawPrehash ++ rb) with
      | false => rfl
      | true => exact absurd (honly _ hv).symm (hdiff eb)
    rcases hd with h | ⟨x, h⟩
    · simp only [SignedTransaction.Verify, h, hmsg, SignedTransaction.check, hfalse]
      rfl
    · simp only [SignedTransaction.Verify, h, hmsg, SignedTransaction.check, hfalse]
      rfl
  · have hfalse : D.Verify { Variant := variant, Auth := some (.multiAgent (some ma)) }
        (D.RawTransactionWithDataPrehash ++ eb) = false := by
      cases hv : D.Verify { Variant := variant, Auth := some (.multiAgent (some ma)) }
          (D.RawTransactionWithDataPrehash ++ eb) with
      | false => rfl
      | true => exact absurd (honly _ hv) (hdiff eb)
    simp only [SignedTransaction.Verify, henv, SignedTransaction.check, hfalse]
    rfl
  · have hfalse : D.Verify { Variant := variant, Auth := some (.feePayer (some fp)) }
        (D.RawTransactionWithDataPrehash ++ eb) = false := by
      cases hv : D.Verify { Variant := variant, Auth := some (.feePayer (some fp)) }
          (D.RawTransactionWithDataPrehash ++ eb) with
      | false => rfl
      | true => exact absurd (honly _ hv) (hdiff eb)
    simp only [SignedTransaction.Verify, henv, SignedTransaction.check, hfalse]
    rfl

/-- C20, at a concrete input: the sample declarations, whose prehashes are 32
bytes 1 and 32 bytes 2, and the sample raw transaction. A direct
authenticator that verifies only the envelope message of the secondary
signers `0a`, `0b` is rejected. -/
theorem SignedTransaction_message_isolation_witness :
    TxDecls.sample.DomainSeparated (List.replicate 32 1) ∧
    SignedTransaction.Verify TxDecls.sample
        { Transaction := some TxDecls.sampleTxn,
          Authenticator := some
            { Variant := 0,
              Auth := some (.other (List.replicate 32 2 ++
                [0, 2, 1, 1, 1, 102, 0, 1, 1, 7, 2, 1, 10, 1, 11])) } }
      = some (some "signature is invalid") := by
  have hsep : TxDecls.sample.DomainSeparated (List.replicate 32 1) :=
    ⟨rfl, by decide, by decide, by decide⟩
  have h := (SignedTransaction_message_isolation TxDecls.sample (List.replicate 32 1) hsep
    TxDecls.sampleTxn [2, 1, 1, 1, 102, 0, 1, 1, 7] (by decide)).2.2.1
    [0, 2, 1, 1, 1, 102, 0, 1, 1, 7, 2, 1, 10, 1, 11]
    { Variant := 0,
      Auth := some (.other (List.replicate 32 2 ++
        [0, 2, 1, 1, 1, 102, 0, 1, 1, 7, 2, 1, 10, 1, 11])) }
    (Or.inr ⟨_, rfl⟩)
    (fun m hm => by
      have hm' : (List.replicate 32 2 ++
          [0, 2, 1, 1, 1, 102, 0, 1, 1, 7, 2, 1, 10, 1, 11] == m) = true := hm
      exact (beq_iff_eq.mp hm').symm)
  exact ⟨hsep, h⟩

/-! ### Partial population, the memoized prefix, the empty authenticator -/

/-- C21, refuted at a concrete input: the bytes `02 01 09 05` are the
EntryFunction tag, a module id `09` and the length 5 of a name that is
missing. Decoding them into a fresh `TransactionPayload` ends with an error,
and `Payload` holds an `EntryFunction` whose module id is decoded and whose
other fields are empty. -/
theorem TransactionPayload_UnmarshalBCS_partial :
    TransactionPayload.UnmarshalBCS Decls.sample { Payload := none }
        { input := [2, 1, 9, 5], err := none }
      = ({ Payload := some (.entryFunction
             { Module := [9], Function := [], ArgTypes := [], Args := [] }) },
         { input := [], err := some "not enough bytes remaining to deserialize bytes" }) := by
  rfl

/-- C21, amended. `TransactionPayload.UnmarshalBCS` leaves the target as it was
exactly when the tag it reads is none of Script (0), EntryFunction (2) and
Multisig (3), and then it sets an error. On the tags 0, 2 and 3 (a tag that
cannot be read counts as 0) it replaces `Payload` by a fresh object of that
variant before the body is decoded into it, so that after a failure in the
body `Payload` holds that object with what the body decoder stored; the
failure itself is never lost, the deserializer keeps the error. -/
theorem TransactionPayload_UnmarshalBCS_population {E : Decls} (txn : TransactionPayload E)
    (des : Deserializer) :
    (des.Uleb128.1 = TransactionPayloadVariantScript →
      (TransactionPayload.UnmarshalBCS E txn des).1.Payload
        = some (.script (E.script.UnmarshalBCS E.script.zero des.Uleb128.2).1)) ∧
    (des.Uleb128.1 = TransactionPayloadVariantEntryFunction →
      (TransactionPayload.UnmarshalBCS E txn des).1.Payload
        = some (.entryFunction
            (EntryFunction.UnmarshalBCS E (EntryFunction.zero E) des.Uleb128.2).1)) ∧
    (des.Uleb128.1 = TransactionPayloadVariantMultisig →
      (TransactionPayload.UnmarshalBCS E txn des).1.Payload
        = some (.multisig (Multisig.UnmarshalBCS E (Multisig.zero E) des.Uleb128.2).1)) ∧
    (des.Uleb128.1 ≠ TransactionPayloadVariantScript →
      des.Uleb128.1 ≠ TransactionPayloadVariantEntryFunction →
      des.Uleb128.1 ≠ TransactionPayloadVariantMultisig →
      (TransactionPayload.UnmarshalBCS E txn des).1 = txn ∧
      (TransactionPayload.UnmarshalBCS E txn des).2.err ≠ none) ∧
    (des.err ≠ none → (TransactionPayload.UnmarshalBCS E txn des).1.Payload
        = some (.script (E.script.UnmarshalBCS E.script.zero des).1)) := by
  refine ⟨fun h => ?_, fun h => ?_, fun h => ?_, fun h0 h2 h3 => ?_, fun he => ?_⟩
  · unfold TransactionPayload.UnmarshalBCS
    rw [if_pos h]
  · have h0 : des.Uleb128.1 ≠ TransactionPayloadVariantScript := by
      rw [h]; decide
    have h1 : des.Uleb128.1 ≠ TransactionPayloadVariantModuleBundle := by
      rw [h]; decide
    unfold TransactionPayload.UnmarshalBCS
    rw [if_neg h0, if_neg h1, if_pos h]
  · have h0 : des.Uleb128.1 ≠ TransactionPayloadVariantScript := by
      rw [h]; decide
    have h1 : des.Uleb128.1 ≠ TransactionPayloadVariantModuleBundle := by
      rw [h]; decide
    have h2 : des.Uleb128.1 ≠ TransactionPayloadVariantEntryFunction := by
      rw [h]; decide
    unfold TransactionPayload.UnmarshalBCS
    rw [if_neg h0, if_neg h1, if_neg h2, if_pos h]
  · unfold TransactionPayload.UnmarshalBCS
    by_cases h1 : des.Uleb128.1 = TransactionPayloadVariantModuleBundle
    · rw [if_neg h0, if_pos h1]
      exact ⟨rfl, Deserializer_SetError_err_ne_none _ _⟩
    · rw [if_neg h0, if_neg h1, if_neg h2, if_neg h3]
      exact ⟨rfl, Deserializer_SetError_err_ne_none _ _⟩
  · have hu : des.Uleb128 = (0, des) := by
      unfold Deserializer.Uleb128
      cases hd : des.err with
      | none => exact absurd hd he
      | some e => rfl
    unfold TransactionPayload.UnmarshalBCS
    rw [hu]
    rfl

theorem Hash_prefix_state {T : TxTypes} (D : TxDecls T) (p : Option (List Nat))
    (txn : SignedTransaction T)
    (hp : p = none ∨ p = some (D.sha3 transactionDomain)) :
    (SignedTransaction.Hash D p txn).2 = some (D.sha3 transactionDomain) ∧
    (SignedTransaction.Hash D p txn).1
      = (SignedTransaction.Hash D (some (D.sha3 transactionDomain)) txn).1 := by
  have hP : Sha3256Hash D.sha3 [transactionDomain] = D.sha3 transactionDomain := by
    simp only [Sha3256Hash, encodeAll, List.append_nil]
  rcases hp with h | h
  · subst h
    cases hs : SignedTransaction.Serialize D txn with
    | none => simp only [SignedTransaction.Hash, hs, hP, and_self]
    | some r =>
      obtain ⟨b, e⟩ := r
      cases e with
      | none => simp only [SignedTransaction.Hash, hs, hP, and_self]
      | some err => simp only [SignedTransaction.Hash, hs, hP, and_self]
  · subst h
    cases hs : SignedTransaction.Serialize D txn with
    | none => simp only [SignedTransaction.Hash, hs, and_self]
    | some r =>
      obtain ⟨b, e⟩ := r
      cases e with
      | none => simp only [SignedTransaction.Hash, hs, and_self]
      | some err => simp only [SignedTransaction.Hash, hs, and_self]

theorem prefixAfter_invariant {T : TxTypes} (D : TxDecls T) (txns : List (SignedTransaction T))
    (p : Option (List Nat)) (hp : p = none ∨ p = some (D.sha3 transactionDomain)) :
    SignedTransaction.prefixAfter D p txns = none ∨
      SignedTransaction.prefixAfter D p txns = some (D.sha3 transactionDomain) := by
  induction txns generalizing p with
  | nil => exact hp
  | cons txn rest ih =>
    simp only [SignedTransaction.prefixAfter]
    exact ih _ (Or.inr (Hash_prefix_state D p txn hp).1)

/-- C27. Starting from a nil `TransactionPrefix`, after any sequence of `Hash`
calls (successful, failing or panicking) `TransactionPrefix` is nil or holds
SHA3-256 of "ENDLESS::Transaction"; it is nil only when no call was made.
Hence `Hash` on a signed transaction returns after any such sequence, when
the prefix is reused, what it returns as the first call, when the prefix is
computed. -/
theorem TransactionPrefix_memoized {T : TxTypes} (D : TxDecls T)
    (txns : List (SignedTransaction T)) (txn : SignedTransaction T) :
    (SignedTransaction.prefixAfter D none txns = none ∨
      SignedTransaction.prefixAfter D none txns = some (D.sha3 transactionDomain)) ∧
    (txns ≠ [] →
      SignedTransaction.prefixAfter D none txns = some (D.sha3 transactionDomain)) ∧
    (SignedTransaction.Hash D (SignedTransaction.prefixAfter D none txns) txn).1
      = (SignedTransaction.Hash D none txn).1 := by
  have hinv := prefixAfter_invariant D txns none (Or.inl rfl)
  refine ⟨hinv, fun hne => ?_, ?_⟩
  · cases txns with
    | nil => exact absurd rfl hne
    | cons t rest =>
      simp only [SignedTransaction.prefixAfter]
      have h1 := (Hash_prefix_state D none t (Or.inl rfl)).1
      rw [h1]
      clear hinv hne h1
      induction rest with
      | nil => rfl
      | cons t' rest' ih =>
        simp only [SignedTransaction.prefixAfter]
        rw [(Hash_prefix_state D (some (D.sha3 transactionDomain)) t' (Or.inr rfl)).1]
        exact ih
  · rw [(Hash_prefix_state D _ txn hinv).2, (Hash_prefix_state D none txn (Or.inl rfl)).2]

namespace crypto

/-- C28. A `MultiAuthKeyAuthenticator` with no public key and no signature
verifies every message: `Verify` returns true, whatever the key check is.
This value is what `FromAuthenticators` produces on an empty list (with a nil
error) and what `UnmarshalBCS` decodes from the two bytes `00 00`. -/
theorem MultiAuthKeyAuthenticator_empty_verifies {PK Sig Other : Type}
    (V : KeyVerify PK Sig) (msg : List Nat)
    (PubKey : AccountAuthenticator PK Sig Other → Option PK)
    (Signature : AccountAuthenticator PK Sig Other → Option Sig)
    (K : Struct (AnyPublicKey PK)) (S : Struct (AnySignature Sig)) :
    MultiAuthKeyAuthenticator.Verify V { PubKeys := [], Signatures := [] } msg = some true ∧
    MultiAuthKeyAuthenticator.FromAuthenticators PubKey Signature []
      = some ({ PubKeys := [], Signatures := [] }, none) ∧
    MultiAuthKeyAuthenticator.UnmarshalBCS K S { input := [0, 0], err := none }
      = ({ PubKeys := [], Signatures := [] }, { input := [], err := none }) := by
  refine ⟨rfl, rfl, ?_⟩
  simp only [MultiAuthKeyAuthenticator.UnmarshalBCS,
    Deserializer_Uleb128_small 0 _ (by decide : 0 < 128),
    MultiAuthKeyAuthenticator.readPointers]

end crypto

theorem copyHash_eq_none_iff (bs : List Nat) :
    ∀ (i : Nat) (h : { l : List Nat // l.length = 32 }), i ≤ 32 →
      (SafeEntryFunction.copyHash h i bs = none ↔ 32 < i + bs.length) := by
  induction bs with
  | nil =>
    intro i h hi
    simp only [SafeEntryFunction.copyHash, List.length_nil, Nat.add_zero]
    constructor
    · intro hc
      cases hc
    · intro hc
      omega
  | cons v rest ih =>
    intro i h hi
    simp only [SafeEntryFunction.copyHash, List.length_cons]
    by_cases hlt : i < 32
    · rw [if_pos hlt, ih (i + 1) _ hlt]
      omega
    · rw [if_neg hlt]
      constructor
      · intro _
        omega
      · intro _
        rfl

/-- C29, on the code: `SafeEntryFunction.UnmarshalBCS` stores every byte that
`ReadBytes` returns for the hash at its index in the 32-byte array, with no
check of their number. On the input `00 00 00 00 21` followed by 33 bytes
(empty module id, name, type tags and arguments, then a byte sequence of
length 33) the store at index 32 is out of range: the call panics. In general,
for every codec of the module id and of the type tags, it panics exactly when
the sequence read for the hash, after the fields that it shares with
`EntryFunction`, has more than 32 bytes. -/
theorem SafeEntryFunction_UnmarshalBCS_panics :
    SafeEntryFunction.UnmarshalBCS Decls.sample (SafeEntryFunction.zero Decls.sample)
        { input := [0, 0, 0, 0, 33] ++ List.replicate 33 1, err := none }
      = none ∧
    (∀ (hash : { l : List Nat // l.length = 32 }) (bytes : List Nat),
      SafeEntryFunction.copyHash hash 0 bytes = none ↔ 32 < bytes.length) ∧
    (∀ (E : Decls) (sf : SafeEntryFunction E) (des : Deserializer),
      SafeEntryFunction.UnmarshalBCS E sf des = none ↔
        32 < (Deserializer.ReadBytes (EntryFunction.UnmarshalBCS E
                { Module := sf.Module, Function := sf.Function, ArgTypes := sf.ArgTypes,
                  Args := sf.Args } des).2).1.length) := by
  have hcopy : ∀ (hash : { l : List Nat // l.length = 32 }) (bytes : List Nat),
      SafeEntryFunction.copyHash hash 0 bytes = none ↔ 32 < bytes.length := by
    intro hash bytes
    have h := copyHash_eq_none_iff bytes 0 hash (Nat.zero_le _)
    rw [Nat.zero_add] at h
    exact h
  refine ⟨by rfl, hcopy, fun E sf des => ?_⟩
  rw [← hcopy sf.Hash]
  simp only [SafeEntryFunction.UnmarshalBCS, EntryFunction.UnmarshalBCS]
  split
  · rename_i h
    simp only [h]
  · rename_i hash h
    simp only [h, reduceCtorEq]

/-- C21, amended, at a concrete input: the tag 5 alone. The target, a fresh
`TransactionPayload`, is left as it was and an error is set. -/
theorem TransactionPayload_UnmarshalBCS_population_witness :
    (TransactionPayload.UnmarshalBCS Decls.sample { Payload := none }
        { input := [5], err := none }).1 = { Payload := none } ∧
    (TransactionPayload.UnmarshalBCS Decls.sample { Payload := none }
        { input := [5], err := none }).2.err ≠ none :=
  (TransactionPayload_UnmarshalBCS_population (E := Decls.sample) { Payload := none }
    { input := [5], err := none }).2.2.2.1 (by decide) (by decide) (by decide)

/-- C27, at a concrete input: after one `Hash` call, which panics on the nil
pointers of an empty `SignedTransaction`, the prefix holds the hash of the
domain string. -/
theorem TransactionPrefix_memoized_witness :
    SignedTransaction.prefixAfter TxDecls.sample none
        [{ Transaction := none, Authenticator := none }]
      = some (TxDecls.sample.sha3 transactionDomain) :=
  (TransactionPrefix_memoized TxDecls.sample
    [{ Transaction := none, Authenticator := none }]
    { Transaction := none, Authenticator := none }).2.1 (by simp)

/-! ### `FromAuthenticators` -/

namespace crypto

theorem set_length_append {α : Type} (A : List α) (x y : α) (B : List α) (i : Nat)
    (hi : A.length = i) : (A ++ y :: B).set i x = A ++ x :: B := by
  subst hi
  induction A with
  | nil => rfl
  | cons a A ih => simp only [List.cons_append, List.length_cons, List.set_cons_succ, ih]

theorem take_succ_map {α β : Type} (f : α → β) (l : List α) (i : Nat) (a : α)
    (h : l[i]? = some a) : (l.take (i + 1)).map f = (l.take i).map f ++ [f a] := by
  rw [List.take_succ, h]
  simp only [Option.toList, List.map_append, List.map_cons, List.map_nil]

theorem fromAuthenticator_error_nil {PK Sig Other : Type}
    (PubKey : AccountAuthenticator PK Sig Other → Option PK)
    (Signature : AccountAuthenticator PK Sig Other → Option Sig)
    (auth : AccountAuthenticator PK Sig Other) (pk : Option (AnyPublicKey PK))
    (sg : Option (AnySignature Sig)) (e : String)
    (h : fromAuthenticator PubKey Signature auth = some (pk, sg, some e)) :
    pk = none ∧ sg = none := by
  unfold fromAuthenticator at h
  split at h
  · split at h
    · cases h
    · split at h
      · cases h
      · cases h
  · split at h
    · cases h
    · cases h
  · cases h
    exact ⟨rfl, rfl⟩

theorem fromLoop_step {PK Sig Other : Type}
    (PubKey : AccountAuthenticator PK Sig Other → Option PK)
    (Signature : AccountAuthenticator PK Sig Other → Option Sig)
    (auths : List (Option (AccountAuthenticator PK Sig Other))) (n i : Nat)
    (auth : AccountAuthenticator PK Sig Other) (pk : Option (AnyPublicKey PK))
    (sg : Option (AnySignature Sig)) (err : Option String)
    (hi : auths[i]? = some (some auth))
    (hf : fromAuthenticator PubKey Signature auth = some (pk, sg, err)) :
    (((auths.take i).map (convertedKey PubKey Signature)
        ++ List.replicate (n + 1) none).set i pk
      = (auths.take (i + 1)).map (convertedKey PubKey Signature) ++ List.replicate n none) ∧
    (((auths.take i).map (convertedSig PubKey Signature)
        ++ List.replicate (n + 1) none).set i sg
      = (auths.take (i + 1)).map (convertedSig PubKey Signature) ++ List.replicate n none) := by
  have hlt : i < auths.length := by
    rcases Nat.lt_or_ge i auths.length with h | h
    · exact h
    · rw [List.getElem?_eq_none h] at hi
      cases hi
  have hk : convertedKey PubKey Signature (some auth) = pk := by
    simp only [convertedKey, hf]
  have hs : convertedSig PubKey Signature (some auth) = sg := by
    simp only [convertedSig, hf]
  constructor
  · rw [List.replicate_succ, set_length_append _ _ _ _ i
      (by rw [List.length_map, List.length_take]; omega),
      take_succ_map _ _ _ _ hi, hk, List.append_assoc]
    rfl
  · rw [List.replicate_succ, set_length_append _ _ _ _ i
      (by rw [List.length_map, List.length_take]; omega),
      take_succ_map _ _ _ _ hi, hs, List.append_assoc]
    rfl

theorem fromLoop_success {PK Sig Other : Type}
    (PubKey : AccountAuthenticator PK Sig Other → Option PK)
    (Signature : AccountAuthenticator PK Sig Other → Option Sig)
    (auths : List (Option (AccountAuthenticator PK Sig Other)))
    (hall : ∀ a ∈ auths, Converts PubKey Signature a) :
    ∀ n i, i + n = auths.length →
      MultiAuthKeyAuthenticator.fromLoop PubKey Signature auths n i
          { PubKeys := (auths.take i).map (convertedKey PubKey Signature)
              ++ List.replicate n none,
            Signatures := (auths.take i).map (convertedSig PubKey Signature)
              ++ List.replicate n none }
        = some ({ PubKeys := auths.map (convertedKey PubKey Signature),
                  Signatures := auths.map (convertedSig PubKey Signature) }, none) := by
  intro n
  induction n with
  | zero =>
    intro i hi
    rw [Nat.add_zero] at hi
    subst hi
    simp only [MultiAuthKeyAuthenticator.fromLoop, List.take_length, List.replicate_zero,
      List.append_nil]
  | succ n ih =>
    intro i hi
    have hlt : i < auths.length := by omega
    obtain ⟨auth, pk, sg, ha, hf⟩ := hall _ (List.getElem_mem hlt)
    have hget : auths[i]? = some (some auth) := by
      rw [List.getElem?_eq_getElem hlt, ha]
    obtain ⟨h1, h2⟩ := fromLoop_step PubKey Signature auths n i auth pk sg none hget hf
    simp only [MultiAuthKeyAuthenticator.fromLoop, hget, hf, h1, h2]
    exact ih (i + 1) (by omega)

theorem fromLoop_failure {PK Sig Other : Type}
    (PubKey : AccountAuthenticator PK Sig Other → Option PK)
    (Signature : AccountAuthenticator PK Sig Other → Option Sig)
    (auths : List (Option (AccountAuthenticator PK Sig Other))) (k : Nat)
    (auth : AccountAuthenticator PK Sig Other) (pk : Option (AnyPublicKey PK))
    (sg : Option (AnySignature Sig)) (e : String)
    (hall : ∀ a ∈ auths.take k, Converts PubKey Signature a)
    (hk : auths[k]? = some (some auth))
    (hf : fromAuthenticator PubKey Signature auth = some (pk, sg, some e)) :
    ∀ n i, i + n = auths.length → i ≤ k →
      MultiAuthKeyAuthenticator.fromLoop PubKey Signature auths n i
          { PubKeys := (auths.take i).map (convertedKey PubKey Signature)
              ++ List.replicate n none,
            Signatures := (auths.take i).map (convertedSig PubKey Signature)
              ++ List.replicate n none }
        = some ({ PubKeys := (auths.take (k + 1)).map (convertedKey PubKey Signature)
                    ++ List.replicate (auths.length - (k + 1)) none,
                  Signatures := (auths.take (k + 1)).map (convertedSig PubKey Signature)
                    ++ List.replicate (auths.length - (k + 1)) none }, some e) := by
  have hklt : k < auths.length := by
    rcases Nat.lt_or_ge k auths.length with h | h
    · exact h
    · rw [List.getElem?_eq_none h] at hk
      cases hk
  intro n
  induction n with
  | zero =>
    intro i hi hik
    omega
  | succ n ih =>
    intro i hi hik
    rcases Nat.eq_or_lt_of_le hik with heq | hlt
    · subst heq
      obtain ⟨h1, h2⟩ := fromLoop_step PubKey Signature auths n i auth pk sg (some e) hk hf
      have hn : auths.length - (i + 1) = n := by omega
      simp only [MultiAuthKeyAuthenticator.fromLoop, hk, hf, h1, h2, hn]
    · have hil : i < auths.length := by omega
      have hmem : auths[i] ∈ auths.take k := by
        rw [List.mem_take_iff_getElem]
        exact ⟨i, by omega, rfl⟩
      obtain ⟨auth', pk', sg', ha, hf'⟩ := hall _ hmem
      have hget : auths[i]? = some (some auth') := by
        rw [List.getElem?_eq_getElem hil, ha]
      obtain ⟨h1, h2⟩ := fromLoop_step PubKey Signature auths n i auth' pk' sg' none hget hf'
      simp only [MultiAuthKeyAuthenticator.fromLoop, hget, hf', h1, h2]
      exact ih (i + 1) (by omega) (by omega)

/-- C30. `FromAuthenticators` on a list `auths`. When `fromAuthenticator`
returns a nil error for every entry, it returns a nil error and `PubKeys` and
`Signatures` hold, entry by entry, what `fromAuthenticator` returns for the
entries of `auths`: both have length `len(auths)`. When the entries before
index `k` convert and `fromAuthenticator` returns the error `e` at index `k`,
the first failure, it returns `e`; `PubKeys` and `Signatures` have length
`len(auths)`, their entries before `k` are the converted ones and every entry
from `k` on is nil. -/
theorem MultiAuthKeyAuthenticator_FromAuthenticators_result {PK Sig Other : Type}
    (PubKey : AccountAuthenticator PK Sig Other → Option PK)
    (Signature : AccountAuthenticator PK Sig Other → Option Sig)
    (auths : List (Option (AccountAuthenticator PK Sig Other))) :
    ((∀ a ∈ auths, Converts PubKey Signature a) →
      MultiAuthKeyAuthenticator.FromAuthenticators PubKey Signature auths
        = some ({ PubKeys := auths.map (convertedKey PubKey Signature),
                  Signatures := auths.map (convertedSig PubKey Signature) }, none)) ∧
    (∀ (k : Nat) (auth : AccountAuthenticator PK Sig Other) (pk : Option (AnyPublicKey PK))
        (sg : Option (AnySignature Sig)) (e : String),
      (∀ a ∈ auths.take k, Converts PubKey Signature a) →
      auths[k]? = some (some auth) →
      fromAuthenticator PubKey Signature auth = some (pk, sg, some e) →
      MultiAuthKeyAuthenticator.FromAuthenticators PubKey Signature auths
          = some ({ PubKeys := (auths.take k).map (convertedKey PubKey Signature)
                      ++ List.replicate (auths.length - k) none,
                    Signatures := (auths.take k).map (convertedSig PubKey Signature)
                      ++ List.replicate (auths.length - k) none }, some e) ∧
        ((auths.take k).map (convertedKey PubKey Signature)
          ++ List.replicate (auths.length - k) none).length = auths.length ∧
        ((auths.take k).map (convertedSig PubKey Signature)
          ++ List.replicate (auths.length - k) none).length = auths.length) := by
  constructor
  · intro hall
    have h := fromLoop_success PubKey Signature auths hall auths.length 0 (Nat.zero_add _)
    simp only [List.take_zero, List.map_nil, List.nil_append] at h
    exact h
  · intro k auth pk sg e hall hk hf
    have hklt : k < auths.length := by
      rcases Nat.lt_or_ge k auths.length with h | h
      · exact h
      · rw [List.getElem?_eq_none h] at hk
        cases hk
    have h := fromLoop_failure PubKey Signature auths k auth pk sg e hall hk hf
      auths.length 0 (Nat.zero_add _) (Nat.zero_le _)
    simp only [List.take_zero, List.map_nil, List.nil_append] at h
    obtain ⟨hpk, hsg⟩ := fromAuthenticator_error_nil PubKey Signature auth pk sg e hf
    have hck : convertedKey PubKey Signature (some auth) = none := by
      simp only [convertedKey, hf, hpk]
    have hcs : convertedSig PubKey Signature (some auth) = none := by
      simp only [convertedSig, hf, hsg]
    have hrep : ∀ {α : Type} (x : α), [x] ++ List.replicate (auths.length - (k + 1)) x
        = List.replicate (auths.length - k) x := by
      intro α x
      have hn : auths.length - k = (auths.length - (k + 1)) + 1 := by omega
      rw [hn, List.replicate_succ]
      rfl
    rw [take_succ_map _ _ _ _ hk, take_succ_map _ _ _ _ hk, hck, hcs, List.append_assoc,
      List.append_assoc, hrep, hrep] at h
    refine ⟨h, ?_, ?_⟩
    · rw [List.length_append, List.length_map, List.length_take, List.length_replicate]
      omega
    · rw [List.length_append, List.length_map, List.length_take, List.length_replicate]
      omega

/-- C30, at a concrete input: three authenticators, of which the second has
the unsupported tag number 7. The error of the second is returned, the first
entry is converted and the two others are nil. -/
theorem MultiAuthKeyAuthenticator_FromAuthenticators_result_witness :
    MultiAuthKeyAuthenticator.FromAuthenticators (fun _ => some 7) (fun _ => some 9)
        ([some { Variant := .AccountAuthenticatorEd25519, Auth := none },
          some { Variant := .other 7, Auth := none },
          some { Variant := .AccountAuthenticatorEd25519, Auth := none }] :
          List (Option (AccountAuthenticator Nat Nat Unit)))
      = some ({ PubKeys := [some { Variant := .AnyPublicKeyVariantEd25519, PubKey := 7 },
                            none, none],
                Signatures := [some { Variant := .AnySignatureVariantEd25519, Signature := 9 },
                               none, none] },
              some "unsupported authenticator type 7") :=
  ((MultiAuthKeyAuthenticator_FromAuthenticators_result (fun _ => some 7) (fun _ => some 9)
      ([some { Variant := .AccountAuthenticatorEd25519, Auth := none },
        some { Variant := .other 7, Auth := none },
        some { Variant := .AccountAuthenticatorEd25519, Auth := none }] :
        List (Option (AccountAuthenticator Nat Nat Unit)))).2
    1 { Variant := .other 7, Auth := none } none none "unsupported authenticator type 7"
    (by
      intro a ha
      simp only [List.take_succ_cons, List.take_zero, List.mem_singleton] at ha
      subst ha
      exact ⟨_, _, _, rfl, rfl⟩)
    rfl rfl).1

end crypto

/-! ### Authentication keys, accounts and address parsing -/

theorem copyAt_full (dst src : List Nat) (h : src.length = dst.length) :
    copyAt dst 0 src = src := by
  simp only [copyAt, List.take_zero, List.nil_append, Nat.sub_zero, Nat.zero_add]
  rw [← h, List.take_length, List.drop_of_length_le (by omega), List.append_nil]

theorem copyAt_tail (dst src : List Nat) (h : src.length ≤ dst.length) :
    copyAt dst (dst.length - src.length) src = dst.take (dst.length - src.length) ++ src := by
  simp only [copyAt]
  have h1 : dst.length - (dst.length - src.length) = src.length := by omega
  rw [h1, List.take_length, List.drop_of_length_le (by omega), List.append_nil]

theorem copyArray_full {n : Nat} (dst src : { l : List Nat // l.length = n }) :
    copyArray dst 0 src.val = src := by
  apply Subtype.ext
  exact copyAt_full dst.val src.val (by rw [src.property, dst.property])

/-- C23. `AuthenticationKey.FromPublicKey` sets the key to the bytes of
SHA3-256 of the key's bytes followed by the scheme tag byte (`Ed25519Scheme`
for an Ed25519 key), which are 32 bytes; the result is a function of the key
bytes and the tag alone, the receiver's old value plays no part. That SHA3-256
yields 32 bytes is the hypothesis. -/
theorem AuthenticationKey_FromPublicKey_value (sha3 : List Nat → List Nat)
    (h32 : ∀ b, (sha3 b).length = 32) (ak : crypto.AuthenticationKey) (bytes : List Nat)
    (scheme : Nat) :
    (crypto.AuthenticationKey.FromPublicKey sha3 ak bytes scheme).val
        = sha3 (bytes ++ [scheme]) ∧
      sha3 (bytes ++ [scheme]) = Sha3256Hash sha3 [bytes, [scheme]] ∧
      (crypto.AuthenticationKey.FromPublicKey sha3 ak bytes scheme).val.length = 32 ∧
      ∀ ak' : crypto.AuthenticationKey,
        crypto.AuthenticationKey.FromPublicKey sha3 ak' bytes scheme
          = crypto.AuthenticationKey.FromPublicKey sha3 ak bytes scheme := by
  have hh : Sha3256Hash sha3 [bytes, [scheme]] = sha3 (bytes ++ [scheme]) := by
    simp only [Sha3256Hash, encodeAll, List.append_nil]
  have hv : ∀ a : crypto.AuthenticationKey,
      (crypto.AuthenticationKey.FromPublicKey sha3 a bytes scheme).val
        = sha3 (bytes ++ [scheme]) := by
    intro a
    show copyAt a.val 0 (Sha3256Hash sha3 [bytes, [scheme]]) = _
    rw [hh]
    exact copyAt_full _ _ (by rw [h32, a.property])
  refine ⟨hv ak, hh.symm, (crypto.AuthenticationKey.FromPublicKey sha3 ak bytes scheme).property,
    fun ak' => ?_⟩
  apply Subtype.ext
  rw [hv ak', hv ak]

/-- C23, at a concrete input: a key of three bytes with the scheme tag 0 and a
receiver of 32 bytes 9, under a stand-in for SHA3-256 that yields 32 times the
length of its input. -/
theorem AuthenticationKey_FromPublicKey_value_witness :
    (crypto.AuthenticationKey.FromPublicKey TxDecls.sample.sha3
        ⟨List.replicate 32 9, rfl⟩ [1, 2, 3] 0).val = List.replicate 32 4 :=
  (AuthenticationKey_FromPublicKey_value TxDecls.sample.sha3
    (fun b => List.length_replicate 32 (b.length % 256))
    ⟨List.replicate 32 9, rfl⟩ [1, 2, 3] 0).1

namespace types

/-- C24. `NewAccountFromSigner` with no auth key returns an `Account` whose
`Address` is the 32 bytes that `signer.AuthKey()` points to and whose `Signer`
is the given signer, and a nil error; with one auth key the `Address` is that
key (the signer is not asked for its key, it may be nil) and `Signer` the given
signer; with more than one it returns a nil pointer and the error "must only
provide one auth key". -/
theorem NewAccountFromSigner_cases {S : Type}
    (AuthKey : S → Option (Option crypto.AuthenticationKey)) (signer : Option S)
    (authKey : List crypto.AuthenticationKey) :
    (authKey = [] → ∀ (s : S) (k : crypto.AuthenticationKey), signer = some s →
      AuthKey s = some (some k) →
      NewAccountFromSigner AuthKey signer authKey
        = some (some { Address := k, Signer := signer }, none)) ∧
    (∀ k : crypto.AuthenticationKey, authKey = [k] →
      NewAccountFromSigner AuthKey signer authKey
        = some (some { Address := k, Signer := signer }, none)) ∧
    (1 < authKey.length →
      NewAccountFromSigner AuthKey signer authKey
        = some (none, some "must only provide one auth key")) := by
  refine ⟨fun h s k hs hk => ?_, fun k h => ?_, fun h => ?_⟩
  · subst h
    subst hs
    simp only [NewAccountFromSigner, List.length_nil, hk, copyArray_full]
    rfl
  · subst h
    simp only [NewAccountFromSigner, List.length_singleton, copyArray_full]
    rfl
  · have h1 : ¬ authKey.length = 1 := by omega
    simp only [NewAccountFromSigner, h1, if_false, gt_iff_lt, h, if_true]

/-- C24, at concrete inputs: a signer whose key is 32 bytes 7, with no auth
key, with the auth key of 32 bytes 5, and with two auth keys. -/
theorem NewAccountFromSigner_cases_witness :
    NewAccountFromSigner (fun _ : Unit => some (some ⟨List.replicate 32 7, rfl⟩))
        (some ()) []
      = some (some { Address := ⟨List.replicate 32 7, rfl⟩, Signer := some () }, none) ∧
    NewAccountFromSigner (fun _ : Unit => some (some ⟨List.replicate 32 7, rfl⟩))
        (some ()) [⟨List.replicate 32 5, rfl⟩]
      = some (some { Address := ⟨List.replicate 32 5, rfl⟩, Signer := some () }, none) ∧
    NewAccountFromSigner (fun _ : Unit => some (some ⟨List.replicate 32 7, rfl⟩))
        (some ()) [⟨List.replicate 32 5, rfl⟩, ⟨List.replicate 32 6, rfl⟩]
      = some (none, some "must only provide one auth key") :=
  ⟨(NewAccountFromSigner_cases (fun _ : Unit => some (some ⟨List.replicate 32 7, rfl⟩))
      (some ()) []).1 rfl () ⟨List.replicate 32 7, rfl⟩ rfl rfl,
   (NewAccountFromSigner_cases (fun _ : Unit => some (some ⟨List.replicate 32 7, rfl⟩))
      (some ()) [⟨List.replicate 32 5, rfl⟩]).2.1 ⟨List.replicate 32 5, rfl⟩ rfl,
   (NewAccountFromSigner_cases (fun _ : Unit => some (some ⟨List.replicate 32 7, rfl⟩))
      (some ()) [⟨List.replicate 32 5, rfl⟩, ⟨List.replicate 32 6, rfl⟩]).2.2 (by decide)⟩

theorem hex_DecodeString_length : ∀ (n : Nat) (l bytes : List Nat), l.length ≤ n →
    hex.DecodeString l = (bytes, none) → 2 * bytes.length = l.length := by
  intro n
  induction n using Nat.strong_induction_on with
  | _ n ih =>
    intro l bytes hl h
    match l, hl, h with
    | [], _, h =>
      simp only [hex.DecodeString, Prod.mk.injEq, and_true] at h
      rw [← h]
      rfl
    | [p], _, h =>
      simp only [hex.DecodeString] at h
      split at h
      · simp only [Prod.mk.injEq, reduceCtorEq, and_false] at h
      · simp only [Prod.mk.injEq, reduceCtorEq, and_false] at h
    | p :: q :: rest, hl, h =>
      simp only [hex.DecodeString] at h
      split at h
      · simp only [Prod.mk.injEq, reduceCtorEq, and_false] at h
      · split at h
        · simp only [Prod.mk.injEq, reduceCtorEq, and_false] at h
        · simp only [Prod.mk.injEq] at h
          obtain ⟨h1, h2⟩ := h
          simp only [List.length_cons] at hl
          have := ih (n - 2) (by omega) rest (hex.DecodeString rest).1 (by omega)
            (by rw [← h2])
          rw [← h1]
          simp only [List.length_cons]
          omega

theorem ParseStringRelaxed_hex (aa : AccountAddress) (digits bytes : List Nat)
    (h1 : 1 ≤ digits.length) (h64 : digits.length ≤ 64)
    (hd : hex.DecodeString (if digits.length % 2 ≠ 0 then 48 :: digits else digits)
      = (bytes, none)) :
    bytes.length ≤ 32 ∧ 2 * bytes.length = digits.length + digits.length % 2 ∧
    AccountAddress.ParseStringRelaxed aa (48 :: 120 :: digits)
      = some (copyArray aa (32 - bytes.length) bytes, none) := by
  have hlen := hex_DecodeString_length _ _ bytes (Nat.le_refl _) hd
  have hb : 2 * bytes.length = digits.length + digits.length % 2 := by
    rw [hlen]
    split
    · simp only [List.length_cons]
      omega
    · omega
  have hb32 : bytes.length ≤ 32 := by omega
  refine ⟨hb32, hb, ?_⟩
  have hp : strings.HasPrefix (48 :: 120 :: digits) [48, 120] = true := by
    simp [strings.HasPrefix]
  have hn1 : ¬ digits.length < 1 := by omega
  have hn64 : ¬ digits.length > 64 := by omega
  simp only [AccountAddress.ParseStringRelaxed, hp, if_true, List.drop_succ_cons, List.drop_zero,
    hn1, hn64, if_false, hd, hb32]

/-- C25, on the code: `copy((*aa)[32-len(bytes):], bytes)` stores the decoded
bytes at the end of the receiver and writes no other byte. On the receiver of
32 bytes `ff` and the string "0x1" the call succeeds and the address is 31
bytes `ff` followed by `01`: the bytes before the decoded value are not zero.
In general, for a string "0x" followed by 1 to 64 hexadecimal digits the call
succeeds, the last bytes are the decoded value and the bytes before them are
the receiver's old bytes; they are zero when the receiver was zero. -/
theorem ParseStringRelaxed_hex_keeps_receiver_bytes :
    AccountAddress.ParseStringRelaxed ⟨List.replicate 32 255, rfl⟩ [48, 120, 49]
      = some (⟨List.replicate 31 255 ++ [1], by decide⟩, none) ∧
    (∀ (aa : AccountAddress) (digits bytes : List Nat), 1 ≤ digits.length →
      digits.length ≤ 64 →
      hex.DecodeString (if digits.length % 2 ≠ 0 then 48 :: digits else digits)
        = (bytes, none) →
      ∃ r : AccountAddress,
        AccountAddress.ParseStringRelaxed aa (48 :: 120 :: digits) = some (r, none) ∧
        r.val = aa.val.take (32 - bytes.length) ++ bytes ∧
        (aa = AccountAddress.zero →
          r.val = List.replicate (32 - bytes.length) 0 ++ bytes)) := by
  refine ⟨by rfl, fun aa digits bytes h1 h64 hd => ?_⟩
  obtain ⟨hb32, _, hp⟩ := ParseStringRelaxed_hex aa digits bytes h1 h64 hd
  have hv : (copyArray aa (32 - bytes.length) bytes).val
      = aa.val.take (32 - bytes.length) ++ bytes := by
    have h := copyAt_tail aa.val bytes (by rw [aa.property]; exact hb32)
    rw [aa.property] at h
    exact h
  refine ⟨_, hp, hv, fun hz => ?_⟩
  rw [hv, hz]
  show (List.replicate 32 0).take (32 - bytes.length) ++ bytes = _
  rw [List.take_replicate]
  congr 2
  omega

/-- C26, on the code: the base58 branch of `ParseStringRelaxed` has no check of
the decoded length. The string of 33 characters `1` decodes to 33 zero bytes;
on it, with a receiver of 32 bytes `ff`, the call returns a nil error and the
receiver has become 32 zero bytes. In general a string without the "0x" start
and with at least 30 characters never gives an error: as many decoded bytes as
fit are copied over the receiver. The other cases are as the documentation of
the two errors says: "0x" alone and a string without the "0x" start of fewer
than 30 characters give `ErrAddressTooShort`, "0x" with more than 64 characters
after it gives `ErrAddressTooLong`, and the receiver is left as it was. -/
theorem ParseStringRelaxed_base58_no_length_check :
    base58.Decode (List.replicate 33 49) = List.replicate 33 0 ∧
    AccountAddress.ParseStringRelaxed ⟨List.replicate 32 255, rfl⟩ (List.replicate 33 49)
      = some (⟨List.replicate 32 0, rfl⟩, none) ∧
    (∀ (aa : AccountAddress) (x : List Nat), strings.HasPrefix x [48, 120] = false →
      30 ≤ x.length →
      AccountAddress.ParseStringRelaxed aa x = some (copyArray aa 0 (base58.Decode x), none)) ∧
    (∀ aa : AccountAddress,
      AccountAddress.ParseStringRelaxed aa [48, 120] = some (aa, some .ErrAddressTooShort)) ∧
    (∀ (aa : AccountAddress) (x : List Nat), strings.HasPrefix x [48, 120] = false →
      x.length < 30 →
      AccountAddress.ParseStringRelaxed aa x = some (aa, some .ErrAddressTooShort)) ∧
    (∀ (aa : AccountAddress) (digits : List Nat), 64 < digits.length →
      AccountAddress.ParseStringRelaxed aa (48 :: 120 :: digits)
        = some (aa, some .ErrAddressTooLong)) := by
  refine ⟨by rfl, by rfl, fun aa x hp hl => ?_, fun aa => by rfl, fun aa x hp hl => ?_,
    fun aa digits hl => ?_⟩
  · have hn : ¬ x.length < 30 := by omega
    simp only [AccountAddress.ParseStringRelaxed, hp, Bool.false_eq_true, if_false, hn]
  · simp only [AccountAddress.ParseStringRelaxed, hp, Bool.false_eq_true, if_false, hl, if_true]
  · have hp : strings.HasPrefix (48 :: 120 :: digits) [48, 120] = true := by
      simp [strings.HasPrefix]
    have hn1 : ¬ digits.length < 1 := by omega
    simp only [AccountAddress.ParseStringRelaxed, hp, if_true, List.drop_succ_cons,
      List.drop_zero, hn1, if_false, gt_iff_lt, hl]

end types

/-! ### The round trip of `RawTransaction` -/

theorem leBytes_length (n v : Nat) : (leBytes n v).length = n := by
  induction n generalizing v with
  | zero => rfl
  | succ n ih => simp only [leBytes, List.length_cons, ih]

theorem leValue_leBytes (n v : Nat) (h : v < 256 ^ n) : leValue (leBytes n v) = v := by
  induction n generalizing v with
  | zero =>
    simp only [pow_zero, Nat.lt_one_iff] at h
    subst h
    rfl
  | succ n ih =>
    have h2 : v / 256 < 256 ^ n := by
      rw [Nat.div_lt_iff_lt_mul (by decide)]
      rw [pow_succ] at h
      exact h
    simp only [leBytes, leValue, ih _ h2]
    omega

theorem Serializer_U64_ok (out : List Nat) (v : Nat) :
    ({ out := out, err := none } : Serializer).U64 v
      = { out := out ++ leBytes 8 v, err := none } :=
  write_ok out _

theorem Serializer_U8_ok (out : List Nat) (v : Nat) :
    ({ out := out, err := none } : Serializer).U8 v
      = { out := out ++ leBytes 1 v, err := none } :=
  write_ok out _

theorem Deserializer_fixedWidth_ok (n v : Nat) (rest : List Nat) (h : v < 256 ^ n) :
    ({ input := leBytes n v ++ rest, err := none } : Deserializer).fixedWidth n
      = (v, { input := rest, err := none }) := by
  have hl : n ≤ (leBytes n v ++ rest).length := by
    rw [List.length_append, leBytes_length]
    exact Nat.le_add_right _ _
  simp only [Deserializer.fixedWidth, hl, if_true]
  rw [List.take_left' (leBytes_length n v), List.drop_left' (leBytes_length n v),
    leValue_leBytes n v h]

theorem Serialize_of_marshal (marshal : Serializer → Serializer) (bs : List Nat)
    (h : marshal { out := [], err := none } = { out := bs, err := none }) :
    Serialize marshal = (bs, none) := by
  simp only [Serialize, h]

/-- The codec of a `TransactionPayload` that holds an `EntryFunction` in range
whose parts round-trip: the bytes that `MarshalBCS` appends, and their
decoding into any `TransactionPayload`, before any further bytes. -/
theorem TransactionPayload_entryFunction_codec {E : Decls} (sf : EntryFunction E)
    (hr : sf.InRange) (hparts : sf.PartsRoundTrip) :
    ∃ pb : List Nat,
      (∀ out, TransactionPayload.MarshalBCS E (some { Payload := some (.entryFunction sf) })
          { out := out, err := none } = { out := out ++ pb, err := none }) ∧
      (∀ old rest, TransactionPayload.UnmarshalBCS E old { input := pb ++ rest, err := none }
        = ({ Payload := some (.entryFunction sf) }, { input := rest, err := none })) := by
  obtain ⟨eb, hm, hu⟩ := EntryFunction_roundtrip sf hr hparts
  refine ⟨2 :: eb, fun out => ?_, fun old rest => ?_⟩
  · rw [TransactionPayload_MarshalBCS_some]
    have h2 : ulebBytes 4 (uint32 (TransactionPayloadImpl.PayloadType
        (TransactionPayloadImpl.entryFunction sf)) % 2 ^ 32) = [2] := rfl
    rw [h2]
    simp only [TransactionPayloadImpl.MarshalBCS, hm, List.append_assoc, List.singleton_append]
  · rw [List.cons_append, TransactionPayload_UnmarshalBCS_entryFunction, hu]

/-- The encoding of a `RawTransaction` from the encodings `sb` of its sender
and `pb` of its payload. -/
theorem RawTransaction_MarshalBCS_of_parts {E : Decls} (txn : RawTransaction E)
    (sb pb : List Nat)
    (hs : ∀ out, E.accountAddress.MarshalBCS txn.Sender { out := out, err := none }
      = { out := out ++ sb, err := none })
    (hp : ∀ out, TransactionPayload.MarshalBCS E (some txn.Payload) { out := out, err := none }
      = { out := out ++ pb, err := none }) (out : List Nat) :
    RawTransaction.MarshalBCS E txn { out := out, err := none }
      = { out := out ++ (sb ++ (leBytes 8 txn.SequenceNumber ++ (pb ++
            (leBytes 8 txn.MaxGasAmount ++ (leBytes 8 txn.GasUnitPrice ++
              (leBytes 8 txn.ExpirationTimestampSeconds ++ leBytes 1 txn.ChainId)))))),
          err := none } := by
  simp only [RawTransaction.MarshalBCS, hs, hp, Serializer_U64_ok, Serializer_U8_ok,
    List.append_assoc]

/-- The decoding of a `RawTransaction` from bytes of which `sb` decodes to the
sender `s` and `pb` to the payload `p`. -/
theorem RawTransaction_UnmarshalBCS_of_parts {E : Decls} (old : RawTransaction E)
    (s : E.AccountAddress) (p : TransactionPayload E) (sb pb : List Nat)
    (hs : ∀ rest, E.accountAddress.UnmarshalBCS old.Sender { input := sb ++ rest, err := none }
      = (s, { input := rest, err := none }))
    (hp : ∀ rest, TransactionPayload.UnmarshalBCS E old.Payload
        { input := pb ++ rest, err := none } = (p, { input := rest, err := none }))
    (a b c d e : Nat) (ha : a < 2 ^ 64) (hb : b < 2 ^ 64) (hc : c < 2 ^ 64) (hd : d < 2 ^ 64)
    (he : e < 2 ^ 8) (rest : List Nat) :
    RawTransaction.UnmarshalBCS E old
        { input := sb ++ (leBytes 8 a ++ (pb ++ (leBytes 8 b ++ (leBytes 8 c ++
            (leBytes 8 d ++ (leBytes 1 e ++ rest)))))), err := none }
      = ({ Sender := s, SequenceNumber := a, Payload := p, MaxGasAmount := b,
           GasUnitPrice := c, ExpirationTimestampSeconds := d, ChainId := e },
         { input := rest, err := none }) := by
  have h64 : (2 : Nat) ^ 64 = 256 ^ 8 := by decide
  have h8 : (2 : Nat) ^ 8 = 256 ^ 1 := by decide
  rw [h64] at ha hb hc hd
  rw [h8] at he
  simp only [RawTransaction.UnmarshalBCS, hs, Deserializer.U64, Deserializer.U8,
    Deserializer_fixedWidth_ok _ _ _ ha, hp, Deserializer_fixedWidth_ok _ _ _ hb,
    Deserializer_fixedWidth_ok _ _ _ hc, Deserializer_fixedWidth_ok _ _ _ hd,
    Deserializer_fixedWidth_ok _ _ _ he]

theorem RawTransaction_codec_roundtrip {E : Decls} (txn : RawTransaction E)
    (sf : EntryFunction E) (hp : txn.Payload = { Payload := some (.entryFunction sf) })
    (hr : sf.InRange) (hparts : sf.PartsRoundTrip)
    (hs : E.accountAddress.RoundTripsAt txn.Sender) (hn : txn.InRange) :
    ∃ bs : List Nat,
      (∀ out, RawTransaction.MarshalBCS E txn { out := out, err := none }
        = { out := out ++ bs, err := none }) ∧
      (∀ rest, RawTransaction.UnmarshalBCS E (RawTransaction.zero E)
          { input := bs ++ rest, err := none } = (txn, { input := rest, err := none })) := by
  obtain ⟨sb, hsm, hsu⟩ := hs
  obtain ⟨pb, hpm, hpu⟩ := TransactionPayload_entryFunction_codec sf hr hparts
  obtain ⟨h1, h2, h3, h4, h5⟩ := hn
  refine ⟨_, RawTransaction_MarshalBCS_of_parts txn sb pb hsm (by rw [hp]; exact hpm),
    fun rest => ?_⟩
  have h := RawTransaction_UnmarshalBCS_of_parts (RawTransaction.zero E) txn.Sender txn.Payload
    sb pb hsu (by rw [hp]; exact hpu _) _ _ _ _ _ h1 h2 h3 h4 h5 rest
  simp only [List.append_assoc]
  exact h

/-- The bound 2^32 on the lengths is needed for the round trip of a
`RawTransaction`: with a payload that is an `EntryFunction` with 2^32
arguments the serialization succeeds (the argument count is written as
`uint32(len(sf.Args))`, which is 0), and the payload decoded from these bytes
has no argument: the decoded value is not the original. -/
theorem RawTransaction_roundtrip_fails_beyond_uint32 :
    ∃ bs : List Nat,
      Serialize (RawTransaction.MarshalBCS Decls.sample RawTransaction.manyArgs) = (bs, none) ∧
      (RawTransaction.UnmarshalBCS Decls.sample (RawTransaction.zero Decls.sample)
          { input := bs, err := none }).1.Payload
        = { Payload := some (.entryFunction
              { Module := [], Function := [], ArgTypes := [], Args := [] }) } ∧
      (RawTransaction.UnmarshalBCS Decls.sample (RawTransaction.zero Decls.sample)
          { input := bs, err := none }).1 ≠ RawTransaction.manyArgs := by
  have hparts : EntryFunction.manyArgs.PartsRoundTrip :=
    ⟨bytesStruct_roundTripsAt [] (by decide), fun t ht => absurd ht (List.not_mem_nil t)⟩
  obtain ⟨pre, hm, hu⟩ := EntryFunction_head EntryFunction.manyArgs hparts
    (by decide) (by decide)
  have hA : EntryFunction.manyArgs.Args.length = 2 ^ 32 := by
    show (List.replicate (2 ^ 32) ([] : List Nat)).length = 2 ^ 32
    exact List.length_replicate _ _
  have h0 : ulebBytes 4 (uint32 EntryFunction.manyArgs.Args.length % 2 ^ 32) = [0] := by
    rw [hA]
    decide
  rw [h0] at hm
  generalize argsBytes EntryFunction.manyArgs.Args = ab at hm
  obtain ⟨sb, hsm, hsu⟩ := bytesStruct_roundTripsAt [] (by decide)
  have hpm : ∀ out, TransactionPayload.MarshalBCS Decls.sample
      (some RawTransaction.manyArgs.Payload) { out := out, err := none }
        = { out := out ++ (2 :: (pre ++ ([0] ++ ab))), err := none } := by
    intro out
    show TransactionPayload.MarshalBCS Decls.sample
      (some { Payload := some (.entryFunction EntryFunction.manyArgs) }) _ = _
    rw [TransactionPayload_MarshalBCS_some]
    have h2 : ulebBytes 4 (uint32 (TransactionPayloadImpl.PayloadType
        (TransactionPayloadImpl.entryFunction EntryFunction.manyArgs)) % 2 ^ 32) = [2] := rfl
    rw [h2]
    simp only [TransactionPayloadImpl.MarshalBCS, hm, List.append_assoc, List.singleton_append]
  have hmar := RawTransaction_MarshalBCS_of_parts RawTransaction.manyArgs sb _ hsm hpm []
  rw [List.nil_append] at hmar
  have hdec : (RawTransaction.UnmarshalBCS Decls.sample (RawTransaction.zero Decls.sample)
      { input := sb ++ (leBytes 8 RawTransaction.manyArgs.SequenceNumber
          ++ (2 :: (pre ++ ([0] ++ ab))
          ++ (leBytes 8 RawTransaction.manyArgs.MaxGasAmount
          ++ (leBytes 8 RawTransaction.manyArgs.GasUnitPrice
          ++ (leBytes 8 RawTransaction.manyArgs.ExpirationTimestampSeconds
          ++ leBytes 1 RawTransaction.manyArgs.ChainId))))), err := none }).1.Payload
        = { Payload := some (.entryFunction
              { Module := [], Function := [], ArgTypes := [], Args := [] }) } := by
    show (TransactionPayload.UnmarshalBCS Decls.sample { Payload := none }
      (Deserializer.fixedWidth (bytesStruct.UnmarshalBCS bytesStruct.zero _).2 8).2).1 = _
    rw [hsu, Deserializer_fixedWidth_ok 8 _ _ (by decide), List.cons_append,
      TransactionPayload_UnmarshalBCS_entryFunction, List.append_assoc, hu,
      List.append_assoc, List.singleton_append,
      Deserializer_Uleb128_small 0 _ (by decide)]
    rfl
  refine ⟨_, Serialize_of_marshal _ _ hmar, hdec, fun h => ?_⟩
  have h1 := congrArg (fun t : RawTransaction Decls.sample => t.Payload) h
  rw [show (fun t : RawTransaction Decls.sample => t.Payload) _ = _ from hdec] at h1
  have h2 := congrArg (fun t : TransactionPayload Decls.sample =>
    match t.Payload with
    | some (.entryFunction sf) => sf.Args.length
    | _ => 0) h1
  have h3 : (0 : Nat) = EntryFunction.manyArgs.Args.length := h2
  rw [hA] at h3
  exact absurd h3 (by decide)

/-- The round trip of the elements of a `RawTransaction` with an
`EntryFunction` payload in which every encoded length (function name, number
of type tags, number of arguments, each argument) is below 2^32, whose
sender, module id and type tags round-trip under their own codecs and whose
numbers are `uint64` and `uint8` values: the serialization succeeds with bytes
`bs`, decoding `bs` into a fresh `RawTransaction` yields a value with the
elements of the original, with no error and no byte left, and the
serialization of the decoded value is `bs` again. Whether a slice is nil is
not part of these values; the section on nil and empty slices adds it. -/
theorem RawTransaction_roundtrip {E : Decls} (txn : RawTransaction E) (sf : EntryFunction E)
    (hp : txn.Payload = { Payload := some (.entryFunction sf) })
    (hr : sf.InRange) (hparts : sf.PartsRoundTrip)
    (hs : E.accountAddress.RoundTripsAt txn.Sender) (hn : txn.InRange) :
    ∃ bs : List Nat,
      Serialize (RawTransaction.MarshalBCS E txn) = (bs, none) ∧
      RawTransaction.UnmarshalBCS E (RawTransaction.zero E) { input := bs, err := none }
        = (txn, { input := [], err := none }) ∧
      Serialize (RawTransaction.MarshalBCS E
          (RawTransaction.UnmarshalBCS E (RawTransaction.zero E)
            { input := bs, err := none }).1) = (bs, none) := by
  obtain ⟨bs, hm, hu⟩ := RawTransaction_codec_roundtrip txn sf hp hr hparts hs hn
  have hm0 := hm []
  rw [List.nil_append] at hm0
  have hu0 := hu []
  rw [List.append_nil] at hu0
  refine ⟨bs, Serialize_of_marshal _ _ hm0, hu0, ?_⟩
  rw [hu0]
  exact Serialize_of_marshal _ _ hm0

/-- The round trip of the elements at a concrete input: the sample
`RawTransaction`, with the numbers of `TestRawTransactionSign`. -/
theorem RawTransaction_roundtrip_witness :
    ∃ bs : List Nat,
      Serialize (RawTransaction.MarshalBCS Decls.sample RawTransaction.sample) = (bs, none) ∧
      RawTransaction.UnmarshalBCS Decls.sample (RawTransaction.zero Decls.sample)
          { input := bs, err := none }
        = (RawTransaction.sample, { input := [], err := none }) ∧
      Serialize (RawTransaction.MarshalBCS Decls.sample
          (RawTransaction.UnmarshalBCS Decls.sample (RawTransaction.zero Decls.sample)
            { input := bs, err := none }).1) = (bs, none) :=
  RawTransaction_roundtrip RawTransaction.sample
    { Module := [1], Function := [102], ArgTypes := [], Args := [[7]] } rfl
    ⟨by decide, by decide, by decide, by decide⟩
    ⟨bytesStruct_roundTripsAt [1] (by decide), fun t ht => absurd ht (List.not_mem_nil t)⟩
    (bytesStruct_roundTripsAt [10, 11] (by decide))
    ⟨by decide, by decide, by decide, by decide, by decide⟩

/-! ### Round trips with nil and empty slices told apart -/

theorem Slice_read_elems {α : Type} (b : Bool) (l : List α) : (Slice.read b l).elems = l := by
  unfold Slice.read
  split
  · rename_i h
    simp only [Bool.and_eq_true, List.isEmpty_iff] at h
    rw [h.1]
    rfl
  · rfl

theorem Slice_elems_make {α : Type} (l : List α) : (Slice.make l).elems = l := rfl

theorem map_eq_self_iff {α : Type} (f : α → α) (l : List α) :
    l.map f = l ↔ ∀ a ∈ l, f a = a := by
  induction l with
  | nil => simp
  | cons x xs ih =>
    simp only [List.map_cons, List.cons.injEq, ih, List.mem_cons, forall_eq_or_imp]

namespace deep

theorem ReadBytes_ok (R : SliceReaders) (b rest : List Nat) (h : b.length < 2 ^ 32) :
    deep.ReadBytes R { input := ulebBytes 4 (uint32 b.length % 2 ^ 32) ++ b ++ rest, err := none }
      = (Slice.read R.nilBytes b, { input := rest, err := none }) := by
  simp only [deep.ReadBytes, Deserializer_ReadBytes_ok b rest h]

theorem foldl_WriteBytes_elems (args : List (Slice Nat)) (out : List Nat) :
    args.foldl (fun (s : Serializer) a => s.WriteBytes a.elems) { out := out, err := none }
      = { out := out ++ argsBytes (args.map Slice.elems), err := none } := by
  induction args generalizing out with
  | nil => simp [argsBytes]
  | cons a args ih =>
    simp only [List.foldl_cons, WriteBytes_ok, ih, List.map_cons, argsBytes, List.append_assoc]

theorem readArgs_argsBytes_elems (R : SliceReaders) (args : List (Slice Nat)) (rest : List Nat)
    (h : ∀ a ∈ args, a.elems.length < 2 ^ 32) :
    deep.readArgs R args.length
        { input := argsBytes (args.map Slice.elems) ++ rest, err := none }
      = (args.map (fun a => Slice.read R.nilBytes a.elems), { input := rest, err := none }) := by
  induction args with
  | nil => simp [deep.readArgs, argsBytes]
  | cons a args ih =>
    have ha := h a (List.mem_cons_self a args)
    have hr := ih (fun x hx => h x (List.mem_cons_of_mem a hx))
    have e : argsBytes ((a :: args).map Slice.elems) ++ rest
        = ulebBytes 4 (uint32 a.elems.length % 2 ^ 32) ++ a.elems
            ++ (argsBytes (args.map Slice.elems) ++ rest) := by
      simp only [List.map_cons, argsBytes, List.append_assoc]
    simp only [List.length_cons, deep.readArgs, e, deep.ReadBytes_ok R a.elems _ ha, hr]
    rfl

theorem EntryFunction_roundtrip_slices {E : Decls} (R : SliceReaders)
    (sf : deep.EntryFunction E) (hr : sf.contents.InRange)
    (hparts : sf.contents.PartsRoundTrip) :
    ∃ bs : List Nat,
      (∀ out, deep.EntryFunction.MarshalBCS E sf { out := out, err := none }
        = { out := out ++ bs, err := none }) ∧
      (∀ rest, deep.EntryFunction.UnmarshalBCS E R (deep.EntryFunction.zero E)
          { input := bs ++ rest, err := none }
        = (sf.decoded R, { input := rest, err := none })) := by
  obtain ⟨hfn, htags, hargs, hall⟩ := hr
  obtain ⟨mb, hmm, hmu⟩ := hparts.1
  obtain ⟨tb, htm, htu⟩ := sequence_roundtrip E.typeTag sf.ArgTypes.elems hparts.2 htags
  have hargs' : sf.Args.elems.length < 2 ^ 32 := by
    have := hargs
    simp only [deep.EntryFunction.contents, List.length_map] at this
    exact this
  have hall' : ∀ a ∈ sf.Args.elems, a.elems.length < 2 ^ 32 := by
    intro a ha
    exact hall a.elems (List.mem_map_of_mem Slice.elems ha)
  have hl : uint32 sf.Args.elems.length % 2 ^ 32 = sf.Args.elems.length := by
    unfold uint32
    rw [Nat.mod_mod, Nat.mod_eq_of_lt hargs']
  have hfn' : sf.Function.length < 2 ^ 32 := hfn
  refine ⟨mb ++ (ulebBytes 4 (uint32 sf.Function.length % 2 ^ 32) ++ sf.Function) ++ tb
      ++ (ulebBytes 4 sf.Args.elems.length ++ argsBytes (sf.Args.elems.map Slice.elems)),
    fun out => ?_, fun rest => ?_⟩
  · have hmm' : ∀ out, E.moduleId.MarshalBCS sf.Module { out := out, err := none }
        = { out := out ++ mb, err := none } := hmm
    simp only [deep.EntryFunction.MarshalBCS, hmm', Serializer.WriteString, WriteBytes_ok,
      htm, Uleb128_ok, hl, deep.foldl_WriteBytes_elems, List.append_assoc]
  · have hmu' : ∀ rest, E.moduleId.UnmarshalBCS E.moduleId.zero
        { input := mb ++ rest, err := none } = (sf.Module, { input := rest, err := none }) :=
      hmu
    have e : mb ++ (ulebBytes 4 (uint32 sf.Function.length % 2 ^ 32) ++ sf.Function) ++ tb
          ++ (ulebBytes 4 sf.Args.elems.length ++ argsBytes (sf.Args.elems.map Slice.elems))
          ++ rest
        = mb ++ (ulebBytes 4 (uint32 sf.Function.length % 2 ^ 32) ++ sf.Function
            ++ (tb ++ (ulebBytes 4 sf.Args.elems.length
              ++ (argsBytes (sf.Args.elems.map Slice.elems) ++ rest)))) := by
      simp only [List.append_assoc]
    simp only [deep.EntryFunction.UnmarshalBCS, deep.EntryFunction.zero, e, hmu',
      Deserializer.ReadString, Deserializer_ReadBytes_ok sf.Function _ hfn',
      deep.DeserializeSequence, htu,
      Deserializer_Uleb128_ulebBytes sf.Args.elems.length _ hargs',
      deep.readArgs_argsBytes_elems R sf.Args.elems rest hall', deep.EntryFunction.decoded]

theorem EntryFunction_MarshalBCS_decoded {E : Decls} (R : SliceReaders)
    (sf : deep.EntryFunction E) (ser : Serializer) :
    deep.EntryFunction.MarshalBCS E (sf.decoded R) ser = deep.EntryFunction.MarshalBCS E sf ser := by
  simp only [deep.EntryFunction.MarshalBCS, deep.EntryFunction.decoded, Slice_read_elems,
    Slice_elems_make, List.length_map, List.foldl_map]

theorem EntryFunction_decoded_eq_iff {E : Decls} (R : SliceReaders)
    (sf : deep.EntryFunction E) : sf.decoded R = sf ↔ sf.ReadForm R := by
  obtain ⟨m, f, ts, args⟩ := sf
  cases args with
  | nil =>
    simp only [deep.EntryFunction.decoded, deep.EntryFunction.ReadForm, Slice.elems,
      deep.EntryFunction.mk.injEq, true_and, ne_eq, not_true_eq_false, false_and, iff_false,
      not_and]
    intro _ h
    cases h
  | make l =>
    simp only [deep.EntryFunction.decoded, deep.EntryFunction.ReadForm, Slice.elems,
      deep.EntryFunction.mk.injEq, true_and, ne_eq, reduceCtorEq, not_false_eq_true,
      Slice.make.injEq, map_eq_self_iff]
    constructor
    · rintro ⟨h1, h2⟩
      exact ⟨h1.symm, fun a ha => (h2 a ha).symm⟩
    · rintro ⟨h1, h2⟩
      exact ⟨h1.symm, fun a ha => (h2 a ha).symm⟩

theorem MultisigTransactionPayload_roundtrip_slices {E : Decls} (R : SliceReaders)
    (sf : deep.EntryFunction E) (hr : sf.contents.InRange)
    (hparts : sf.contents.PartsRoundTrip) :
    ∃ bs : List Nat,
      (∀ out, deep.MultisigTransactionPayload.MarshalBCS E
          { Variant := MultisigTransactionPayloadVariantEntryFunction,
            Payload := some (.entryFunction sf) } { out := out, err := none }
        = { out := out ++ bs, err := none }) ∧
      (∀ rest, deep.MultisigTransactionPayload.UnmarshalBCS E R
          (deep.MultisigTransactionPayload.zero E) { input := bs ++ rest, err := none }
        = ({ Variant := MultisigTransactionPayloadVariantEntryFunction,
             Payload := some (.entryFunction (sf.decoded R)) },
           { input := rest, err := none })) := by
  obtain ⟨eb, hm, hu⟩ := deep.EntryFunction_roundtrip_slices R sf hr hparts
  refine ⟨0 :: eb, fun out => ?_, fun rest => ?_⟩
  · have h0 : ulebBytes 4 (uint32 MultisigTransactionPayloadVariantEntryFunction % 2 ^ 32)
        = [0] := by decide
    simp only [deep.MultisigTransactionPayload.MarshalBCS, Uleb128_ok, h0, Serializer.Struct,
      deep.MultisigTransactionImpl.MarshalBCS, hm, List.append_assoc, List.singleton_append]
  · simp only [deep.MultisigTransactionPayload.UnmarshalBCS, List.cons_append,
      Deserializer_Uleb128_small 0 _ (by decide : 0 < 128),
      MultisigTransactionPayloadVariantEntryFunction, if_true, Deserializer.Struct, hu,
      deep.MultisigTransactionPayload.zero]

/-- The codec of a `TransactionPayload` of the round-trip property, with
slices as slice values: the bytes that `MarshalBCS` appends, and their
decoding, before any further bytes, into any target: the payload with the
slices of its `EntryFunction` in the decoder's form. -/
theorem TransactionPayload_codec_slices {E : Decls} (R : SliceReaders)
    (txn : deep.TransactionPayload E) (h : txn.RoundTripDomain) :
    ∃ bs : List Nat,
      (∀ out, deep.TransactionPayload.MarshalBCS E (some txn) { out := out, err := none }
        = { out := out ++ bs, err := none }) ∧
      (∀ old rest, deep.TransactionPayload.UnmarshalBCS E R old
          { input := bs ++ rest, err := none }
        = (txn.withHeld (deep.EntryFunction.decoded R), { input := rest, err := none })) := by
  obtain ⟨payload⟩ := txn
  cases payload with
  | none => exact absurd h id
  | some p =>
    cases p with
    | script s => exact absurd h id
    | moduleBundle => exact absurd h id
    | safeEntryFunction sf => exact absurd h id
    | entryFunction sf =>
      obtain ⟨eb, hm, hu⟩ := deep.EntryFunction_roundtrip_slices R sf h.1 h.2
      refine ⟨2 :: eb, fun out => ?_, fun old rest => ?_⟩
      · simp only [deep.TransactionPayload.MarshalBCS, deep.TransactionPayloadImpl.PayloadType,
          deep.TransactionPayloadImpl.MarshalBCS, Uleb128_ok,
          show ulebBytes 4 (uint32 TransactionPayloadVariantEntryFunction % 2 ^ 32) = [2]
            from rfl, hm, List.append_assoc, List.singleton_append]
      · simp [deep.TransactionPayload.UnmarshalBCS, Deserializer_Uleb128_small 2 _ (by decide),
          TransactionPayloadVariantScript, TransactionPayloadVariantModuleBundle,
          TransactionPayloadVariantEntryFunction, hu, deep.TransactionPayload.withHeld]
    | multisig m =>
      obtain ⟨addr, inner⟩ := m
      obtain ⟨⟨ab, ham, hau⟩, hp⟩ := h
      cases inner with
      | none =>
        refine ⟨3 :: (ab ++ [0]), fun out => ?_, fun old rest => ?_⟩
        · simp only [deep.TransactionPayload.MarshalBCS,
            deep.TransactionPayloadImpl.PayloadType, deep.TransactionPayloadImpl.MarshalBCS,
            Uleb128_ok,
            show ulebBytes 4 (uint32 TransactionPayloadVariantMultisig % 2 ^ 32) = [3]
              from rfl, deep.Multisig.MarshalBCS, Serializer.Struct, ham, Serializer.Bool,
            write_ok, List.append_assoc, List.singleton_append]
          rfl
        · simp [deep.TransactionPayload.UnmarshalBCS,
            Deserializer_Uleb128_small 3 _ (by decide),
            TransactionPayloadVariantScript, TransactionPayloadVariantModuleBundle,
            TransactionPayloadVariantEntryFunction, TransactionPayloadVariantMultisig,
            deep.Multisig.UnmarshalBCS, deep.Multisig.zero, Deserializer.Struct, hau,
            Deserializer.Bool, deep.TransactionPayload.withHeld]
      | some p =>
        obtain ⟨variant, held⟩ := p
        obtain ⟨hv, hheld⟩ := hp
        cases held with
        | none => exact absurd hheld id
        | some impl =>
          cases impl with
          | entryFunction sf =>
            obtain ⟨pb, hpm, hpu⟩ :=
              deep.MultisigTransactionPayload_roundtrip_slices R sf hheld.1 hheld.2
            simp only at hv
            subst hv
            refine ⟨3 :: (ab ++ (1 :: pb)), fun out => ?_, fun old rest => ?_⟩
            · simp only [deep.TransactionPayload.MarshalBCS,
                deep.TransactionPayloadImpl.PayloadType,
                deep.TransactionPayloadImpl.MarshalBCS, Uleb128_ok,
                show ulebBytes 4 (uint32 TransactionPayloadVariantMultisig % 2 ^ 32) = [3]
                  from rfl, deep.Multisig.MarshalBCS, Serializer.Struct, ham, Serializer.Bool,
                write_ok, hpm, List.append_assoc, List.singleton_append]
              rfl
            · simp [deep.TransactionPayload.UnmarshalBCS,
                Deserializer_Uleb128_small 3 _ (by decide),
                TransactionPayloadVariantScript, TransactionPayloadVariantModuleBundle,
                TransactionPayloadVariantEntryFunction, TransactionPayloadVariantMultisig,
                deep.Multisig.UnmarshalBCS, deep.Multisig.zero, Deserializer.Struct, hau,
                Deserializer.Bool, hpu, deep.TransactionPayload.withHeld]

theorem TransactionPayload_withHeld_eq_iff {E : Decls} (R : SliceReaders)
    (txn : deep.TransactionPayload E) :
    txn.withHeld (deep.EntryFunction.decoded R) = txn ↔ txn.ReadForm R := by
  obtain ⟨payload⟩ := txn
  cases payload with
  | none => simp [deep.TransactionPayload.withHeld, deep.TransactionPayload.ReadForm,
      deep.TransactionPayload.held]
  | some p =>
    cases p with
    | script s => simp [deep.TransactionPayload.withHeld, deep.TransactionPayload.ReadForm,
        deep.TransactionPayload.held]
    | moduleBundle => simp [deep.TransactionPayload.withHeld, deep.TransactionPayload.ReadForm,
        deep.TransactionPayload.held]
    | safeEntryFunction sf =>
      simp [deep.TransactionPayload.withHeld, deep.TransactionPayload.ReadForm,
        deep.TransactionPayload.held]
    | entryFunction sf =>
      simp [deep.TransactionPayload.withHeld, deep.TransactionPayload.ReadForm,
        deep.TransactionPayload.held, deep.EntryFunction_decoded_eq_iff]
    | multisig m =>
      obtain ⟨addr, inner⟩ := m
      cases inner with
      | none => simp [deep.TransactionPayload.withHeld, deep.TransactionPayload.ReadForm,
          deep.TransactionPayload.held]
      | some p =>
        obtain ⟨variant, held⟩ := p
        cases held with
        | none => simp [deep.TransactionPayload.withHeld, deep.TransactionPayload.ReadForm,
            deep.TransactionPayload.held]
        | some impl =>
          cases impl with
          | entryFunction sf =>
            simp [deep.TransactionPayload.withHeld, deep.TransactionPayload.ReadForm,
              deep.TransactionPayload.held, deep.EntryFunction_decoded_eq_iff]

end deep

namespace deep

/-- C9, refuted at a concrete input: the payload that holds
`EntryFunction{Module: m, Function: "f", ArgTypes: []TypeTag{t}}`, whose `Args`
is the nil slice. Its encoding succeeds, with the bytes `02 01 01 01 66 01 01
07 00`, and these decode, with no error and no byte left, into an
`EntryFunction` whose `Args` is `make([][]byte, 0)`, an empty slice that is not
nil: the decoded value is not the original. This is so with readers of `bcs`
that return an empty slice for an empty sequence and with readers that return
nil for it. -/
theorem TransactionPayload_roundtrip_fails_on_nil_slice :
    deep.TransactionPayload.MarshalBCS Decls.sample (some deep.TransactionPayload.nilArgs)
        { out := [], err := none }
      = { out := [2, 1, 1, 1, 102, 1, 1, 7, 0], err := none } ∧
    deep.TransactionPayload.UnmarshalBCS Decls.sample
        { nilBytes := false, nilSequence := false } { Payload := none }
        { input := [2, 1, 1, 1, 102, 1, 1, 7, 0], err := none }
      = ({ Payload := some (.entryFunction
            { Module := [1], Function := [102], ArgTypes := .make [[7]],
              Args := .make [] }) }, { input := [], err := none }) ∧
    deep.TransactionPayload.UnmarshalBCS Decls.sample
        { nilBytes := true, nilSequence := true } { Payload := none }
        { input := [2, 1, 1, 1, 102, 1, 1, 7, 0], err := none }
      = ({ Payload := some (.entryFunction
            { Module := [1], Function := [102], ArgTypes := .make [[7]],
              Args := .make [] }) }, { input := [], err := none }) ∧
    ({ Payload := some (.entryFunction
        { Module := [1], Function := [102], ArgTypes := .make [[7]], Args := .make [] }) } :
      deep.TransactionPayload Decls.sample) ≠ deep.TransactionPayload.nilArgs := by
  refine ⟨rfl, rfl, rfl, ?_⟩
  intro hc
  have h2 := congrArg (fun t : deep.TransactionPayload Decls.sample =>
    match t.Payload with
    | some (.entryFunction sf) => decide (sf.Args = Slice.nil)
    | _ => false) hc
  exact absurd h2 (by decide)

/-- C9, amended. A `TransactionPayload` that holds an `EntryFunction` (also one
with no type tags and no arguments), or a `Multisig` with no inner payload or
with an inner payload of variant EntryFunction, in which every encoded length
is below 2^32 and whose module id, type tags and multisig address round-trip
under their own codecs: `MarshalBCS` on a fresh serializer yields bytes `bs`
and no error, and `UnmarshalBCS` into a fresh `TransactionPayload`, on `bs`
followed by any bytes `rest`, sets no error, leaves exactly `rest` unread and
yields the original with the slices of its `EntryFunction` in the decoder's
form: `Args` is not nil, `ArgTypes` and each argument are as the readers of
`bcs` return them. The decoded value is equal to the original, nil and empty
slices told apart, if and only if the original has that form. -/
theorem TransactionPayload_roundtrip_slices {E : Decls} (R : SliceReaders)
    (txn : deep.TransactionPayload E) (h : txn.RoundTripDomain) (rest : List Nat) :
    ∃ bs : List Nat,
      deep.TransactionPayload.MarshalBCS E (some txn) { out := [], err := none }
        = { out := bs, err := none } ∧
      deep.TransactionPayload.UnmarshalBCS E R { Payload := none }
          { input := bs ++ rest, err := none }
        = (txn.withHeld (deep.EntryFunction.decoded R), { input := rest, err := none }) ∧
      (deep.TransactionPayload.UnmarshalBCS E R { Payload := none }
          { input := bs ++ rest, err := none }
        = (txn, { input := rest, err := none }) ↔ txn.ReadForm R) := by
  obtain ⟨bs, hm, hu⟩ := deep.TransactionPayload_codec_slices R txn h
  have hm0 := hm []
  rw [List.nil_append] at hm0
  refine ⟨bs, hm0, hu _ rest, ?_⟩
  rw [hu _ rest, ← deep.TransactionPayload_withHeld_eq_iff R txn]
  constructor
  · intro heq
    exact congrArg Prod.fst heq
  · intro heq
    rw [heq]

/-- C9, amended, at a concrete input: an `EntryFunction` payload with one type
tag and two arguments, all slices not nil and not empty, with readers that
return an empty slice that is not nil. It is in the domain and in the
decoder's form, and decoding its encoding yields the payload itself. -/
theorem TransactionPayload_roundtrip_slices_witness :
    deep.TransactionPayload.sample.RoundTripDomain ∧
    deep.TransactionPayload.sample.ReadForm { nilBytes := false, nilSequence := false } ∧
    ∃ bs : List Nat,
      deep.TransactionPayload.MarshalBCS Decls.sample (some deep.TransactionPayload.sample)
          { out := [], err := none } = { out := bs, err := none } ∧
      deep.TransactionPayload.UnmarshalBCS Decls.sample
          { nilBytes := false, nilSequence := false } { Payload := none }
          { input := bs, err := none }
        = (deep.TransactionPayload.sample, { input := [], err := none }) := by
  have hdom : deep.TransactionPayload.sample.RoundTripDomain :=
    ⟨⟨by decide, by decide, by decide, by decide⟩,
      bytesStruct_roundTripsAt [1] (by decide),
      fun t ht => by
        have ht' : t = [7] := by simpa [deep.EntryFunction.contents, Slice.elems] using ht
        rw [ht']
        exact bytesStruct_roundTripsAt [7] (by decide)⟩
  have hform : deep.TransactionPayload.sample.ReadForm
      { nilBytes := false, nilSequence := false } := by
    refine ⟨by decide, rfl, fun a ha => ?_⟩
    have ha' : a = .make [1, 2, 3] ∨ a = .make [9] := by
      simpa [Slice.elems] using ha
    rcases ha' with h | h <;> rw [h] <;> rfl
  obtain ⟨bs, hm, _, hiff⟩ := TransactionPayload_roundtrip_slices
    { nilBytes := false, nilSequence := false } deep.TransactionPayload.sample hdom []
  rw [List.append_nil] at hiff
  exact ⟨hdom, hform, bs, hm, hiff.2 hform⟩

theorem RawTransaction_MarshalBCS_of_parts_slices {E : Decls} (txn : deep.RawTransaction E)
    (sb pb : List Nat)
    (hs : ∀ out, E.accountAddress.MarshalBCS txn.Sender { out := out, err := none }
      = { out := out ++ sb, err := none })
    (hp : ∀ out, deep.TransactionPayload.MarshalBCS E (some txn.Payload)
        { out := out, err := none } = { out := out ++ pb, err := none }) (out : List Nat) :
    deep.RawTransaction.MarshalBCS E txn { out := out, err := none }
      = { out := out ++ (sb ++ (leBytes 8 txn.SequenceNumber ++ (pb ++
            (leBytes 8 txn.MaxGasAmount ++ (leBytes 8 txn.GasUnitPrice ++
              (leBytes 8 txn.ExpirationTimestampSeconds ++ leBytes 1 txn.ChainId)))))),
          err := none } := by
  simp only [deep.RawTransaction.MarshalBCS, hs, hp, Serializer_U64_ok, Serializer_U8_ok,
    List.append_assoc]

theorem RawTransaction_UnmarshalBCS_of_parts_slices {E : Decls} (R : SliceReaders)
    (old : deep.RawTransaction E) (s : E.AccountAddress) (p : deep.TransactionPayload E)
    (sb pb : List Nat)
    (hs : ∀ rest, E.accountAddress.UnmarshalBCS old.Sender { input := sb ++ rest, err := none }
      = (s, { input := rest, err := none }))
    (hp : ∀ rest, deep.TransactionPayload.UnmarshalBCS E R old.Payload
        { input := pb ++ rest, err := none } = (p, { input := rest, err := none }))
    (a b c d e : Nat) (ha : a < 2 ^ 64) (hb : b < 2 ^ 64) (hc : c < 2 ^ 64) (hd : d < 2 ^ 64)
    (he : e < 2 ^ 8) (rest : List Nat) :
    deep.RawTransaction.UnmarshalBCS E R old
        { input := sb ++ (leBytes 8 a ++ (pb ++ (leBytes 8 b ++ (leBytes 8 c ++
            (leBytes 8 d ++ (leBytes 1 e ++ rest)))))), err := none }
      = ({ Sender := s, SequenceNumber := a, Payload := p, MaxGasAmount := b,
           GasUnitPrice := c, ExpirationTimestampSeconds := d, ChainId := e },
         { input := rest, err := none }) := by
  have h64 : (2 : Nat) ^ 64 = 256 ^ 8 := by decide
  have h8 : (2 : Nat) ^ 8 = 256 ^ 1 := by decide
  rw [h64] at ha hb hc hd
  rw [h8] at he
  simp only [deep.RawTransaction.UnmarshalBCS, hs, Deserializer.U64, Deserializer.U8,
    Deserializer_fixedWidth_ok _ _ _ ha, hp, Deserializer_fixedWidth_ok _ _ _ hb,
    Deserializer_fixedWidth_ok _ _ _ hc, Deserializer_fixedWidth_ok _ _ _ hd,
    Deserializer_fixedWidth_ok _ _ _ he]

/-- C22, refuted at a concrete input: the `RawTransaction` with the numbers of
`TestRawTransactionSign` whose payload is
`EntryFunction{Module: m, Function: "f", ArgTypes: []TypeTag{t}}`, with the nil
slice as `Args`. Its serialization succeeds with 45 bytes, and these decode,
with no error and no byte left, into a `RawTransaction` whose payload has
`make([][]byte, 0)` as `Args`: the decoded value is not the original. This is
so with readers of `bcs` that return an empty slice for an empty sequence and
with readers that return nil for it. -/
theorem RawTransaction_roundtrip_fails_on_nil_slice :
    Serialize (deep.RawTransaction.MarshalBCS Decls.sample
        (deep.RawTransaction.sample deep.TransactionPayload.nilArgs))
      = ([2, 10, 11, 2, 0, 0, 0, 0, 0, 0, 0, 2, 1, 1, 1, 102, 1, 1, 7, 0,
            232, 3, 0, 0, 0, 0, 0, 0, 208, 7, 0, 0, 0, 0, 0, 0,
            186, 252, 43, 102, 0, 0, 0, 0, 221], none) ∧
    deep.RawTransaction.UnmarshalBCS Decls.sample { nilBytes := false, nilSequence := false }
        (deep.RawTransaction.zero Decls.sample)
        { input := [2, 10, 11, 2, 0, 0, 0, 0, 0, 0, 0, 2, 1, 1, 1, 102, 1, 1, 7, 0,
            232, 3, 0, 0, 0, 0, 0, 0, 208, 7, 0, 0, 0, 0, 0, 0,
            186, 252, 43, 102, 0, 0, 0, 0, 221], err := none }
      = (deep.RawTransaction.sample
          { Payload := some (.entryFunction
              { Module := [1], Function := [102], ArgTypes := .make [[7]],
                Args := .make [] }) }, { input := [], err := none }) ∧
    deep.RawTransaction.UnmarshalBCS Decls.sample { nilBytes := true, nilSequence := true }
        (deep.RawTransaction.zero Decls.sample)
        { input := [2, 10, 11, 2, 0, 0, 0, 0, 0, 0, 0, 2, 1, 1, 1, 102, 1, 1, 7, 0,
            232, 3, 0, 0, 0, 0, 0, 0, 208, 7, 0, 0, 0, 0, 0, 0,
            186, 252, 43, 102, 0, 0, 0, 0, 221], err := none }
      = (deep.RawTransaction.sample
          { Payload := some (.entryFunction
              { Module := [1], Function := [102], ArgTypes := .make [[7]],
                Args := .make [] }) }, { input := [], err := none }) ∧
    deep.RawTransaction.sample
        { Payload := some (.entryFunction
            { Module := [1], Function := [102], ArgTypes := .make [[7]], Args := .make [] }) }
      ≠ deep.RawTransaction.sample deep.TransactionPayload.nilArgs := by
  refine ⟨rfl, rfl, rfl, ?_⟩
  intro hc
  have h2 := congrArg (fun t : deep.RawTransaction Decls.sample =>
    match t.Payload.Payload with
    | some (.entryFunction sf) => decide (sf.Args = Slice.nil)
    | _ => false) hc
  exact absurd h2 (by decide)

/-- C22, amended. A `RawTransaction` with an `EntryFunction` payload in which
every encoded length is below 2^32, whose sender, module id and type tags
round-trip under their own codecs and whose numbers are `uint64` and `uint8`
values: the serialization succeeds with bytes `bs`; decoding `bs` into a fresh
`RawTransaction` sets no error, leaves no byte and yields the original with the
slices of the `EntryFunction` in the decoder's form (`Args` not nil, `ArgTypes`
and each argument as the readers of `bcs` return them); the decoded value is
equal to the original, nil and empty slices told apart, if and only if the
original has that form; and the serialization of the decoded value is `bs`
again, in every case. -/
theorem RawTransaction_roundtrip_slices {E : Decls} (R : SliceReaders)
    (txn : deep.RawTransaction E) (sf : deep.EntryFunction E)
    (hp : txn.Payload = { Payload := some (.entryFunction sf) })
    (hr : sf.contents.InRange) (hparts : sf.contents.PartsRoundTrip)
    (hs : E.accountAddress.RoundTripsAt txn.Sender) (hn : txn.InRange) :
    ∃ bs : List Nat,
      Serialize (deep.RawTransaction.MarshalBCS E txn) = (bs, none) ∧
      deep.RawTransaction.UnmarshalBCS E R (deep.RawTransaction.zero E)
          { input := bs, err := none }
        = ({ txn with Payload := { Payload := some (.entryFunction (sf.decoded R)) } },
           { input := [], err := none }) ∧
      (deep.RawTransaction.UnmarshalBCS E R (deep.RawTransaction.zero E)
          { input := bs, err := none } = (txn, { input := [], err := none })
        ↔ sf.ReadForm R) ∧
      Serialize (deep.RawTransaction.MarshalBCS E
          (deep.RawTransaction.UnmarshalBCS E R (deep.RawTransaction.zero E)
            { input := bs, err := none }).1) = (bs, none) := by
  obtain ⟨sb, hsm, hsu⟩ := hs
  have hdom : deep.TransactionPayload.RoundTripDomain
      ({ Payload := some (.entryFunction sf) } : deep.TransactionPayload E) := ⟨hr, hparts⟩
  obtain ⟨pb, hpm, hpu⟩ := deep.TransactionPayload_codec_slices R _ hdom
  have hdom2 : deep.TransactionPayload.RoundTripDomain
      ({ Payload := some (.entryFunction (sf.decoded R)) } : deep.TransactionPayload E) := by
    have hc : (sf.decoded R).contents = sf.contents := by
      simp only [deep.EntryFunction.contents, deep.EntryFunction.decoded, Slice_read_elems,
        Slice_elems_make, List.map_map]
      congr 1
      apply List.map_congr_left
      intro a _
      exact Slice_read_elems _ _
    show (sf.decoded R).contents.InRange ∧ (sf.decoded R).contents.PartsRoundTrip
    rw [hc]
    exact ⟨hr, hparts⟩
  have hpm2 : ∀ out, deep.TransactionPayload.MarshalBCS E
      (some { Payload := some (.entryFunction (sf.decoded R)) }) { out := out, err := none }
        = { out := out ++ pb, err := none } := by
    intro out
    have h := hpm out
    simp only [deep.TransactionPayload.MarshalBCS, deep.TransactionPayloadImpl.MarshalBCS,
      deep.TransactionPayloadImpl.PayloadType] at h ⊢
    rw [deep.EntryFunction_MarshalBCS_decoded]
    exact h
  obtain ⟨h1, h2, h3, h4, h5⟩ := hn
  have hmar := deep.RawTransaction_MarshalBCS_of_parts_slices txn sb pb hsm
    (by rw [hp]; exact hpm) []
  rw [List.nil_append] at hmar
  have hdec := deep.RawTransaction_UnmarshalBCS_of_parts_slices R (deep.RawTransaction.zero E)
    txn.Sender ({ Payload := some (.entryFunction (sf.decoded R)) }) sb pb hsu
    (fun rest => hpu _ rest) _ _ _ _ _ h1 h2 h3 h4 h5 []
  simp only [List.append_nil] at hdec
  have hmar2 := deep.RawTransaction_MarshalBCS_of_parts_slices
    ({ txn with Payload := { Payload := some (.entryFunction (sf.decoded R)) } }) sb pb hsm
    hpm2 []
  rw [List.nil_append] at hmar2
  refine ⟨_, Serialize_of_marshal _ _ hmar, hdec, ?_, ?_⟩
  · rw [hdec, ← deep.EntryFunction_decoded_eq_iff R sf]
    constructor
    · intro heq
      have h6 := congrArg (fun r : deep.RawTransaction E × Deserializer => r.1.Payload) heq
      simp only [hp, deep.TransactionPayload.mk.injEq, Option.some.injEq,
        deep.TransactionPayloadImpl.entryFunction.injEq] at h6
      exact h6
    · intro heq
      rw [heq, ← hp]
  · rw [hdec]
    exact Serialize_of_marshal _ _ hmar2

/-- C22, amended, at a concrete input: the `RawTransaction` with the numbers of
`TestRawTransactionSign` and an `EntryFunction` payload whose slices are not
nil and not empty, with readers that return an empty slice that is not nil:
the decoded value is the original and the bytes are stable. -/
theorem RawTransaction_roundtrip_slices_witness :
    ∃ bs : List Nat,
      Serialize (deep.RawTransaction.MarshalBCS Decls.sample
          (deep.RawTransaction.sample deep.TransactionPayload.sample)) = (bs, none) ∧
      deep.RawTransaction.UnmarshalBCS Decls.sample { nilBytes := false, nilSequence := false }
          (deep.RawTransaction.zero Decls.sample) { input := bs, err := none }
        = (deep.RawTransaction.sample deep.TransactionPayload.sample,
           { input := [], err := none }) ∧
      Serialize (deep.RawTransaction.MarshalBCS Decls.sample
          (deep.RawTransaction.UnmarshalBCS Decls.sample
            { nilBytes := false, nilSequence := false }
            (deep.RawTransaction.zero Decls.sample) { input := bs, err := none }).1)
        = (bs, none) := by
  have hparts : (deep.EntryFunction.contents
      ({ Module := [1], Function := [102], ArgTypes := .make [[7]],
         Args := .make [.make [1, 2, 3], .make [9]] } :
        deep.EntryFunction Decls.sample)).PartsRoundTrip :=
    ⟨bytesStruct_roundTripsAt [1] (by decide),
      fun t ht => by
        have ht' : t = [7] := by simpa [deep.EntryFunction.contents, Slice.elems] using ht
        rw [ht']
        exact bytesStruct_roundTripsAt [7] (by decide)⟩
  have hform : deep.EntryFunction.ReadForm { nilBytes := false, nilSequence := false }
      ({ Module := [1], Function := [102], ArgTypes := .make [[7]],
         Args := .make [.make [1, 2, 3], .make [9]] } : deep.EntryFunction Decls.sample) := by
    refine ⟨by decide, rfl, fun a ha => ?_⟩
    have ha' : a = .make [1, 2, 3] ∨ a = .make [9] := by
      simpa [Slice.elems] using ha
    rcases ha' with h | h <;> rw [h] <;> rfl
  obtain ⟨bs, hm, _, hiff, hre⟩ := RawTransaction_roundtrip_slices
    { nilBytes := false, nilSequence := false }
    (deep.RawTransaction.sample deep.TransactionPayload.sample)
    { Module := [1], Function := [102], ArgTypes := .make [[7]],
      Args := .make [.make [1, 2, 3], .make [9]] } rfl
    ⟨by decide, by decide, by decide, by decide⟩ hparts
    (bytesStruct_roundTripsAt [10, 11] (by decide))
    ⟨by decide, by decide, by decide, by decide, by decide⟩
  exact ⟨bs, hm, hiff.2 hform, hre⟩

end deep

end Endless
